import Mathlib

/-!
Terminal session orchestrator (`internal/terminal/hub.go`).

A shallow embedding of the hub. The four registry maps become association
lists. The calls into package `docker` and into the PTY library are answered
by a driver, an arbitrary deterministic machine over a state `σ`, so that a
statement proved for every driver covers every outcome of the engine, and every
call is appended to a log so that statements about issued calls can be read off
the log.

The handlers that run under the mutex are single functions. The timer callback
`pollContainerForIdle` releases the mutex between its locked lookup, its
process query and its final action, so it is given both as one function and as
three phases that other events may interleave with. A timer made by
`time.AfterFunc` starts its callback in a goroutine of its own when the
duration has elapsed, and `Stop` does not recall a callback that has started:
the transition system therefore has an event for the deadline (`fire`) apart
from the events that let a started callback proceed (`poll`).

Closing a send queue that is closed already panics. `closeClient` logs the
`close`, then the entry `panic`, and the handler that called it ends there; the
transition system has no step for an event whose handler panics, since a panic
in the goroutine of `Run` ends the process. The transition system has a
broadcast event because `Run` has a case for it; nothing in the program sends
on the broadcast channel, so the traces of the program have none.

The functions of package `docker` that the claims are about are embedded in
namespace `docker.impl`: each takes the outcome of the command it runs (or of
the check it makes) as an argument and computes what the Go function returns.
The forwarder goroutine `readAndForwardPTYOutput` runs over a list of what its
loop observes turn by turn.

The handlers of the other packages are embedded in the same way. The path
checks of package `files` run over `filepath.Clean` and `filepath.Join` for the
separator `/`; `isValidUTF8` and the payload of a forwarded frame work on byte
strings; the webhook handler takes the HMAC and the JSON parser as parameters;
the user records of package `auth` are a map of records whose numbers are Go
`int`s, wrapped to 64 bits.
-/

set_option autoImplicit false

/-! ## Go maps -/

/-- Go `map[κ]ν` as an association list: the first binding of a key is the
live one. -/
abbrev GoMap (κ ν : Type) := List (κ × ν)

/-- Lookup `m[k]` with the comma-ok flag folded into `Option`. -/
def mapGet {κ ν : Type} [DecidableEq κ] : GoMap κ ν → κ → Option ν
  | [], _ => none
  | (k', v) :: rest, k => if k' = k then some v else mapGet rest k

/-- Key presence, the `_, ok := m[k]` test. -/
def mapHas {κ ν : Type} [DecidableEq κ] (m : GoMap κ ν) (k : κ) : Bool :=
  (mapGet m k).isSome

/-- Builtin `delete(m, k)`. -/
def mapDelete {κ ν : Type} [DecidableEq κ] (m : GoMap κ ν) (k : κ) : GoMap κ ν :=
  m.filter (fun p => !decide (p.1 = k))

/-- Assignment `m[k] = v`. -/
def mapSet {κ ν : Type} [DecidableEq κ] (m : GoMap κ ν) (k : κ) (v : ν) : GoMap κ ν :=
  (k, v) :: mapDelete m k

/-- Keys of the map, in the order a `range` loop of the model visits them. -/
def mapKeys {κ ν : Type} (m : GoMap κ ν) : List κ :=
  m.map Prod.fst

/-! ## Data model -/

/-- Go conversion `uint16(i)` of an `int`: the low 16 bits. -/
def uint16 (i : Int) : Int :=
  i % 65536

/-- Go `int` on a 64-bit platform: two's complement wrap-around. -/
def wrapInt64 (i : Int) : Int :=
  (i + 2 ^ 63) % 2 ^ 64 - 2 ^ 63

namespace docker

/-- Port range of a container (`docker.PortRange`). -/
structure PortRange where
  Start : Int
  End : Int
deriving DecidableEq, Repr

/-- The ten ports starting at `start`. -/
def NewPortRange (start : Int) : PortRange :=
  { Start := start, End := wrapInt64 (start + 9) }

end docker

namespace auth

/-- Authenticated principal (`auth.User`). -/
structure User where
  ID : String
  Email : String
  PortStart : Int
deriving DecidableEq, Repr

end auth

/-- An unstarted `*exec.Cmd`: its argument vector. -/
abbrev Cmd := List String

/-- A non-nil `*os.File` returned by the PTY library. -/
abbrev PTYFile := Nat

/-- Container record of a user (`ContainerInfo`). -/
structure ContainerInfo where
  ContainerName : String
  PortRange : Option docker.PortRange
deriving DecidableEq, Repr

/-- Per-client session record (`SessionInfo`); `none` is the nil pointer. -/
structure SessionInfo where
  UserID : String
  TabID : String
  ContainerName : String
  ContainerAttached : Bool
  PTY : Option PTYFile
  Cmd : Option Cmd
deriving DecidableEq, Repr

/-- The `*Client` pointer: `addr` is the pointer identity, the other fields are
the immutable fields of the struct it points to. -/
structure Client where
  addr : Nat
  User : auth.User
  TabID : String
deriving DecidableEq, Repr

/-- A `*time.Timer` made by `time.AfterFunc`: `fired` says that the duration has
elapsed and the callback has been started in its own goroutine. -/
structure Timer where
  fired : Bool
deriving DecidableEq, Repr

/-- Payload of a resize message (`ResizeData`). -/
structure ResizeData where
  Rows : Int
  Cols : Int
deriving DecidableEq, Repr

/-- Payload of a pty-input message (`PTYInputData`). -/
structure PTYInputData where
  Input : String
deriving DecidableEq, Repr

/-- The registry part of `Hub`: the four maps guarded by the mutex. -/
structure Hub where
  clients : GoMap Client Bool
  userContainers : GoMap String ContainerInfo
  sessions : GoMap Client SessionInfo
  cleanupTimers : GoMap String Timer
deriving DecidableEq, Repr

/-- All four maps empty. -/
def NewHub : Hub :=
  { clients := [], userContainers := [], sessions := [], cleanupTimers := [] }

/-! ## The world outside the hub -/

/-- Calls that leave the hub, as recorded in the log. The entry `panic` is not
a call: it marks the point where a handler stopped in a panic. -/
inductive Call where
  | ContainerExists (containerName : String)
  | ContainerIsRunning (containerName : String)
  | StartContainer (containerName : String)
  | RemoveContainer (containerName : String)
  | SpawnContainer (userID containerName : String) (portRange : Option docker.PortRange)
  | GetContainerProcesses (containerName : String)
  | ListUserContainers
  | AttachToContainer (containerName tabID : String)
  | startPTY (cmd : Cmd)
  | setWinSize (pty : PTYFile) (rows cols : Int)
  | ptyWrite (pty : PTYFile) (input : String)
  | ptyClose (pty : PTYFile)
  | send (client : Client) (message : List UInt8)
  | closeSend (client : Client)
  | connClose (client : Client)
  | goForward (client : Client) (pty : PTYFile)
  | panic
deriving DecidableEq, Repr

/-- Answers of the container engine and of the PTY library: each call maps the
driver state to an outcome and a next state. -/
structure Driver (σ : Type) where
  ContainerExists : String → σ → Except String Bool × σ
  ContainerIsRunning : String → σ → Except String Bool × σ
  StartContainer : String → σ → Except String Unit × σ
  RemoveContainer : String → σ → Except String Unit × σ
  SpawnContainer : String → String → Option docker.PortRange → σ → Except String Unit × σ
  GetContainerProcesses : String → σ → Except String (List String) × σ
  ListUserContainers : σ → Except String String × σ
  AttachToContainer : String → String → σ → Except String Cmd × σ
  startPTY : Cmd → σ → Except String PTYFile × σ
  setWinSize : PTYFile → Int → Int → σ → Except String Unit × σ
  ptyWrite : PTYFile → String → σ → Except String Unit × σ

/-- Driver state together with the log of calls, oldest first. -/
structure World (σ : Type) where
  eng : σ
  calls : List Call

namespace docker

variable {σ : Type}

/-- Call of `docker.ContainerExists`. -/
def ContainerExists (D : Driver σ) (containerName : String) (w : World σ) :
    Except String Bool × World σ :=
  ((D.ContainerExists containerName w.eng).1,
    { eng := (D.ContainerExists containerName w.eng).2,
      calls := w.calls ++ [Call.ContainerExists containerName] })

/-- Call of `docker.ContainerIsRunning`. -/
def ContainerIsRunning (D : Driver σ) (containerName : String) (w : World σ) :
    Except String Bool × World σ :=
  ((D.ContainerIsRunning containerName w.eng).1,
    { eng := (D.ContainerIsRunning containerName w.eng).2,
      calls := w.calls ++ [Call.ContainerIsRunning containerName] })

/-- Call of `docker.StartContainer`. -/
def StartContainer (D : Driver σ) (containerName : String) (w : World σ) :
    Except String Unit × World σ :=
  ((D.StartContainer containerName w.eng).1,
    { eng := (D.StartContainer containerName w.eng).2,
      calls := w.calls ++ [Call.StartContainer containerName] })

/-- Call of `docker.RemoveContainer`. -/
def RemoveContainer (D : Driver σ) (containerName : String) (w : World σ) :
    Except String Unit × World σ :=
  ((D.RemoveContainer containerName w.eng).1,
    { eng := (D.RemoveContainer containerName w.eng).2,
      calls := w.calls ++ [Call.RemoveContainer containerName] })

/-- Call of `docker.SpawnContainer`. -/
def SpawnContainer (D : Driver σ) (userID containerName : String)
    (portRange : Option PortRange) (w : World σ) : Except String Unit × World σ :=
  ((D.SpawnContainer userID containerName portRange w.eng).1,
    { eng := (D.SpawnContainer userID containerName portRange w.eng).2,
      calls := w.calls ++ [Call.SpawnContainer userID containerName portRange] })

/-- Call of `docker.GetContainerProcesses`. -/
def GetContainerProcesses (D : Driver σ) (containerName : String) (w : World σ) :
    Except String (List String) × World σ :=
  ((D.GetContainerProcesses containerName w.eng).1,
    { eng := (D.GetContainerProcesses containerName w.eng).2,
      calls := w.calls ++ [Call.GetContainerProcesses containerName] })

/-- Call of `docker.AttachToContainer`. -/
def AttachToContainer (D : Driver σ) (containerName tabID : String) (w : World σ) :
    Except String Cmd × World σ :=
  ((D.AttachToContainer containerName tabID w.eng).1,
    { eng := (D.AttachToContainer containerName tabID w.eng).2,
      calls := w.calls ++ [Call.AttachToContainer containerName tabID] })

/-- Output of `docker ps -a --filter name=user-container-` asked for by startup
discovery. -/
def ListUserContainers (D : Driver σ) (w : World σ) : Except String String × World σ :=
  ((D.ListUserContainers w.eng).1,
    { eng := (D.ListUserContainers w.eng).2, calls := w.calls ++ [Call.ListUserContainers] })

end docker

namespace strings

/-- White space in the sense of `unicode.IsSpace`. -/
def isSpace (c : Char) : Bool :=
  let n := c.toNat
  (9 ≤ n && n ≤ 13) || n = 32 || n = 0x85 || n = 0xA0 || n = 0x1680 ||
    (0x2000 ≤ n && n ≤ 0x200A) || n = 0x2028 || n = 0x2029 || n = 0x202F ||
    n = 0x205F || n = 0x3000

/-- Go `strings.TrimSpace`. -/
def TrimSpace (s : String) : String :=
  String.mk ((s.data.dropWhile isSpace).reverse.dropWhile isSpace).reverse

/-- Pieces of a character list between occurrences of `sep`. -/
def splitChars (sep : Char) : List Char → List (List Char)
  | [] => [[]]
  | c :: cs =>
    if c = sep then [] :: splitChars sep cs
    else
      match splitChars sep cs with
      | [] => [[c]]
      | p :: ps => (c :: p) :: ps

/-- Go `strings.Split` for a separator of one character. -/
def Split (s : String) (sep : Char) : List String :=
  (splitChars sep s.data).map String.mk

end strings

section hub

variable {σ : Type}

/-- Record a call that returns nothing the hub looks at. -/
def logCall (c : Call) (w : World σ) : World σ :=
  { w with calls := w.calls ++ [c] }

/-- Name of the container of a user, `fmt.Sprintf("user-container-%s", id)`. -/
def containerNameOf (userID : String) : String :=
  "user-container-" ++ userID

/-- The loop of `hasActiveSessionsForUser`. -/
def hasActiveSessionsForUser (h : Hub) (userID : String) : Bool :=
  h.sessions.any (fun p => decide (p.2.UserID = userID))

/-- Stop and forget the timer of the user, if there is one. -/
def cancelIdlePoller (h : Hub) (userID : String) : Hub :=
  match mapGet h.cleanupTimers userID with
  | some _ => { h with cleanupTimers := mapDelete h.cleanupTimers userID }
  | none => h

/-- Cancel, then arm a fresh timer for the user. -/
def startIdlePoller (h : Hub) (userID : String) : Hub :=
  let h1 := cancelIdlePoller h userID
  { h1 with cleanupTimers := mapSet h1.cleanupTimers userID { fired := false } }

/-- Record `ContainerInfo{containerName, portRange}` under the user. -/
def recordContainer (h : Hub) (userID containerName : String)
    (portRange : Option docker.PortRange) : Hub :=
  { h with userContainers :=
      mapSet h.userContainers userID { ContainerName := containerName, PortRange := portRange } }

/-- Ensure the container of the client's user (`setupUserContainer`). -/
def setupUserContainer (D : Driver σ) (client : Client) (h : Hub) (w : World σ) :
    Hub × World σ :=
  let userID := client.User.ID
  let containerName := containerNameOf userID
  match mapGet h.userContainers userID with
  | none =>
    match docker.ContainerExists D containerName w with
    | (.error _, w1) => (h, w1)
    | (.ok found, w1) =>
      let portRange := docker.NewPortRange client.User.PortStart
      if found then
        match docker.ContainerIsRunning D containerName w1 with
        | (.error _, w2) => (h, w2)
        | (.ok running, w2) =>
          if running then
            (recordContainer h userID containerName (some portRange), w2)
          else
            match docker.StartContainer D containerName w2 with
            | (.error _, w3) =>
              let w4 := (docker.RemoveContainer D containerName w3).2
              match docker.SpawnContainer D userID containerName (some portRange) w4 with
              | (.error _, w5) => (h, w5)
              | (.ok _, w5) => (recordContainer h userID containerName (some portRange), w5)
            | (.ok _, w3) => (recordContainer h userID containerName (some portRange), w3)
      else
        match docker.SpawnContainer D userID containerName (some portRange) w1 with
        | (.error _, w2) => (h, w2)
        | (.ok _, w2) => (recordContainer h userID containerName (some portRange), w2)
  | some _ =>
    match docker.ContainerIsRunning D containerName w with
    | (.error _, w1) => (h, w1)
    | (.ok running, w1) =>
      if !running then
        match docker.StartContainer D containerName w1 with
        | (.error _, w2) =>
          let h1 := { h with userContainers := mapDelete h.userContainers userID }
          let w3 := (docker.RemoveContainer D containerName w2).2
          let portRange := docker.NewPortRange client.User.PortStart
          match docker.SpawnContainer D userID containerName (some portRange) w3 with
          | (.error _, w4) => (h1, w4)
          | (.ok _, w4) => (recordContainer h1 userID containerName (some portRange), w4)
        | (.ok _, w2) => (h, w2)
      else (h, w1)

/-- Handler of a register event (`registerClient`). -/
def registerClient (D : Driver σ) (client : Client) (h : Hub) (w : World σ) :
    Hub × World σ :=
  let h1 := { h with clients := mapSet h.clients client true }
  let h2 := cancelIdlePoller h1 client.User.ID
  let r := setupUserContainer D client h2 w
  let h3 := r.1
  let containerName := containerNameOf client.User.ID
  let session : SessionInfo :=
    { UserID := client.User.ID, TabID := client.TabID, ContainerName := containerName,
      ContainerAttached := false, PTY := none, Cmd := none }
  ({ h3 with sessions := mapSet h3.sessions client session }, r.2)

/-- Whether the send queue of the client has been closed: the log has a
`close(client.Send)`. -/
def sendClosed (client : Client) (w : World σ) : Bool :=
  decide (Call.closeSend client ∈ w.calls)

/-- Whether a handler has stopped in a panic. -/
def panicked (w : World σ) : Bool :=
  decide (Call.panic ∈ w.calls)

/-- Close the send queue and the connection of a client (`closeClient`). The
`close` of a queue that is closed already panics: the log gets the `close` and
the panic, and the connection is not closed. -/
def closeClient (client : Client) (w : World σ) : World σ :=
  if sendClosed client w then logCall Call.panic (logCall (Call.closeSend client) w)
  else logCall (Call.connClose client) (logCall (Call.closeSend client) w)

/-- Handler of an unregister event (`unregisterClient`). When `closeClient`
panics the handler ends there: the client is out of `clients`, and nothing of
what follows the call is done. -/
def unregisterClient (client : Client) (h : Hub) (w : World σ) : Hub × World σ :=
  match mapGet h.clients client with
  | some _ =>
    let h1 := { h with clients := mapDelete h.clients client }
    let w1 := closeClient client w
    if sendClosed client w then (h1, w1)
    else
      match mapGet h1.sessions client with
      | some session =>
        let w2 := match session.PTY with
          | some pty => logCall (Call.ptyClose pty) w1
          | none => w1
        let h2 := { h1 with sessions := mapDelete h1.sessions client }
        if !hasActiveSessionsForUser h2 session.UserID then
          (startIdlePoller h2 session.UserID, w2)
        else (h2, w2)
      | none => (h1, w1)
  | none => (h, w)

end hub

section hub2

variable {σ : Type}

/-- One iteration of the loop of `broadcastMessage`; `blocked client` says that
the non-blocking send on the client's queue would not go through. A send on a
queue that is closed panics, and a panic ends the loop. -/
def broadcastOne (message : List UInt8) (blocked : Client → Bool)
    (hw : Hub × World σ) (client : Client) : Hub × World σ :=
  if panicked hw.2 then hw
  else if sendClosed client hw.2 then (hw.1, logCall Call.panic hw.2)
  else if blocked client then
    ({ hw.1 with clients := mapDelete hw.1.clients client }, closeClient client hw.2)
  else (hw.1, logCall (Call.send client message) hw.2)

/-- Handler of a broadcast event (`broadcastMessage`). -/
def broadcastMessage (message : List UInt8) (blocked : Client → Bool)
    (h : Hub) (w : World σ) : Hub × World σ :=
  (mapKeys h.clients).foldl (broadcastOne message blocked) (h, w)

/-- One iteration of the loop of `discoverExistingContainers`. -/
def discoverOne (D : Driver σ) (hw : Hub × World σ) (containerName : String) :
    Hub × World σ :=
  if containerName = "" then hw
  else
    match strings.Split containerName (Char.ofNat 45) with
    | [p0, p1, userID] =>
      if p0 ≠ "user" ∨ p1 ≠ "container" then hw
      else
        match docker.ContainerIsRunning D containerName hw.2 with
        | (.error _, w1) => (hw.1, w1)
        | (.ok running, w1) =>
          if running then (recordContainer hw.1 userID containerName none, w1)
          else (recordContainer hw.1 userID containerName none, w1)
    | _ => hw

/-- Startup discovery of containers left by an earlier run
(`discoverExistingContainers`). -/
def discoverExistingContainers (D : Driver σ) (h : Hub) (w : World σ) : Hub × World σ :=
  match docker.ListUserContainers D w with
  | (.error _, w1) => (h, w1)
  | (.ok output, w1) =>
    (strings.Split (strings.TrimSpace output) (Char.ofNat 10)).foldl (discoverOne D) (h, w1)

/-- One iteration of the loop of `startPollersForOrphanedContainers`. -/
def startPollerIfOrphaned (h : Hub) (userID : String) : Hub :=
  if !hasActiveSessionsForUser h userID then startIdlePoller h userID else h

/-- Arm a timer for every recorded container without a session
(`startPollersForOrphanedContainers`). -/
def startPollersForOrphanedContainers (h : Hub) : Hub :=
  (mapKeys h.userContainers).foldl startPollerIfOrphaned h

/-- What `pollContainerForIdle` does once the process query has returned. -/
def pollAct (D : Driver σ) (userID containerName : String)
    (result : Except String (List String)) (h : Hub) (w : World σ) : Hub × World σ :=
  match result with
  | .error _ => (startIdlePoller h userID, w)
  | .ok processes =>
    if processes.length = 0 then
      let w1 := (docker.RemoveContainer D containerName w).2
      ({ h with userContainers := mapDelete h.userContainers userID }, w1)
    else (startIdlePoller h userID, w)

/-- Timer callback (`pollContainerForIdle`), run without interruption. -/
def pollContainerForIdle (D : Driver σ) (userID : String) (h : Hub) (w : World σ) :
    Hub × World σ :=
  match mapGet h.userContainers userID with
  | none => (h, w)
  | some containerInfo =>
    let containerName := containerInfo.ContainerName
    let r := docker.GetContainerProcesses D containerName w
    pollAct D userID containerName r.1 h r.2

/-- Where a running timer callback stands: before the locked lookup, between
the lookup and the process query, or holding the result of the query. -/
inductive PollPC where
  | atLookup
  | atQuery (containerName : String)
  | atResult (containerName : String) (result : Except String (List String))

/-- One phase of the timer callback; the mutex is free between phases. The
third component is `none` when the callback has returned. -/
def pollStep (D : Driver σ) (userID : String) (pc : PollPC) (h : Hub) (w : World σ) :
    Hub × World σ × Option PollPC :=
  match pc with
  | .atLookup =>
    match mapGet h.userContainers userID with
    | none => (h, w, none)
    | some containerInfo => (h, w, some (.atQuery containerInfo.ContainerName))
  | .atQuery containerName =>
    let r := docker.GetContainerProcesses D containerName w
    (h, r.2, some (.atResult containerName r.1))
  | .atResult containerName result =>
    let r := pollAct D userID containerName result h w
    (r.1, r.2, none)

/-- Call of `startPTY`. -/
def startPTY (D : Driver σ) (cmd : Cmd) (w : World σ) : Except String PTYFile × World σ :=
  ((D.startPTY cmd w.eng).1,
    { eng := (D.startPTY cmd w.eng).2, calls := w.calls ++ [Call.startPTY cmd] })

/-- Function `setWinSize` of `hub.go`: it calls `pty.Setsize` with the rows and
the columns narrowed to `uint16`. The driver answers for `pty.Setsize`, and the
log has the size that the PTY library is given. -/
def setWinSize (D : Driver σ) (pty : PTYFile) (rows cols : Int) (w : World σ) :
    Except String Unit × World σ :=
  ((D.setWinSize pty (uint16 rows) (uint16 cols) w.eng).1,
    { eng := (D.setWinSize pty (uint16 rows) (uint16 cols) w.eng).2,
      calls := w.calls ++ [Call.setWinSize pty (uint16 rows) (uint16 cols)] })

/-- Call of `session.PTY.Write`. -/
def ptyWrite (D : Driver σ) (pty : PTYFile) (input : String) (w : World σ) :
    Except String Unit × World σ :=
  ((D.ptyWrite pty input w.eng).1,
    { eng := (D.ptyWrite pty input w.eng).2, calls := w.calls ++ [Call.ptyWrite pty input] })

/-- The restart part of `attachToContainer`: make sure the container runs. -/
def ensureRunning (D : Driver σ) (client : Client) (session : SessionInfo) (running : Bool)
    (w : World σ) : Except String Unit × World σ :=
  if !running then
    match docker.StartContainer D session.ContainerName w with
    | (.error _, w1) =>
      let portRange := docker.NewPortRange client.User.PortStart
      match docker.SpawnContainer D client.User.ID session.ContainerName (some portRange) w1 with
      | (.error e, w2) => (.error ("failed to spawn replacement container: " ++ e), w2)
      | (.ok _, w2) => (.ok (), w2)
    | (.ok _, w1) => (.ok (), w1)
  else (.ok (), w)

/-- Lazy attach of a session (`attachToContainer`); returns the session as the
stores through the pointer leave it. -/
def attachToContainer (D : Driver σ) (client : Client) (session : SessionInfo)
    (w : World σ) : Except String Unit × SessionInfo × World σ :=
  match docker.ContainerIsRunning D session.ContainerName w with
  | (.error e, w1) => (.error ("failed to check container status: " ++ e), session, w1)
  | (.ok running, w1) =>
    match ensureRunning D client session running w1 with
    | (.error e, w2) => (.error e, session, w2)
    | (.ok _, w2) =>
      match docker.AttachToContainer D session.ContainerName session.TabID w2 with
      | (.error e, w3) => (.error ("failed to attach to container: " ++ e), session, w3)
      | (.ok cmd, w3) =>
        match startPTY D cmd w3 with
        | (.error e, w4) => (.error ("failed to start PTY: " ++ e), session, w4)
        | (.ok pty, w4) =>
          (.ok (),
            { session with PTY := some pty, Cmd := some cmd, ContainerAttached := true },
            logCall (Call.goForward client pty) w4)

/-- Handler of a resize message (`HandleResize`); `data` is the outcome of
`json.Unmarshal` on the message. -/
def HandleResize (D : Driver σ) (client : Client) (data : Except String ResizeData)
    (h : Hub) (w : World σ) : Except String Unit × Hub × World σ :=
  match mapGet h.sessions client with
  | none => (.error "no session found", h, w)
  | some session =>
    match data with
    | .error e => (.error ("failed to unmarshal resize data: " ++ e), h, w)
    | .ok resizeData =>
      let r : Except String Unit × SessionInfo × World σ :=
        if !session.ContainerAttached then attachToContainer D client session w
        else (.ok (), session, w)
      let h1 := { h with sessions := mapSet h.sessions client r.2.1 }
      match r.1 with
      | .error e => (.error ("failed to attach to container: " ++ e), h1, r.2.2)
      | .ok _ =>
        match r.2.1.PTY with
        | some pty =>
          match setWinSize D pty resizeData.Rows resizeData.Cols r.2.2 with
          | (.error e, w2) => (.error ("failed to set window size: " ++ e), h1, w2)
          | (.ok _, w2) => (.ok (), h1, w2)
        | none => (.ok (), h1, r.2.2)

/-- Handler of a pty-input message (`HandlePTYInput`). -/
def HandlePTYInput (D : Driver σ) (client : Client) (data : Except String PTYInputData)
    (h : Hub) (w : World σ) : Except String Unit × Hub × World σ :=
  match mapGet h.sessions client with
  | none => (.error "no active PTY session", h, w)
  | some session =>
    match session.PTY with
    | none => (.error "no active PTY session", h, w)
    | some pty =>
      match data with
      | .error e => (.error ("failed to unmarshal PTY input: " ++ e), h, w)
      | .ok inputData =>
        let r := ptyWrite D pty inputData.Input w
        (r.1, h, r.2)

/-! ## The hub as a transition system -/

/-- Registry, outside world, and the timer callbacks that have been started
and have not returned yet. -/
structure Sys (σ : Type) where
  hub : Hub
  world : World σ
  polls : List (String × PollPC)

/-- The events the hub reacts to. `fire` is a timer reaching its deadline,
which starts its callback; `poll i` lets the i-th running callback do its next
phase; `startup` is the prologue of `Run`. -/
inductive Event where
  | register (client : Client)
  | unregister (client : Client)
  | broadcast (message : List UInt8) (blocked : Client → Bool)
  | startup
  | fire (userID : String)
  | poll (i : Nat)
  | resize (client : Client) (data : Except String ResizeData)
  | ptyInput (client : Client) (data : Except String PTYInputData)

/-- One event; `none` when the event cannot happen in the state, and when its
handler panics: a panic in the goroutine of `Run` ends the process, so there is
no state to go on from. -/
def step (D : Driver σ) (s : Sys σ) : Event → Option (Sys σ)
  | .register client =>
    let r := registerClient D client s.hub s.world
    some { s with hub := r.1, world := r.2 }
  | .unregister client =>
    let r := unregisterClient client s.hub s.world
    if panicked r.2 then none else some { s with hub := r.1, world := r.2 }
  | .broadcast message blocked =>
    let r := broadcastMessage message blocked s.hub s.world
    if panicked r.2 then none else some { s with hub := r.1, world := r.2 }
  | .startup =>
    let r := discoverExistingContainers D s.hub s.world
    some { s with hub := startPollersForOrphanedContainers r.1, world := r.2 }
  | .fire userID =>
    match mapGet s.hub.cleanupTimers userID with
    | some timer =>
      if timer.fired then none
      else
        let hub := s.hub
        some { s with
          hub := { hub with cleanupTimers := mapSet hub.cleanupTimers userID { fired := true } }
          polls := s.polls ++ [(userID, PollPC.atLookup)] }
    | none => none
  | .poll i =>
    match s.polls.get? i with
    | some (userID, pc) =>
      let r := pollStep D userID pc s.hub s.world
      some { hub := r.1, world := r.2.1,
             polls := match r.2.2 with
               | some pc1 => s.polls.set i (userID, pc1)
               | none => s.polls.eraseIdx i }
    | none => none
  | .resize client data =>
    let r := HandleResize D client data s.hub s.world
    some { s with hub := r.2.1, world := r.2.2 }
  | .ptyInput client data =>
    let r := HandlePTYInput D client data s.hub s.world
    some { s with hub := r.2.1, world := r.2.2 }

/-- A sequence of events, oldest first. -/
def run (D : Driver σ) : Sys σ → List Event → Option (Sys σ)
  | s, [] => some s
  | s, e :: es =>
    match step D s e with
    | some s1 => run D s1 es
    | none => none

/-- A new hub in a world whose driver is in state `eng`. -/
def initSys (eng : σ) : Sys σ :=
  { hub := NewHub, world := { eng := eng, calls := [] }, polls := [] }

end hub2

/-! ## Concrete drivers and clients for the worked traces -/

/-- A driver without state: no container is found by the existence query,
start, remove and spawn succeed, the running query reports a running
container, and the process query always answers `procs`. -/
def steadyDriver (procs : Except String (List String)) : Driver Unit where
  ContainerExists _ s := (.ok false, s)
  ContainerIsRunning _ s := (.ok true, s)
  StartContainer _ s := (.ok (), s)
  RemoveContainer _ s := (.ok (), s)
  SpawnContainer _ _ _ s := (.ok (), s)
  GetContainerProcesses _ s := (procs, s)
  ListUserContainers s := (.ok "", s)
  AttachToContainer name tab s := (.ok ["docker", "exec", "-it", name, tab], s)
  startPTY _ s := (.ok 7, s)
  setWinSize _ _ _ s := (.ok (), s)
  ptyWrite _ _ s := (.ok (), s)

/-- The principal of the worked traces. -/
def alice : auth.User :=
  { ID := "U1", Email := "alice@example.com", PortStart := 8000 }

/-- First stream of `alice`. -/
def tab1 : Client :=
  { addr := 1, User := alice, TabID := "1" }

/-- Second stream of `alice`. -/
def tab2 : Client :=
  { addr := 2, User := alice, TabID := "2" }

/-- A world with an empty log over the stateless driver. -/
def emptyWorld : World Unit :=
  { eng := (), calls := [] }

/-- A stateless engine in which every call fails. -/
def brokenDriver : Driver Unit where
  ContainerExists _ s := (.error "docker: cannot connect", s)
  ContainerIsRunning _ s := (.error "docker: cannot connect", s)
  StartContainer _ s := (.error "docker: cannot connect", s)
  RemoveContainer _ s := (.error "docker: cannot connect", s)
  SpawnContainer _ _ _ s := (.error "docker: cannot connect", s)
  GetContainerProcesses _ s := (.error "docker: cannot connect", s)
  ListUserContainers s := (.error "docker: cannot connect", s)
  AttachToContainer _ _ s := (.error "docker: cannot connect", s)
  startPTY _ s := (.error "pty: cannot start", s)
  setWinSize _ _ _ s := (.error "pty: cannot resize", s)
  ptyWrite _ _ s := (.error "pty: cannot write", s)

/-- A stateless engine whose container exists and is stopped; `startOk` says
whether starting it succeeds. Remove and spawn succeed. -/
def stoppedDriver (startOk : Bool) : Driver Unit where
  ContainerExists _ s := (.ok true, s)
  ContainerIsRunning _ s := (.ok false, s)
  StartContainer _ s := if startOk then (.ok (), s) else (.error "failed to start container", s)
  RemoveContainer _ s := (.ok (), s)
  SpawnContainer _ _ _ s := (.ok (), s)
  GetContainerProcesses _ s := (.error "container is not running", s)
  ListUserContainers s := (.ok "user-container-U1", s)
  AttachToContainer _ _ s := (.error "container is not running", s)
  startPTY _ s := (.ok 7, s)
  setWinSize _ _ _ s := (.ok (), s)
  ptyWrite _ _ s := (.ok (), s)

/-- The container record made for `alice`. -/
def aliceContainer : ContainerInfo :=
  { ContainerName := "user-container-U1", PortRange := some { Start := 8000, End := 8009 } }

/-- The unattached session of a stream of `alice`. -/
def aliceSession (tabID : String) : SessionInfo :=
  { UserID := "U1", TabID := tabID, ContainerName := "user-container-U1",
    ContainerAttached := false, PTY := none, Cmd := none }

/-- Registry with the container of `alice` recorded, no stream open and the
timer of `alice` already fired. -/
def idleHub : Hub :=
  { clients := [], userContainers := [("U1", aliceContainer)], sessions := [],
    cleanupTimers := [("U1", { fired := true })] }

/-- Registry with both streams of `alice` registered. -/
def twoTabsHub : Hub :=
  { clients := [(tab2, true), (tab1, true)], userContainers := [("U1", aliceContainer)],
    sessions := [(tab2, aliceSession "2"), (tab1, aliceSession "1")], cleanupTimers := [] }

/-- Registry with only the first stream of `alice` registered. -/
def oneTabHub : Hub :=
  { clients := [(tab1, true)], userContainers := [("U1", aliceContainer)],
    sessions := [(tab1, aliceSession "1")], cleanupTimers := [] }

/-- A stream registers, sends its first resize and then some input. -/
def attachTrace : List Event :=
  [Event.register tab1, Event.resize tab1 (.ok { Rows := 24, Cols := 80 }),
   Event.ptyInput tab1 (.ok { Input := "ls" })]

/-- A stream registers and goes away again. -/
def connectDisconnectTrace : List Event :=
  [Event.register tab1, Event.unregister tab1]

/-- State of a one-container engine: how many spawn attempts still fail, and
whether the container exists and runs. -/
structure EngineState where
  spawnFailures : Nat
  up : Bool
deriving DecidableEq, Repr

/-- An engine with one container. The queries report `up`; a spawn fails while
`spawnFailures` is positive (using one failure up) and otherwise succeeds and
leaves the container existing and running; start succeeds only on a running
container; remove takes the container away; the process list is empty. -/
def flakyDriver : Driver EngineState where
  ContainerExists _ s := (.ok s.up, s)
  ContainerIsRunning _ s := (.ok s.up, s)
  StartContainer _ s := if s.up then (.ok (), s) else (.error "failed to start container", s)
  RemoveContainer _ s := (.ok (), { s with up := false })
  SpawnContainer _ _ _ s :=
    if s.up then (.error "container already exists", s)
    else
      match s.spawnFailures with
      | 0 => (.ok (), { s with up := true })
      | n + 1 => (.error "failed to start container", { s with spawnFailures := n })
  GetContainerProcesses _ s :=
    if s.up then (.ok [], s) else (.error "failed to get container processes", s)
  ListUserContainers s := (.ok (if s.up then "user-container-U1" else ""), s)
  AttachToContainer name tab s :=
    if s.up then (.ok ["docker", "exec", "-it", name, tab], s)
    else (.error "container is not running", s)
  startPTY _ s := (.ok 7, s)
  setWinSize _ _ _ s := (.ok (), s)
  ptyWrite _ _ s := (.ok (), s)

/-- Whether a logged call is a spawn. -/
def isSpawnCall : Call → Bool
  | .SpawnContainer _ _ _ => true
  | _ => false

/-- Number of spawn calls in a log. -/
def spawnCalls (calls : List Call) : Nat :=
  calls.countP isSpawnCall

/-- Number of `ContainerInfo` records held for a user. -/
def containerInfoCount (h : Hub) (userID : String) : Nat :=
  (h.userContainers.filter (fun p => decide (p.1 = userID))).length

/-! ## Invariants of the registry -/

/-- Every session carries the user id of the client it is filed under. -/
def SessionsOwned (h : Hub) : Prop :=
  ∀ p ∈ h.sessions, p.2.UserID = p.1.User.ID

/-- Every user with a recorded container and no session has a timer entry. -/
def OrphansWatched (h : Hub) : Prop :=
  ∀ u, hasActiveSessionsForUser h u = false → mapHas h.userContainers u = true →
    mapHas h.cleanupTimers u = true

/-- A session is marked attached exactly when it holds a PTY. -/
def AttachedIffPTY (h : Hub) : Prop :=
  ∀ p ∈ h.sessions, (p.2.ContainerAttached = true ↔ p.2.PTY.isSome = true)

/-- The three invariants together. -/
def HubInv (h : Hub) : Prop :=
  SessionsOwned h ∧ OrphansWatched h ∧ AttachedIffPTY h

/-! ## Package docker: the functions behind the driver -/

namespace strings

/-- Fields of a character list: `cur` holds the field being read, reversed. -/
def fieldsAux : List Char → List Char → List (List Char)
  | [], cur => if cur.isEmpty then [] else [cur.reverse]
  | c :: cs, cur =>
    if isSpace c then
      if cur.isEmpty then fieldsAux cs [] else cur.reverse :: fieldsAux cs []
    else fieldsAux cs (c :: cur)

/-- Go `strings.Fields`: the pieces between runs of white space, none empty. -/
def Fields (s : String) : List String :=
  (fieldsAux s.data []).map String.mk

/-- Go `strings.HasPrefix`. -/
def HasPrefix (s pre : String) : Bool :=
  pre.data.isPrefixOf s.data

/-- Whether `sub` occurs in `s` at its start or further on. -/
def containsChars (sub : List Char) : List Char → Bool
  | [] => sub.isEmpty
  | c :: cs => sub.isPrefixOf (c :: cs) || containsChars sub cs

/-- Go `strings.Contains`. -/
def Contains (s substr : String) : Bool :=
  containsChars substr.data s.data

end strings

namespace docker

/-- Name of the isolated bridge network (`NetworkName`). -/
def NetworkName : String := "isolated_net"

namespace impl

/-- The loop that looks for the `COMMAND` column: the index of its first
occurrence from position `i` on, if any. -/
def findCommand : List String → Nat → Option Nat
  | [], _ => none
  | col :: rest, i => if col = "COMMAND" then some i else findCommand rest (i + 1)

/-- Index of the command column: the `COMMAND` column when the header has one,
the last column otherwise. -/
def commandIndex (headerCols : List String) : Int :=
  match findCommand headerCols 0 with
  | some i => (i : Int)
  | none => (headerCols.length : Int) - 1

/-- The test that skips infrastructure processes. -/
def isInfrastructure (cmdStr : String) : Bool :=
  strings.HasPrefix cmdStr "/sbin/tini" ||
  strings.HasPrefix cmdStr "tmux " ||
  strings.HasPrefix cmdStr "-sh" ||
  strings.HasPrefix cmdStr "sh" ||
  strings.HasPrefix cmdStr "-ash" ||
  cmdStr == "sleep infinity" ||
  cmdStr == "bash"

/-- One iteration of the loop over the rows of the listing. -/
def processRow (cmdIdx : Int) (processes : List String) (line : String) : List String :=
  let cols := strings.Fields line
  if (cols.length : Int) > cmdIdx then
    match cols.get? cmdIdx.toNat with
    | some cmdStr => if isInfrastructure cmdStr then processes else processes ++ [cmdStr]
    | none => processes
  else processes

/-- Body of `GetContainerProcesses`; `top` is the outcome of running
`docker top <name>` (its standard output, or the error). -/
def GetContainerProcesses (top : Except String String) : Except String (List String) :=
  match top with
  | .error e => .error ("failed to get container processes: " ++ e)
  | .ok output =>
    match strings.Split (strings.TrimSpace output) (Char.ofNat 10) with
    | header :: row :: rows =>
      .ok ((row :: rows).foldl (processRow (commandIndex (strings.Fields header))) [])
    | _ => .ok []

/-- Body of `AttachToContainer`; `running` is the outcome of the running check
`containerIsRunningFn(containerName)`. -/
def AttachToContainer (running : Except String Bool) (containerName tabID : String) :
    Except String Cmd :=
  match running with
  | .error e => .error ("failed to check container status: " ++ e)
  | .ok false => .error ("container " ++ containerName ++ " is not running")
  | .ok true =>
    let sessionName := "3compute-tab" ++ tabID
    let tmuxCmd :=
      "tmux set -g mouse on; tmux set -g status off; tmux set -g history-limit 100000; tmux new-session -d -A -s "
        ++ sessionName ++ "; tmux attach -t " ++ sessionName
    .ok ["docker", "exec", "-it", containerName, "sh", "-lc", tmuxCmd]

/-- The port mapping `fmt.Sprintf("%d-%d:%d-%d", Start, End, Start, End)`. -/
def portMapping (portRange : PortRange) : String :=
  toString portRange.Start ++ "-" ++ toString portRange.End ++ ":" ++
    toString portRange.Start ++ "-" ++ toString portRange.End

/-- The argument list of `docker run` built by `SpawnContainer`; `cpus` and
`memory` are the formatted resource limits `fmt.Sprintf("%.1f", cpuPerUser)` and
`fmt.Sprintf("%.0fm", memoryPerUser)`. -/
def spawnArgs (cpus memory userID containerName : String)
    (portRange : Option PortRange) : List String :=
  let args := ["run", "-d", "--rm", "--name", containerName, "--hostname", "3compute",
    "--network=" ++ NetworkName, "--cap-drop=ALL", "--user=999:995",
    "--security-opt", "no-new-privileges", "--cpus", cpus, "--memory", memory,
    "-v", "/tmp/uploads/" ++ userID ++ ":/app"]
  let args1 :=
    match portRange with
    | some pr => args ++ ["-p", portMapping pr]
    | none => args
  args1 ++ ["3compute"]

/-- Body of `SpawnContainer`. The outcomes of what it calls are given: `found`
for `ContainerExists`, `prepared` for `PrepareUserDirectory`, `started` for
running the command. Returns the error value and the command that was run,
if one was. -/
def SpawnContainer (cpus memory : String) (found : Except String Bool)
    (prepared started : Except String Unit) (userID containerName : String)
    (portRange : Option PortRange) : Except String Unit × Option Cmd :=
  match found with
  | .error e => (.error ("failed to check if container exists: " ++ e), none)
  | .ok true => (.error ("container " ++ containerName ++ " already exists"), none)
  | .ok false =>
    match prepared with
    | .error e => (.error ("failed to prepare user directory: " ++ e), none)
    | .ok _ =>
      let cmd := "docker" :: spawnArgs cpus memory userID containerName portRange
      match started with
      | .error e => (.error ("failed to start container: " ++ e), some cmd)
      | .ok _ => (.ok (), some cmd)

end impl

end docker

namespace auth

/-- Last port of the user (`User.PortEnd`). -/
def User.PortEnd (u : User) : Int :=
  wrapInt64 (u.PortStart + 9)

/-- First and last port of the user (`User.PortRange`). -/
def User.PortRange (u : User) : Int × Int :=
  (u.PortStart, u.PortEnd)

end auth

/-- The client made by `ServeWS` for an upgraded connection, `none` when the
upgrade fails; `tabIdParam` is `r.URL.Query().Get("tabId")`, empty when the
parameter is missing, and `addr` is where the new `Client` is allocated. -/
def ServeWS (upgraded : Bool) (addr : Nat) (user : auth.User) (tabIdParam : String) :
    Option Client :=
  if upgraded then
    let tabID := if tabIdParam = "" then "1" else tabIdParam
    some { addr := addr, User := user, TabID := tabID }
  else none

/-! ## The forwarder -/

/-- What one turn of the forwarder's loop finds: whether the hub context is
done, what `session.PTY.Read` returns (an error, end of stream included, or
the bytes read), and whether the send on the client's queue goes through
before the one second timer. -/
structure ForwardObs where
  done : Bool
  read : Except String (List UInt8)
  sendOk : Bool

/-- How far the forwarder has got: still in its loop, returned, or stopped by
a panic. -/
inductive ForwardEnd where
  | running
  | returned
  | panicked
deriving DecidableEq, Repr

section forwarder

variable {σ : Type}

/-- The loop of `readAndForwardPTYOutput` over the turns in `obs`; `marshal`
is `json.Marshal` of the pty-output message for a chunk. A send on a queue that
`closeClient` has closed panics. The loop is still running when the turns are
used up. -/
def forwardLoop (marshal : List UInt8 → Except String (List UInt8)) (client : Client) :
    List ForwardObs → World σ → World σ × ForwardEnd
  | [], w => (w, ForwardEnd.running)
  | o :: rest, w =>
    if o.done then (w, ForwardEnd.returned)
    else
      match o.read with
      | .error _ => (w, ForwardEnd.returned)
      | .ok chunk =>
        if chunk.length > 0 then
          match marshal chunk with
          | .error _ => forwardLoop marshal client rest w
          | .ok msgBytes =>
            if Call.closeSend client ∈ w.calls then (w, ForwardEnd.panicked)
            else if o.sendOk then
              forwardLoop marshal client rest (logCall (Call.send client msgBytes) w)
            else (w, ForwardEnd.returned)
        else forwardLoop marshal client rest w

/-- The goroutine `readAndForwardPTYOutput`: the loop, and when the loop ends,
by return or by panic, the deferred function, which closes `session.PTY` when
it is not nil. -/
def readAndForwardPTYOutput (marshal : List UInt8 → Except String (List UInt8))
    (client : Client) (session : SessionInfo) (obs : List ForwardObs) (w : World σ) :
    World σ × ForwardEnd :=
  let r := forwardLoop marshal client obs w
  match r.2 with
  | ForwardEnd.running => r
  | ended =>
    match session.PTY with
    | some pty => (logCall (Call.ptyClose pty) r.1, ended)
    | none => (r.1, ended)

end forwarder

/-! ## Counting calls in the log -/

/-- Whether a logged call is `docker.AttachToContainer`. -/
def isAttachCall : Call → Bool
  | .AttachToContainer _ _ => true
  | _ => false

/-- Whether a logged call is the start of a forwarder, which `attachToContainer`
does exactly when the attach has succeeded. -/
def isForwardStart : Call → Bool
  | .goForward _ _ => true
  | _ => false

/-- Number of `docker.AttachToContainer` calls in a log. -/
def attachCalls (calls : List Call) : Nat :=
  calls.countP isAttachCall

/-- Number of `startPTY` calls in a log. -/
def startPTYCalls (calls : List Call) : Nat :=
  calls.countP (fun c => match c with
    | .startPTY _ => true
    | _ => false)

/-- Number of successful attaches in a log. -/
def forwardStarts (calls : List Call) : Nat :=
  calls.countP isForwardStart

/-- Number of `Close` calls on a PTY handle in a log. -/
def closeCalls (pty : PTYFile) (calls : List Call) : Nat :=
  calls.count (Call.ptyClose pty)

/-- The `pty.Setsize` calls due for a sequence of resize messages on a session
attached to `pty`: one for each message that unmarshals, with the rows and the
columns of the message narrowed to `uint16`. -/
def resizeCalls (pty : PTYFile) : List (Except String ResizeData) → List Call
  | [] => []
  | .ok resizeData :: rest =>
    Call.setWinSize pty (uint16 resizeData.Rows) (uint16 resizeData.Cols) ::
      resizeCalls pty rest
  | .error _ :: rest => resizeCalls pty rest

/-- Whether the client has a session marked attached. -/
def isAttached (h : Hub) (client : Client) : Bool :=
  match mapGet h.sessions client with
  | some session => session.ContainerAttached
  | none => false

/-! ## More worked inputs -/

/-- An engine like `steadyDriver` whose PTY start always fails. -/
def noPtyDriver : Driver Unit :=
  { steadyDriver (.ok []) with startPTY := fun _ s => (.error "fork/exec: resource unavailable", s) }

/-- A stream registers and sends two resize messages. -/
def twoResizeTrace : List Event :=
  [Event.register tab1, Event.resize tab1 (.ok { Rows := 24, Cols := 80 }),
   Event.resize tab1 (.ok { Rows := 30, Cols := 100 })]

/-- A stream registers and sends its first resize. -/
def firstResizeTrace : List Event :=
  [Event.register tab1, Event.resize tab1 (.ok { Rows := 24, Cols := 80 })]

/-- The session of `tab1` once attached under `steadyDriver`. -/
def attachedSession : SessionInfo :=
  { UserID := "U1", TabID := "1", ContainerName := "user-container-U1",
    ContainerAttached := true, PTY := some 7,
    Cmd := some ["docker", "exec", "-it", "user-container-U1", "1"] }

/-- Registry holding the attached session of `tab1`. -/
def attachedHub : Hub :=
  { clients := [(tab1, true)], userContainers := [("U1", aliceContainer)],
    sessions := [(tab1, attachedSession)], cleanupTimers := [] }

/-- Three resize messages, the second of which does not unmarshal. -/
def resizeMessages : List (Except String ResizeData) :=
  [.ok { Rows := 24, Cols := 80 }, .error "json: cannot unmarshal string into Go value",
   .ok { Rows := 50, Cols := 132 }]

/-- A process listing of an idle container as `docker top` prints it: the
supervisor, the entry point, the tmux server and a login shell. -/
def idleListing : String :=
  "UID PID PPID C STIME TTY TIME CMD\n" ++
  "999 1 0 0 10:00 ? 00:00:00 /sbin/tini -- sleep infinity\n" ++
  "999 7 1 0 10:00 ? 00:00:00 sleep infinity\n" ++
  "999 20 1 0 10:01 ? 00:00:00 tmux new-session -d -A -s 3compute-tab1\n" ++
  "999 21 20 0 10:01 pts/0 00:00:00 -sh\n"

/-- A process listing with two user processes next to the supervisor. -/
def busyListing : String :=
  "UID PID PPID C STIME TTY TIME CMD\n" ++
  "999 1 0 0 10:00 ? 00:00:00 /sbin/tini -- sh\n" ++
  "999 30 1 0 10:02 ? 00:00:00 sha256sum file\n" ++
  "999 31 1 0 10:02 ? 00:00:00 shuf\n"

/-- A process listing whose only user process is the Python interpreter. -/
def pythonListing : String :=
  "UID PID PPID C STIME TTY TIME CMD\n" ++
  "999 1 0 0 10:00 ? 00:00:00 /sbin/tini -- sh\n" ++
  "999 21 1 0 10:01 pts/0 00:00:00 bash\n" ++
  "999 31 21 0 10:02 pts/0 00:00:00 python3 train.py\n"

/-! ## Existence checks, closing a tab and stopping the hub -/

namespace docker

namespace impl

/-- Body of `ContainerExists`; `listed` is the outcome of running
`docker ps -a --filter name=<containerName>` with the names format: its
standard output, or the error. -/
def ContainerExists (listed : Except String String) (containerName : String) :
    Except String Bool :=
  match listed with
  | .error e => .error e
  | .ok output => .ok (strings.Contains output containerName)

/-- Body of `ContainerIsRunning`; `listed` is the outcome of running
`docker ps --filter name=<containerName>` with the names format. -/
def ContainerIsRunning (listed : Except String String) (containerName : String) :
    Except String Bool :=
  match listed with
  | .error e => .error e
  | .ok output => .ok (strings.Contains output containerName)

/-- Body of `KillTmuxSession`: the error value it returns and the command it
runs; `ran` is the outcome of running that command. -/
def KillTmuxSession (ran : Except String Unit) (containerName tabID : String) :
    Except String Unit × Cmd :=
  let sessionName := "3compute-tab" ++ tabID
  (ran, ["docker", "exec", containerName, "tmux", "kill-session", "-t", sessionName])

end impl

end docker

/-- What an HTTP handler answers and does: the status code, the text of the
JSON answer, and the commands it ran on the engine. -/
structure Answer where
  status : Nat
  text : String
  commands : List Cmd
deriving DecidableEq, Repr

/-- Handler `handleCloseTab` for an authenticated `user`. `bound` is the
outcome of `ShouldBindJSON` (the `tabId` field of the body, empty when the
body has none), `hub` is what `GetHub()` returns, and `ran` is the outcome of
the kill command, should it be run. -/
def handleCloseTab (bound : Except String String) (hub : Option Hub) (user : auth.User)
    (ran : Except String Unit) : Answer :=
  match bound with
  | .error _ => { status := 400, text := "Invalid request data", commands := [] }
  | .ok tabIdField =>
    let tabID := if tabIdField = "" then "1" else tabIdField
    match hub with
    | none => { status := 500, text := "Terminal hub not initialized", commands := [] }
    | some h =>
      match mapGet h.userContainers user.ID with
      | none => { status := 404, text := "No container for user", commands := [] }
      | some containerInfo =>
        match docker.impl.KillTmuxSession ran containerInfo.ContainerName tabID with
        | (.error _, cmd) =>
          { status := 200, text := "No session or already terminated", commands := [cmd] }
        | (.ok _, cmd) => { status := 200, text := "Terminated", commands := [cmd] }

section stop

variable {σ : Type}

/-- Method `Hub.Stop`, after it has cancelled the context: it closes every
client that is in `clients` and stops every cleanup timer. It takes nothing
out of the maps, so the registry it leaves is the one it found; stopping a
timer is not a call of the log. A panic of `closeClient` ends the loop. -/
def Hub.Stop (h : Hub) (w : World σ) : Hub × World σ :=
  (h, (mapKeys h.clients).foldl
    (fun w1 client => if panicked w1 then w1 else closeClient client w1) w)

end stop

/-- How often the send queue of `client` has been closed in a log. -/
def closeSendCalls (client : Client) (calls : List Call) : Nat :=
  calls.count (Call.closeSend client)

/-- A stream registers, the hub is stopped, and the unregister event that the
stream's read pump sends when its connection is closed is handled. -/
def stopThenUnregister : Option (Hub × World Unit) :=
  match run (steadyDriver (.ok [])) (initSys ()) [Event.register tab1] with
  | some s1 =>
    let r := Hub.Stop s1.hub s1.world
    some (unregisterClient tab1 r.1 r.2)
  | none => none

/-- The listing that the engine gives for the filter `name=user-container-12`
when the only container is that of user `123`. -/
def listingOf123 : String := "user-container-123\n"

/-! ## Bytes, UTF-8 and the JSON text of a frame -/

namespace utf8

/-- A continuation byte, `10xxxxxx`. -/
def isCont (b : UInt8) : Bool :=
  0x80 ≤ b.toNat && b.toNat ≤ 0xBF

/-- Length of the well-formed encoding of one code point at the head of a byte
string, by the table of RFC 3629 that `unicode/utf8` follows (no overlong
forms, no surrogates, nothing above U+10FFFF); 0 when the head is not the
start of a well-formed encoding. -/
def runeLen : List UInt8 → Nat
  | [] => 0
  | b0 :: rest =>
    let n := b0.toNat
    if n < 0x80 then 1
    else if 0xC2 ≤ n && n ≤ 0xDF then
      match rest with
      | b1 :: _ => if isCont b1 then 2 else 0
      | [] => 0
    else if 0xE0 ≤ n && n ≤ 0xEF then
      match rest with
      | b1 :: b2 :: _ =>
        let lo := if n = 0xE0 then 0xA0 else 0x80
        let hi := if n = 0xED then 0x9F else 0xBF
        if lo ≤ b1.toNat && b1.toNat ≤ hi && isCont b2 then 3 else 0
      | _ => 0
    else if 0xF0 ≤ n && n ≤ 0xF4 then
      match rest with
      | b1 :: b2 :: b3 :: _ =>
        let lo := if n = 0xF0 then 0x90 else 0x80
        let hi := if n = 0xF4 then 0x8F else 0xBF
        if lo ≤ b1.toNat && b1.toNat ≤ hi && isCont b2 && isCont b3 then 4 else 0
      | _ => 0
    else 0

/-- Validity of a byte string with at most `fuel` code points left to read. -/
def validAux : Nat → List UInt8 → Bool
  | _, [] => true
  | 0, _ :: _ => false
  | fuel + 1, b :: rest =>
    match runeLen (b :: rest) with
    | 0 => false
    | k + 1 => validAux fuel (rest.drop k)

/-- Whether a byte string is a valid UTF-8 encoding (`utf8.Valid`): it is a
sequence of well-formed encodings of code points. -/
def Valid (bs : List UInt8) : Bool :=
  validAux bs.length bs

end utf8

namespace json

/-- The replacement character U+FFFD in UTF-8. -/
def replacement : List UInt8 := [0xEF, 0xBF, 0xBD]

/-- Coercion of a byte string with at most `fuel` code points left to read. -/
def coerceAux : Nat → List UInt8 → List UInt8
  | _, [] => []
  | 0, _ :: _ => []
  | fuel + 1, b :: rest =>
    match utf8.runeLen (b :: rest) with
    | 0 => replacement ++ coerceAux fuel rest
    | k + 1 => b :: rest.take k ++ coerceAux fuel (rest.drop k)

/-- The string that a JSON text made by `json.Marshal` carries for a Go string
value: `encoding/json` writes the well-formed code points as they are (some of
them as escapes, which decode to the same code points) and writes U+FFFD for
every byte that does not start a well-formed encoding. -/
def coerceUTF8 (bs : List UInt8) : List UInt8 :=
  coerceAux bs.length bs

end json

namespace strings

/-- Go `strings.TrimPrefix`. -/
def TrimPrefix (s pre : String) : String :=
  if HasPrefix s pre then String.mk (s.data.drop pre.data.length) else s

/-- Whether the bytes `sub` occur in a byte string: `strings.Contains` on Go
strings taken as the byte strings they are. -/
def containsBytes (sub : List UInt8) : List UInt8 → Bool
  | [] => sub.isEmpty
  | b :: bs => sub.isPrefixOf (b :: bs) || containsBytes sub bs

end strings

/-! ## File paths -/

namespace filepath

/-- One element of the path in the loop of `Clean`; `kept` holds the elements
written so far, the last one first. An empty element and `.` are dropped; `..`
takes the last element away when there is one to take, is dropped at the root,
and is kept at the start of a path that is not rooted. -/
def cleanStep (rooted : Bool) (kept : List (List Char)) (elem : List Char) :
    List (List Char) :=
  if elem = [] ∨ elem = ['.'] then kept
  else if elem = ['.', '.'] then
    match kept with
    | [] => if rooted then [] else [elem]
    | top :: below => if top = ['.', '.'] then elem :: kept else below
  else elem :: kept

/-- The elements joined by the separator. -/
def joinElems : List (List Char) → List Char
  | [] => []
  | [e] => e
  | e :: rest => e ++ '/' :: joinElems rest

/-- Go `filepath.Clean` on a system whose separator is `/`. -/
def Clean (path : String) : String :=
  if path = "" then "."
  else
    let rooted := path.data.head? = some '/'
    let kept := (strings.splitChars '/' path.data).foldl (cleanStep rooted) []
    let out := (if rooted then ['/'] else []) ++ joinElems kept.reverse
    if out = [] then "." else String.mk out

/-- Go `filepath.Join`: the elements from the first non-empty one on, joined
by the separator and cleaned; the empty string when all are empty. -/
def Join (elem : List String) : String :=
  match elem.dropWhile (fun e => e = "") with
  | [] => ""
  | e :: rest => Clean (String.mk (joinElems ((e :: rest).map String.data)))

end filepath

namespace files

/-- The upload directory of a user, `fmt.Sprintf("/tmp/uploads/%s", user.ID)`. -/
def uploadDirOf (userID : String) : String :=
  "/tmp/uploads/" ++ userID

/-- Head of `handleFile` up to the dispatch on the method: the 400 answer, or
the path that is handed to the handler of the method; `param` is
`c.Param("filepath")`. -/
def handleFile (userID param : String) : Except Answer String :=
  let filename := strings.TrimPrefix param "/"
  if filename = "" then
    .error { status := 400, text := "No filename provided", commands := [] }
  else
    let uploadDir := uploadDirOf userID
    let filePath := filepath.Clean (filepath.Join [uploadDir, filename])
    if !strings.HasPrefix filePath uploadDir then
      .error { status := 400, text := "Invalid path", commands := [] }
    else .ok filePath

/-- Head of `handleMoveFileOrFolder` up to its path check, for a body that
binds: the 400 answer, or the source and destination paths it goes on with. -/
def handleMoveFileOrFolder (userID sourceField destinationField : String) :
    Except Answer (String × String) :=
  let source := strings.TrimPrefix sourceField "/"
  let destination := strings.TrimPrefix destinationField "/"
  if source = "" ∨ destination = "" then
    .error { status := 400, text := "Invalid path", commands := [] }
  else
    let uploadDir := uploadDirOf userID
    let srcPath := filepath.Clean (filepath.Join [uploadDir, source])
    let dstPath := filepath.Clean (filepath.Join [uploadDir, destination])
    if !strings.HasPrefix srcPath uploadDir ∨ !strings.HasPrefix dstPath uploadDir then
      .error { status := 400, text := "Invalid path", commands := [] }
    else .ok (srcPath, dstPath)

/-- Whether `path` is the directory `dir` itself or lies beneath it. -/
def within (dir path : String) : Bool :=
  path = dir || strings.HasPrefix path (dir ++ "/")

/-- Go `isValidUTF8`: `string(content)` has the bytes of `content` as they are,
and the literal `"\uFFFD"` is the three bytes of the replacement character. -/
def isValidUTF8 (content : List UInt8) : Bool :=
  !strings.containsBytes json.replacement content

end files

/-! ## The frames of the forwarder -/

/-- The frames that a log has placed on the send queue of `client`, oldest
first. -/
def sentFrames (client : Client) : List Call → List (List UInt8)
  | [] => []
  | Call.send c message :: rest =>
    if c = client then message :: sentFrames client rest else sentFrames client rest
  | _ :: rest => sentFrames client rest

/-- Go `json.Marshal` of the pty-output message of a chunk. The message is of
strings only, so there is no error; `frame payload` is the JSON text that
carries the string `payload` as its `output` field. -/
def marshalOutput (frame : List UInt8 → List UInt8) (chunk : List UInt8) :
    Except String (List UInt8) :=
  .ok (frame (json.coerceUTF8 chunk))

section frames

variable {σ : Type}

/-- The chunks that `session.PTY.Read` hands to the loop of
`readAndForwardPTYOutput` in the turns the loop gets to, oldest first. -/
def chunksRead (marshal : List UInt8 → Except String (List UInt8)) (client : Client) :
    List ForwardObs → World σ → List (List UInt8)
  | [], _ => []
  | o :: rest, w =>
    if o.done then []
    else
      match o.read with
      | .error _ => []
      | .ok chunk =>
        if chunk.length > 0 then
          match marshal chunk with
          | .error _ => chunk :: chunksRead marshal client rest w
          | .ok msgBytes =>
            if Call.closeSend client ∈ w.calls then [chunk]
            else if o.sendOk then
              chunk :: chunksRead marshal client rest (logCall (Call.send client msgBytes) w)
            else [chunk]
        else chunk :: chunksRead marshal client rest w

end frames

/-- Two reads that cut the three bytes of one code point (U+4E16) after the
second byte. -/
def splitRuneObs : List ForwardObs :=
  [{ done := false, read := .ok [0xE4, 0xB8], sendOk := true },
   { done := false, read := .ok [0x96], sendOk := true }]

/-- Two reads that each hold whole code points: `hi`, then U+4E16. -/
def wholeRuneObs : List ForwardObs :=
  [{ done := false, read := .ok [0x68, 0x69], sendOk := true },
   { done := false, read := .ok [0xE4, 0xB8, 0x96], sendOk := true }]

/-- An engine like `steadyDriver` that lists one container, the one of the
user `test-user`. -/
def hyphenDriver : Driver Unit :=
  { steadyDriver (.ok []) with
    ListUserContainers := fun s => (.ok "user-container-test-user\n", s) }

/-! ## The deployment webhook -/

namespace strings

/-- The part of a character list before the first `sep` and the part after
it; `none` when `sep` does not occur. -/
def cutChars (sep : Char) : List Char → Option (List Char × List Char)
  | [] => none
  | c :: cs =>
    if c = sep then some ([], cs)
    else
      match cutChars sep cs with
      | some (before, after) => some (c :: before, after)
      | none => none

/-- Go `strings.SplitN(s, sep, 2)` for a separator of one character. -/
def SplitN2 (s : String) (sep : Char) : List String :=
  match cutChars sep s.data with
  | some (before, after) => [String.mk before, String.mk after]
  | none => [s]

end strings

namespace webhook

/-- The field `workflow_run` of the payload. -/
structure WorkflowRun where
  Conclusion : String
  HeadBranch : String
deriving DecidableEq, Repr

/-- The part of a GitHub payload that the handler reads
(`GitHubWebhookPayload`). -/
structure GitHubWebhookPayload where
  Action : String
  WorkflowRun : WorkflowRun
deriving DecidableEq, Repr

/-- What the webhook handler answers, and whether it starts the deployment
script. -/
structure Outcome where
  status : Nat
  text : String
  deploy : Bool
deriving DecidableEq, Repr

/-- Handler `handleGitHubWebhook`. `signature` is the header
`X-Hub-Signature-256` (empty when missing) and `body` the outcome of reading
the request body. The two library computations are given: `hmacHex secret
body` is `hex.EncodeToString` of the HMAC-SHA256 of the body under the secret,
and `unmarshal` is `json.Unmarshal` into the payload structure. -/
def handleGitHubWebhook (hmacHex : List UInt8 → List UInt8 → String)
    (unmarshal : List UInt8 → Except String GitHubWebhookPayload)
    (webhookSecret : List UInt8) (signature : String)
    (body : Except String (List UInt8)) : Outcome :=
  if signature = "" then { status := 400, text := "Missing signature", deploy := false }
  else
    match strings.SplitN2 signature '=' with
    | [p0, sigHash] =>
      if p0 ≠ "sha256" then
        { status := 400, text := "Invalid signature format", deploy := false }
      else
        match body with
        | .error _ =>
          { status := 400, text := "Failed to read request body", deploy := false }
        | .ok bytes =>
          let expectedHash := hmacHex webhookSecret bytes
          if expectedHash ≠ sigHash then
            { status := 403, text := "Invalid signature", deploy := false }
          else
            match unmarshal bytes with
            | .error _ => { status := 400, text := "Invalid payload", deploy := false }
            | .ok payload =>
              if payload.Action ≠ "completed" then
                { status := 204, text := "Skipped non-complete action", deploy := false }
              else if payload.WorkflowRun.Conclusion ≠ "success" then
                { status := 204, text := "Skipped unsuccessful run", deploy := false }
              else if payload.WorkflowRun.HeadBranch ≠ "main" then
                { status := 204, text := "Skipped non-main branch", deploy := false }
              else { status := 200, text := "Deployment triggered", deploy := true }
    | _ => { status := 400, text := "Invalid signature format", deploy := false }

/-- The payload of a successful run on `main`. -/
def successPayload : GitHubWebhookPayload :=
  { Action := "completed", WorkflowRun := { Conclusion := "success", HeadBranch := "main" } }

end webhook

/-! ## The user records -/

namespace auth

/-- Go `isAlphanumeric`, which `handleGetTabs` and `handleSaveTabs` use to
sanitize stored tab ids. -/
def isAlphanumeric (s : String) : Bool :=
  s.data.all (fun r =>
    (97 ≤ r.toNat && r.toNat ≤ 122) || (65 ≤ r.toNat && r.toNat ≤ 90) ||
      (48 ≤ r.toNat && r.toNat ≤ 57))

end auth

/-! ## Clients and sessions -/

namespace strings

/-- Every way to cut a character list at an occurrence of `m`: the part before
the occurrence and the part after it. -/
def splitsAt (m : Char) : List Char → List (List Char × List Char)
  | [] => []
  | c :: cs =>
    (if c = m then [([], cs)] else []) ++ (splitsAt m cs).map (fun p => (c :: p.1, p.2))

/-- Whether two character lists are equal as far as the shorter one goes. -/
def agree : List Char → List Char → Bool
  | [], _ => true
  | _, [] => true
  | c :: cs, d :: ds => c = d && agree cs ds

/-- No occurrence of `m` in `l` has the end of `a` before it and the start of
`b` after it, as far as `l` goes on either side. -/
def clearOf (m : Char) (a b l : List Char) : Bool :=
  (splitsAt m l).all (fun p => !(agree a.reverse p.1.reverse && agree b p.2))

end strings

/-! ## Facts about the map model -/

section maps

variable {κ ν : Type} [DecidableEq κ]

theorem mapDelete_cons (k1 : κ) (v : ν) (rest : GoMap κ ν) (k : κ) :
    mapDelete ((k1, v) :: rest) k =
      if k1 = k then mapDelete rest k else (k1, v) :: mapDelete rest k := by
  by_cases hk : k1 = k <;> simp [mapDelete, List.filter_cons, hk]

theorem mapGet_mapDelete_self (m : GoMap κ ν) (k : κ) : mapGet (mapDelete m k) k = none := by
  induction m with
  | nil => rfl
  | cons p rest ih =>
    obtain ⟨k1, v⟩ := p
    rw [mapDelete_cons]
    by_cases hk : k1 = k
    · rw [if_pos hk]; exact ih
    · rw [if_neg hk]; simp only [mapGet, if_neg hk]; exact ih

theorem mapGet_mapDelete_ne (m : GoMap κ ν) (k k1 : κ) (hne : k1 ≠ k) :
    mapGet (mapDelete m k) k1 = mapGet m k1 := by
  induction m with
  | nil => rfl
  | cons p rest ih =>
    obtain ⟨k2, v⟩ := p
    rw [mapDelete_cons]
    by_cases hk : k2 = k
    · have h21 : ¬ k2 = k1 := fun h => hne (h ▸ hk)
      rw [if_pos hk]; simp only [mapGet, if_neg h21]; exact ih
    · rw [if_neg hk]
      by_cases h21 : k2 = k1
      · simp only [mapGet, if_pos h21]
      · simp only [mapGet, if_neg h21]; exact ih

theorem mapDelete_of_get_none (m : GoMap κ ν) (k : κ) (h : mapGet m k = none) :
    mapDelete m k = m := by
  induction m with
  | nil => rfl
  | cons p rest ih =>
    obtain ⟨k1, v⟩ := p
    rw [mapDelete_cons]
    by_cases hk : k1 = k
    · simp [mapGet, hk] at h
    · simp only [mapGet, if_neg hk] at h
      rw [if_neg hk, ih h]

theorem mapGet_mapSet_self (m : GoMap κ ν) (k : κ) (v : ν) : mapGet (mapSet m k v) k = some v := by
  simp [mapSet, mapGet]

theorem mapGet_mapSet_ne (m : GoMap κ ν) (k k1 : κ) (v : ν) (hne : k1 ≠ k) :
    mapGet (mapSet m k v) k1 = mapGet m k1 := by
  have hk : ¬ k = k1 := fun h => hne h.symm
  simp [mapSet, mapGet, hk, mapGet_mapDelete_ne m k k1 hne]

theorem mem_of_mapGet (m : GoMap κ ν) (k : κ) (v : ν) (h : mapGet m k = some v) :
    (k, v) ∈ m := by
  induction m with
  | nil => simp [mapGet] at h
  | cons p rest ih =>
    obtain ⟨k1, v1⟩ := p
    by_cases hk : k1 = k
    · simp [mapGet, hk] at h
      simp [hk, h]
    · simp [mapGet, hk] at h
      exact List.mem_cons_of_mem _ (ih h)

theorem mem_mapDelete (m : GoMap κ ν) (k : κ) (p : κ × ν) :
    p ∈ mapDelete m k ↔ p ∈ m ∧ p.1 ≠ k := by
  simp [mapDelete, List.mem_filter]

theorem mem_mapSet (m : GoMap κ ν) (k : κ) (v : ν) (p : κ × ν) :
    p ∈ mapSet m k v ↔ p = (k, v) ∨ (p ∈ m ∧ p.1 ≠ k) := by
  simp [mapSet, mem_mapDelete]

theorem mapHas_iff_mem_keys (m : GoMap κ ν) (k : κ) : mapHas m k = true ↔ k ∈ mapKeys m := by
  induction m with
  | nil => simp [mapHas, mapGet, mapKeys]
  | cons p rest ih =>
    obtain ⟨k1, v1⟩ := p
    by_cases hk : k1 = k
    · simp [mapHas, mapGet, mapKeys, hk]
    · have hk2 : ¬ k = k1 := fun h => hk h.symm
      simp only [mapHas, mapKeys] at ih
      simp [mapHas, mapGet, mapKeys, hk, hk2, ih]

end maps

/-! ## Frame lemmas of the hub operations -/

section frames

variable {σ : Type}

theorem hasActive_iff (h : Hub) (u : String) :
    hasActiveSessionsForUser h u = true ↔ ∃ p ∈ h.sessions, p.2.UserID = u := by
  simp [hasActiveSessionsForUser, List.any_eq_true]

theorem cancelIdlePoller_timers (h : Hub) (u : String) :
    (cancelIdlePoller h u).cleanupTimers = mapDelete h.cleanupTimers u := by
  unfold cancelIdlePoller
  cases hg : mapGet h.cleanupTimers u with
  | some t => rfl
  | none => exact (mapDelete_of_get_none _ _ hg).symm

theorem cancelIdlePoller_frame (h : Hub) (u : String) :
    (cancelIdlePoller h u).clients = h.clients ∧
    (cancelIdlePoller h u).sessions = h.sessions ∧
    (cancelIdlePoller h u).userContainers = h.userContainers := by
  unfold cancelIdlePoller
  cases mapGet h.cleanupTimers u <;> simp

theorem startIdlePoller_frame (h : Hub) (u : String) :
    (startIdlePoller h u).clients = h.clients ∧
    (startIdlePoller h u).sessions = h.sessions ∧
    (startIdlePoller h u).userContainers = h.userContainers := by
  have hc := cancelIdlePoller_frame h u
  simp [startIdlePoller, hc]

theorem startIdlePoller_self (h : Hub) (u : String) :
    mapGet (startIdlePoller h u).cleanupTimers u = some { fired := false } := by
  simp [startIdlePoller, mapGet_mapSet_self]

theorem startIdlePoller_ne (h : Hub) (u v : String) (hne : v ≠ u) :
    mapGet (startIdlePoller h u).cleanupTimers v = mapGet h.cleanupTimers v := by
  simp [startIdlePoller, mapGet_mapSet_ne _ _ _ _ hne, cancelIdlePoller_timers,
    mapGet_mapDelete_ne _ _ _ hne]

theorem setupUserContainer_frame (D : Driver σ) (c : Client) (h : Hub) (w : World σ) :
    (setupUserContainer D c h w).1.clients = h.clients ∧
    (setupUserContainer D c h w).1.sessions = h.sessions ∧
    (setupUserContainer D c h w).1.cleanupTimers = h.cleanupTimers := by
  unfold setupUserContainer
  simp only
  repeat' split
  all_goals simp [recordContainer]

theorem setupUserContainer_other (D : Driver σ) (c : Client) (h : Hub) (w : World σ)
    (v : String) (hne : v ≠ c.User.ID) :
    mapGet (setupUserContainer D c h w).1.userContainers v = mapGet h.userContainers v := by
  unfold setupUserContainer
  simp only
  repeat' split
  all_goals simp [recordContainer, mapGet_mapSet_ne _ _ _ _ hne, mapGet_mapDelete_ne _ _ _ hne]

end frames

/-! ## Register and unregister -/

section registerUnregister

variable {σ : Type}

theorem registerClient_sessions (D : Driver σ) (c : Client) (h : Hub) (w : World σ) :
    (registerClient D c h w).1.sessions = mapSet h.sessions c
      { UserID := c.User.ID, TabID := c.TabID, ContainerName := containerNameOf c.User.ID,
        ContainerAttached := false, PTY := none, Cmd := none } := by
  simp [registerClient, setupUserContainer_frame, cancelIdlePoller_frame]

theorem registerClient_clients (D : Driver σ) (c : Client) (h : Hub) (w : World σ) :
    (registerClient D c h w).1.clients = mapSet h.clients c true := by
  simp [registerClient, setupUserContainer_frame, cancelIdlePoller_frame]

theorem registerClient_timers (D : Driver σ) (c : Client) (h : Hub) (w : World σ) :
    (registerClient D c h w).1.cleanupTimers = mapDelete h.cleanupTimers c.User.ID := by
  simp [registerClient, setupUserContainer_frame, cancelIdlePoller_timers]

/-- C7: after `registerClient(c)`, whatever the driver answers, `c` is in
`clients` and `sessions[c]` is the unattached session of `c`: its user id and
tab id, the container name `user-container-<user id>`, `ContainerAttached`
false and no PTY. -/
theorem registerClient_creates_unattached_session (D : Driver σ) (c : Client) (h : Hub)
    (w : World σ) :
    mapGet (registerClient D c h w).1.clients c = some true ∧
    mapGet (registerClient D c h w).1.sessions c =
      some { UserID := c.User.ID, TabID := c.TabID,
             ContainerName := "user-container-" ++ c.User.ID,
             ContainerAttached := false, PTY := none, Cmd := none } := by
  rw [registerClient_clients, registerClient_sessions]
  exact ⟨mapGet_mapSet_self _ _ _, mapGet_mapSet_self _ _ _⟩

theorem hasActive_after_delete (h : Hub) (c : Client) (u : String) :
    hasActiveSessionsForUser
        { clients := mapDelete h.clients c, userContainers := h.userContainers,
          sessions := mapDelete h.sessions c, cleanupTimers := h.cleanupTimers } u = true ↔
      ∃ p ∈ h.sessions, p.1 ≠ c ∧ p.2.UserID = u := by
  rw [hasActive_iff]
  constructor
  · rintro ⟨p, hp, hu⟩
    exact ⟨p, ((mem_mapDelete _ _ _).mp hp).1, ((mem_mapDelete _ _ _).mp hp).2, hu⟩
  · rintro ⟨p, hp, hne, hu⟩
    exact ⟨p, (mem_mapDelete _ _ _).mpr ⟨hp, hne⟩, hu⟩

/-- The effect of `unregisterClient(c)`. For a client outside `clients` it
changes nothing. For a client in `clients` whose send queue is still open and
whose session is in `sessions`, it leaves `c` in neither map, leaves the
session of every other client as it was, and arms a fresh timer for the user
of `c` exactly when no entry of `sessions` under another client belongs to that
user; otherwise the timers are untouched. For a client in `clients` whose send
queue is closed already it panics in `closeClient`, with `c` taken out of
`clients` and nothing else done. -/
theorem unregisterClient_effect (c : Client) (h : Hub) (w : World σ) :
    (mapGet h.clients c = none → unregisterClient c h w = (h, w)) ∧
    (∀ s : SessionInfo, mapHas h.clients c = true → sendClosed c w = false →
      mapGet h.sessions c = some s → s.UserID = c.User.ID →
      panicked (unregisterClient c h w).2 = panicked w ∧
      mapGet (unregisterClient c h w).1.clients c = none ∧
      mapGet (unregisterClient c h w).1.sessions c = none ∧
      (∀ c1 : Client, c1 ≠ c →
        mapGet (unregisterClient c h w).1.sessions c1 = mapGet h.sessions c1) ∧
      ((¬ ∃ p ∈ h.sessions, p.1 ≠ c ∧ p.2.UserID = c.User.ID) →
        mapGet (unregisterClient c h w).1.cleanupTimers c.User.ID = some { fired := false }) ∧
      ((∃ p ∈ h.sessions, p.1 ≠ c ∧ p.2.UserID = c.User.ID) →
        (unregisterClient c h w).1.cleanupTimers = h.cleanupTimers)) ∧
    (mapHas h.clients c = true → sendClosed c w = true →
      unregisterClient c h w =
        ({ h with clients := mapDelete h.clients c },
          logCall Call.panic (logCall (Call.closeSend c) w))) := by
  refine ⟨?_, ?_, ?_⟩
  · intro hnone
    simp [unregisterClient, hnone]
  · intro s hc hcl hs hu
    obtain ⟨b, hb⟩ := Option.isSome_iff_exists.mp hc
    have hpan : panicked (unregisterClient c h w).2 = panicked w := by
      simp only [unregisterClient, hb, hs, hcl, Bool.false_eq_true, if_false, closeClient]
      cases s.PTY <;> split <;> simp [panicked, logCall]
    refine ⟨hpan, ?_⟩
    by_cases hact :
        hasActiveSessionsForUser
          { clients := mapDelete h.clients c, userContainers := h.userContainers,
            sessions := mapDelete h.sessions c, cleanupTimers := h.cleanupTimers }
          s.UserID = true
    · have hr : (unregisterClient c h w).1 =
          { clients := mapDelete h.clients c, userContainers := h.userContainers,
            sessions := mapDelete h.sessions c, cleanupTimers := h.cleanupTimers } := by
        simp [unregisterClient, hb, hs, hact, hcl]
      have hother := (hasActive_after_delete h c s.UserID).mp hact
      rw [hr, ← hu]
      refine ⟨mapGet_mapDelete_self _ _, mapGet_mapDelete_self _ _, ?_, ?_, ?_⟩
      · intro c1 hne
        exact mapGet_mapDelete_ne _ _ _ hne
      · intro hno
        exact absurd hother hno
      · intro _
        rfl
    · have hact2 := Bool.eq_false_iff.mpr hact
      have hr : (unregisterClient c h w).1 =
          startIdlePoller
            { clients := mapDelete h.clients c, userContainers := h.userContainers,
              sessions := mapDelete h.sessions c, cleanupTimers := h.cleanupTimers }
            s.UserID := by
        simp [unregisterClient, hb, hs, hact2, hcl]
      have hf := startIdlePoller_frame
        { clients := mapDelete h.clients c, userContainers := h.userContainers,
          sessions := mapDelete h.sessions c, cleanupTimers := h.cleanupTimers } s.UserID
      have hnone : ¬ ∃ p ∈ h.sessions, p.1 ≠ c ∧ p.2.UserID = s.UserID :=
        fun hex => hact ((hasActive_after_delete h c s.UserID).mpr hex)
      rw [hr, ← hu]
      refine ⟨?_, ?_, ?_, ?_, ?_⟩
      · rw [hf.1]; exact mapGet_mapDelete_self _ _
      · rw [hf.2.1]; exact mapGet_mapDelete_self _ _
      · intro c1 hne
        rw [hf.2.1]; exact mapGet_mapDelete_ne _ _ _ hne
      · intro _
        exact startIdlePoller_self _ _
      · intro hex
        exact absurd hex hnone
  · intro hc hcl
    obtain ⟨b, hb⟩ := Option.isSome_iff_exists.mp hc
    simp [unregisterClient, hb, hcl, closeClient]

end registerUnregister

/-! ## The idle poll -/

section idlePoll

variable {σ : Type}

/-- Running the three phases of the timer callback back to back is the callback
run without interruption. -/
theorem pollStep_chain (D : Driver σ) (u : String) (h : Hub) (w : World σ)
    (ci : ContainerInfo) (hci : mapGet h.userContainers u = some ci) :
    pollStep D u PollPC.atLookup h w = (h, w, some (PollPC.atQuery ci.ContainerName)) ∧
    pollStep D u (PollPC.atQuery ci.ContainerName) h w =
      (h, (docker.GetContainerProcesses D ci.ContainerName w).2,
        some (PollPC.atResult ci.ContainerName
          (docker.GetContainerProcesses D ci.ContainerName w).1)) ∧
    (pollStep D u (PollPC.atResult ci.ContainerName
        (docker.GetContainerProcesses D ci.ContainerName w).1) h
        (docker.GetContainerProcesses D ci.ContainerName w).2).1 =
      (pollContainerForIdle D u h w).1 := by
  simp [pollStep, pollContainerForIdle, hci]

/-- C3: at an idle poll for a user with a `ContainerInfo`, when the process
query succeeds with an empty list the removal is issued and the record of the
user deleted; in every other case (the query fails or lists a process) the log
gains the query only, `userContainers` is unchanged and a fresh timer is armed
for the user. -/
theorem pollContainerForIdle_removes_iff_idle (D : Driver σ) (u : String) (h : Hub)
    (w : World σ) (ci : ContainerInfo) (hci : mapGet h.userContainers u = some ci) :
    ((D.GetContainerProcesses ci.ContainerName w.eng).1 = .ok [] →
      (pollContainerForIdle D u h w).2.calls =
        w.calls ++ [Call.GetContainerProcesses ci.ContainerName,
                    Call.RemoveContainer ci.ContainerName] ∧
      (pollContainerForIdle D u h w).1.userContainers = mapDelete h.userContainers u ∧
      mapGet (pollContainerForIdle D u h w).1.userContainers u = none) ∧
    ((D.GetContainerProcesses ci.ContainerName w.eng).1 ≠ .ok [] →
      (pollContainerForIdle D u h w).2.calls =
        w.calls ++ [Call.GetContainerProcesses ci.ContainerName] ∧
      (pollContainerForIdle D u h w).1.userContainers = h.userContainers ∧
      mapGet (pollContainerForIdle D u h w).1.userContainers u = some ci ∧
      mapGet (pollContainerForIdle D u h w).1.cleanupTimers u = some { fired := false }) := by
  constructor
  · intro hq
    simp [pollContainerForIdle, hci, pollAct, docker.GetContainerProcesses, hq,
      docker.RemoveContainer, mapGet_mapDelete_self]
  · intro hq
    cases hres : (D.GetContainerProcesses ci.ContainerName w.eng).1 with
    | error e =>
      simp [pollContainerForIdle, hci, pollAct, docker.GetContainerProcesses, hres,
        startIdlePoller_frame, startIdlePoller_self]
    | ok procs =>
      cases procs with
      | nil => exact absurd hres hq
      | cons p ps =>
        simp [pollContainerForIdle, hci, pollAct, docker.GetContainerProcesses, hres,
          startIdlePoller_frame, startIdlePoller_self]

end idlePoll

/-! ## Ensuring the container at register -/

section ensureContainer

variable {σ : Type}

theorem registerClient_eq (D : Driver σ) (c : Client) (h : Hub) (w : World σ) :
    (registerClient D c h w).1.userContainers =
      (setupUserContainer D c
        (cancelIdlePoller { h with clients := mapSet h.clients c true } c.User.ID) w).1.userContainers ∧
    (registerClient D c h w).2 =
      (setupUserContainer D c
        (cancelIdlePoller { h with clients := mapSet h.clients c true } c.User.ID) w).2 := by
  simp [registerClient]

/-- C6: a client registers for a user without `ContainerInfo` whose container
exists and is stopped. Then `StartContainer` is called. If it succeeds the
calls are exactly exists, running, start (no spawn) and the record is made. If
it fails the calls are exactly exists, running, start, remove, spawn in this
order, and the record is made exactly when the spawn succeeds. -/
theorem registerClient_stopped_container (D : Driver σ) (c : Client) (h : Hub) (w : World σ)
    (s1 s2 : σ)
    (hno : mapGet h.userContainers c.User.ID = none)
    (hex : D.ContainerExists ("user-container-" ++ c.User.ID) w.eng = (.ok true, s1))
    (hrun : D.ContainerIsRunning ("user-container-" ++ c.User.ID) s1 = (.ok false, s2)) :
    ((D.StartContainer ("user-container-" ++ c.User.ID) s2).1 = .ok () →
      (registerClient D c h w).2.calls =
        w.calls ++ [Call.ContainerExists ("user-container-" ++ c.User.ID),
                    Call.ContainerIsRunning ("user-container-" ++ c.User.ID),
                    Call.StartContainer ("user-container-" ++ c.User.ID)] ∧
      mapGet (registerClient D c h w).1.userContainers c.User.ID =
        some { ContainerName := "user-container-" ++ c.User.ID,
               PortRange := some (docker.NewPortRange c.User.PortStart) }) ∧
    (∀ e : String, (D.StartContainer ("user-container-" ++ c.User.ID) s2).1 = .error e →
      (registerClient D c h w).2.calls =
        w.calls ++ [Call.ContainerExists ("user-container-" ++ c.User.ID),
                    Call.ContainerIsRunning ("user-container-" ++ c.User.ID),
                    Call.StartContainer ("user-container-" ++ c.User.ID),
                    Call.RemoveContainer ("user-container-" ++ c.User.ID),
                    Call.SpawnContainer c.User.ID ("user-container-" ++ c.User.ID)
                      (some (docker.NewPortRange c.User.PortStart))] ∧
      ((D.SpawnContainer c.User.ID ("user-container-" ++ c.User.ID)
            (some (docker.NewPortRange c.User.PortStart))
            (D.RemoveContainer ("user-container-" ++ c.User.ID)
              (D.StartContainer ("user-container-" ++ c.User.ID) s2).2).2).1 = .ok () →
        mapGet (registerClient D c h w).1.userContainers c.User.ID =
          some { ContainerName := "user-container-" ++ c.User.ID,
                 PortRange := some (docker.NewPortRange c.User.PortStart) }) ∧
      (∀ e1 : String,
        (D.SpawnContainer c.User.ID ("user-container-" ++ c.User.ID)
            (some (docker.NewPortRange c.User.PortStart))
            (D.RemoveContainer ("user-container-" ++ c.User.ID)
              (D.StartContainer ("user-container-" ++ c.User.ID) s2).2).2).1 = .error e1 →
        mapGet (registerClient D c h w).1.userContainers c.User.ID = none)) := by
  have hno2 : mapGet
      (cancelIdlePoller { h with clients := mapSet h.clients c true } c.User.ID).userContainers
      c.User.ID = none := by
    rw [(cancelIdlePoller_frame _ _).2.2]; exact hno
  obtain ⟨hU, hW⟩ := registerClient_eq D c h w
  rw [hU, hW]
  constructor
  · intro hstart
    simp [setupUserContainer, containerNameOf, hno2, docker.ContainerExists, hex,
      docker.ContainerIsRunning, hrun, docker.StartContainer, hstart, recordContainer,
      mapGet_mapSet_self]
  · intro e hstart
    refine ⟨?_, ?_, ?_⟩
    · cases hsp : (D.SpawnContainer c.User.ID ("user-container-" ++ c.User.ID)
            (some (docker.NewPortRange c.User.PortStart))
            (D.RemoveContainer ("user-container-" ++ c.User.ID)
              (D.StartContainer ("user-container-" ++ c.User.ID) s2).2).2).1 <;>
        simp [setupUserContainer, containerNameOf, hno2, docker.ContainerExists, hex,
          docker.ContainerIsRunning, hrun, docker.StartContainer, hstart,
          docker.RemoveContainer, docker.SpawnContainer, hsp, recordContainer]
    · intro hsp
      simp [setupUserContainer, containerNameOf, hno2, docker.ContainerExists, hex,
        docker.ContainerIsRunning, hrun, docker.StartContainer, hstart,
        docker.RemoveContainer, docker.SpawnContainer, hsp, recordContainer,
        mapGet_mapSet_self]
    · intro e1 hsp
      simp [setupUserContainer, containerNameOf, hno2, docker.ContainerExists, hex,
        docker.ContainerIsRunning, hrun, docker.StartContainer, hstart,
        docker.RemoveContainer, docker.SpawnContainer, hsp, recordContainer]

end ensureContainer

/-! ## One container per user -/

section singleContainer

variable {σ : Type}

theorem flakyDriver_spawn_leaves_running (s : EngineState) (uid name : String)
    (pr : Option docker.PortRange)
    (hok : (flakyDriver.SpawnContainer uid name pr s).1 = .ok ()) :
    (flakyDriver.ContainerExists name (flakyDriver.SpawnContainer uid name pr s).2).1 = .ok true ∧
    (flakyDriver.ContainerIsRunning name (flakyDriver.SpawnContainer uid name pr s).2).1 =
      .ok true := by
  obtain ⟨n, up⟩ := s
  cases up <;> cases n <;> simp [flakyDriver] at hok ⊢

theorem filter_key_mapDelete (m : GoMap String ContainerInfo) (k : String) :
    (mapDelete m k).filter (fun p => decide (p.1 = k)) = [] := by
  simp only [mapDelete, List.filter_filter, List.filter_eq_nil_iff]
  intro p _
  by_cases hk : p.1 = k <;> simp [hk]

theorem containerInfoCount_record (h : Hub) (uid name : String)
    (pr : Option docker.PortRange) :
    containerInfoCount (recordContainer h uid name pr) uid = 1 := by
  simp [containerInfoCount, recordContainer, mapSet, List.filter_cons, filter_key_mapDelete]

theorem run_register_cons (D : Driver σ) (s : Sys σ) (c : Client) (es : List Event) :
    run D s (Event.register c :: es) =
      run D { s with hub := (registerClient D c s.hub s.world).1,
                     world := (registerClient D c s.hub s.world).2 } es := by
  simp [run, step]

theorem setupUserContainer_reuse (D : Driver σ) (c : Client) (h : Hub) (w : World σ)
    (ci : ContainerInfo) (hci : mapGet h.userContainers c.User.ID = some ci)
    (hrun : (D.ContainerIsRunning ("user-container-" ++ c.User.ID) w.eng).1 = .ok true) :
    setupUserContainer D c h w =
      (h, { eng := (D.ContainerIsRunning ("user-container-" ++ c.User.ID) w.eng).2,
            calls := w.calls ++ [Call.ContainerIsRunning ("user-container-" ++ c.User.ID)] }) := by
  simp [setupUserContainer, containerNameOf, hci, docker.ContainerIsRunning, hrun]

theorem setupUserContainer_fresh (D : Driver σ) (c : Client) (h : Hub) (w : World σ)
    (hno : mapGet h.userContainers c.User.ID = none)
    (hex : (D.ContainerExists ("user-container-" ++ c.User.ID) w.eng).1 = .ok false)
    (hsp : (D.SpawnContainer c.User.ID ("user-container-" ++ c.User.ID)
        (some (docker.NewPortRange c.User.PortStart))
        (D.ContainerExists ("user-container-" ++ c.User.ID) w.eng).2).1 = .ok ()) :
    setupUserContainer D c h w =
      (recordContainer h c.User.ID ("user-container-" ++ c.User.ID)
          (some (docker.NewPortRange c.User.PortStart)),
        { eng := (D.SpawnContainer c.User.ID ("user-container-" ++ c.User.ID)
            (some (docker.NewPortRange c.User.PortStart))
            (D.ContainerExists ("user-container-" ++ c.User.ID) w.eng).2).2,
          calls := w.calls ++ [Call.ContainerExists ("user-container-" ++ c.User.ID),
            Call.SpawnContainer c.User.ID ("user-container-" ++ c.User.ID)
              (some (docker.NewPortRange c.User.PortStart))] }) := by
  simp [setupUserContainer, containerNameOf, hno, docker.ContainerExists, hex,
    docker.SpawnContainer, hsp]

theorem register_reuses_running (D : Driver σ) (Up : σ → Prop) (uid : String)
    (hU : ∀ e, Up e →
      (D.ContainerIsRunning ("user-container-" ++ uid) e).1 = .ok true ∧
      Up (D.ContainerIsRunning ("user-container-" ++ uid) e).2)
    (clients : List Client) (hcl : ∀ c ∈ clients, c.User.ID = uid) :
    ∀ s : Sys σ, (∃ ci, mapGet s.hub.userContainers uid = some ci) → Up s.world.eng →
      ∃ s1, run D s (clients.map Event.register) = some s1 ∧
        spawnCalls s1.world.calls = spawnCalls s.world.calls ∧
        s1.hub.userContainers = s.hub.userContainers ∧ Up s1.world.eng := by
  induction clients with
  | nil =>
    intro s _ hup
    exact ⟨s, rfl, rfl, rfl, hup⟩
  | cons c rest ih =>
    intro s hci hup
    obtain ⟨ci, hci⟩ := hci
    have hc : c.User.ID = uid := hcl c (List.mem_cons_self _ _)
    have hrest : ∀ c1 ∈ rest, c1.User.ID = uid :=
      fun c1 h1 => hcl c1 (List.mem_cons_of_mem _ h1)
    obtain ⟨hrun, hup1⟩ := hU _ hup
    obtain ⟨hUC, hW⟩ := registerClient_eq D c s.hub s.world
    have hsetup := setupUserContainer_reuse D c
      (cancelIdlePoller { s.hub with clients := mapSet s.hub.clients c true } c.User.ID)
      s.world ci (by rw [(cancelIdlePoller_frame _ _).2.2, hc]; exact hci)
      (by rw [hc]; exact hrun)
    rw [hsetup] at hUC hW
    rw [(cancelIdlePoller_frame _ _).2.2] at hUC
    rw [List.map_cons, run_register_cons]
    obtain ⟨s1, hr, hsp, huc, hup2⟩ := ih hrest
      { s with hub := (registerClient D c s.hub s.world).1,
               world := (registerClient D c s.hub s.world).2 }
      ⟨ci, by simp only [hUC]; exact hci⟩
      (by simp only [hW, hc]; exact hup1)
    refine ⟨s1, hr, ?_, ?_, hup2⟩
    · rw [hsp]
      simp only [hW]
      simp [spawnCalls, List.countP_append, isSpawnCall]
    · rw [huc]
      simp only [hUC]

/-- C5 (amended): take an engine in which, as long as the container of the user
is absent, the existence query succeeds and reports it absent and a spawn
succeeds and leaves it running, and in which the running query on a running
container succeeds and reports it running. Then processing N >= 1 register
events for that user, from a state without `ContainerInfo` for the user and
with the container absent, issues exactly one spawn call and ends with exactly
one `ContainerInfo` for the user. -/
theorem register_events_spawn_once (D : Driver σ) (Absent Up : σ → Prop) (uid : String)
    (hA : ∀ e, Absent e →
      (D.ContainerExists ("user-container-" ++ uid) e).1 = .ok false ∧
      Absent (D.ContainerExists ("user-container-" ++ uid) e).2)
    (hS : ∀ e pr, Absent e →
      (D.SpawnContainer uid ("user-container-" ++ uid) pr e).1 = .ok () ∧
      Up (D.SpawnContainer uid ("user-container-" ++ uid) pr e).2)
    (hU : ∀ e, Up e →
      (D.ContainerIsRunning ("user-container-" ++ uid) e).1 = .ok true ∧
      Up (D.ContainerIsRunning ("user-container-" ++ uid) e).2)
    (clients : List Client) (hne : clients ≠ []) (hcl : ∀ c ∈ clients, c.User.ID = uid)
    (s : Sys σ) (h0 : mapGet s.hub.userContainers uid = none) (hE : Absent s.world.eng) :
    ∃ s1, run D s (clients.map Event.register) = some s1 ∧
      spawnCalls s1.world.calls = spawnCalls s.world.calls + 1 ∧
      containerInfoCount s1.hub uid = 1 := by
  cases clients with
  | nil => exact absurd rfl hne
  | cons c rest =>
    have hc : c.User.ID = uid := hcl c (List.mem_cons_self _ _)
    have hrest : ∀ c1 ∈ rest, c1.User.ID = uid :=
      fun c1 h1 => hcl c1 (List.mem_cons_of_mem _ h1)
    obtain ⟨hex, hab⟩ := hA _ hE
    obtain ⟨hsp, hup⟩ := hS _ (some (docker.NewPortRange c.User.PortStart)) hab
    obtain ⟨hUC, hW⟩ := registerClient_eq D c s.hub s.world
    have hsetup := setupUserContainer_fresh D c
      (cancelIdlePoller { s.hub with clients := mapSet s.hub.clients c true } c.User.ID)
      s.world (by rw [(cancelIdlePoller_frame _ _).2.2, hc]; exact h0)
      (by rw [hc]; exact hex) (by rw [hc]; exact hsp)
    rw [hsetup] at hUC hW
    rw [List.map_cons, run_register_cons]
    have hrec : mapGet (registerClient D c s.hub s.world).1.userContainers uid =
        some { ContainerName := "user-container-" ++ c.User.ID,
               PortRange := some (docker.NewPortRange c.User.PortStart) } := by
      rw [hUC, ← hc]
      simp [recordContainer, mapGet_mapSet_self]
    obtain ⟨s1, hr, hcount, huc, _⟩ := register_reuses_running D Up uid hU rest hrest
      { s with hub := (registerClient D c s.hub s.world).1,
               world := (registerClient D c s.hub s.world).2 }
      ⟨_, hrec⟩ (by simp only [hW, hc]; exact hup)
    refine ⟨s1, hr, ?_, ?_⟩
    · rw [hcount]
      simp only [hW]
      simp [spawnCalls, List.countP_append, isSpawnCall]
    · have hcnt := containerInfoCount_record
        (cancelIdlePoller { s.hub with clients := mapSet s.hub.clients c true } c.User.ID)
        c.User.ID ("user-container-" ++ c.User.ID)
        (some (docker.NewPortRange c.User.PortStart))
      simp only [containerInfoCount] at hcnt ⊢
      rw [huc]
      simp only [hUC]
      rw [← hc]
      exact hcnt

end singleContainer

/-! ## What each handler does to the registry -/

section summaries

variable {σ : Type}

theorem unregisterClient_cases (c : Client) (h : Hub) (w : World σ) :
    (unregisterClient c h w).1 = h ∨
    (unregisterClient c h w).1 = { h with clients := mapDelete h.clients c } ∨
    ∃ s, mapGet h.sessions c = some s ∧
      ((hasActiveSessionsForUser
            { h with clients := mapDelete h.clients c, sessions := mapDelete h.sessions c }
            s.UserID = true ∧
          (unregisterClient c h w).1 =
            { h with clients := mapDelete h.clients c, sessions := mapDelete h.sessions c }) ∨
        (hasActiveSessionsForUser
            { h with clients := mapDelete h.clients c, sessions := mapDelete h.sessions c }
            s.UserID = false ∧
          (unregisterClient c h w).1 =
            startIdlePoller
              { h with clients := mapDelete h.clients c, sessions := mapDelete h.sessions c }
              s.UserID)) := by
  cases hc : mapGet h.clients c with
  | none => left; simp [unregisterClient, hc]
  | some b =>
    cases hcl : sendClosed c w with
    | true => right; left; simp [unregisterClient, hc, hcl]
    | false =>
      cases hs : mapGet h.sessions c with
      | none => right; left; simp [unregisterClient, hc, hs, hcl]
      | some s =>
        right; right
        refine ⟨s, rfl, ?_⟩
        cases hact : hasActiveSessionsForUser
            { h with clients := mapDelete h.clients c, sessions := mapDelete h.sessions c }
            s.UserID with
        | true => left; simp [unregisterClient, hc, hs, hact, hcl]
        | false => right; simp [unregisterClient, hc, hs, hact, hcl]

theorem broadcastMessage_frame (message : List UInt8) (blocked : Client → Bool)
    (h : Hub) (w : World σ) :
    (broadcastMessage message blocked h w).1.sessions = h.sessions ∧
    (broadcastMessage message blocked h w).1.userContainers = h.userContainers ∧
    (broadcastMessage message blocked h w).1.cleanupTimers = h.cleanupTimers := by
  unfold broadcastMessage
  generalize mapKeys h.clients = cs
  have key : ∀ (cs : List Client) (hw : Hub × World σ),
      (cs.foldl (broadcastOne message blocked) hw).1.sessions = hw.1.sessions ∧
      (cs.foldl (broadcastOne message blocked) hw).1.userContainers = hw.1.userContainers ∧
      (cs.foldl (broadcastOne message blocked) hw).1.cleanupTimers = hw.1.cleanupTimers := by
    intro cs
    induction cs with
    | nil => intro hw; exact ⟨rfl, rfl, rfl⟩
    | cons c rest ih =>
      intro hw
      rw [List.foldl_cons]
      obtain ⟨h1, h2, h3⟩ := ih (broadcastOne message blocked hw c)
      rw [h1, h2, h3]
      unfold broadcastOne
      repeat' split
      all_goals exact ⟨rfl, rfl, rfl⟩
  exact key cs (h, w)

theorem discoverOne_frame (D : Driver σ) (hw : Hub × World σ) (name : String) :
    (discoverOne D hw name).1.sessions = hw.1.sessions ∧
    (discoverOne D hw name).1.cleanupTimers = hw.1.cleanupTimers ∧
    (discoverOne D hw name).1.clients = hw.1.clients := by
  unfold discoverOne
  repeat' split
  all_goals simp [recordContainer]

theorem discoverExistingContainers_frame (D : Driver σ) (h : Hub) (w : World σ) :
    (discoverExistingContainers D h w).1.sessions = h.sessions ∧
    (discoverExistingContainers D h w).1.cleanupTimers = h.cleanupTimers ∧
    (discoverExistingContainers D h w).1.clients = h.clients := by
  have key : ∀ (names : List String) (hw : Hub × World σ),
      (names.foldl (discoverOne D) hw).1.sessions = hw.1.sessions ∧
      (names.foldl (discoverOne D) hw).1.cleanupTimers = hw.1.cleanupTimers ∧
      (names.foldl (discoverOne D) hw).1.clients = hw.1.clients := by
    intro names
    induction names with
    | nil => intro hw; exact ⟨rfl, rfl, rfl⟩
    | cons n rest ih =>
      intro hw
      rw [List.foldl_cons]
      obtain ⟨h1, h2, h3⟩ := ih (discoverOne D hw n)
      obtain ⟨g1, g2, g3⟩ := discoverOne_frame D hw n
      rw [h1, h2, h3, g1, g2, g3]
      exact ⟨rfl, rfl, rfl⟩
  unfold discoverExistingContainers
  split
  · exact ⟨rfl, rfl, rfl⟩
  · exact key _ _

theorem mapHas_startIdlePoller (h : Hub) (u v : String)
    (hv : mapHas h.cleanupTimers v = true) :
    mapHas (startIdlePoller h u).cleanupTimers v = true := by
  by_cases hvu : v = u
  · subst hvu
    simp [mapHas, startIdlePoller_self]
  · simp only [mapHas, startIdlePoller_ne h u v hvu]
    exact hv

theorem startPollers_fold (us : List String) :
    ∀ h : Hub,
      (us.foldl startPollerIfOrphaned h).sessions = h.sessions ∧
      (us.foldl startPollerIfOrphaned h).userContainers = h.userContainers ∧
      (us.foldl startPollerIfOrphaned h).clients = h.clients ∧
      (∀ v, mapHas h.cleanupTimers v = true →
        mapHas (us.foldl startPollerIfOrphaned h).cleanupTimers v = true) ∧
      (∀ u ∈ us, hasActiveSessionsForUser h u = false →
        mapHas (us.foldl startPollerIfOrphaned h).cleanupTimers u = true) := by
  induction us with
  | nil =>
    intro h
    exact ⟨rfl, rfl, rfl, fun _ hv => hv, fun u hu => absurd hu (List.not_mem_nil u)⟩
  | cons u0 rest ih =>
    intro h
    rw [List.foldl_cons]
    obtain ⟨i1, i2, i3, i4, i5⟩ := ih (startPollerIfOrphaned h u0)
    have hs : (startPollerIfOrphaned h u0).sessions = h.sessions := by
      unfold startPollerIfOrphaned; split
      · exact (startIdlePoller_frame h u0).2.1
      · rfl
    have hu : (startPollerIfOrphaned h u0).userContainers = h.userContainers := by
      unfold startPollerIfOrphaned; split
      · exact (startIdlePoller_frame h u0).2.2
      · rfl
    have hcl : (startPollerIfOrphaned h u0).clients = h.clients := by
      unfold startPollerIfOrphaned; split
      · exact (startIdlePoller_frame h u0).1
      · rfl
    have hmono : ∀ v, mapHas h.cleanupTimers v = true →
        mapHas (startPollerIfOrphaned h u0).cleanupTimers v = true := by
      intro v hv
      unfold startPollerIfOrphaned; split
      · exact mapHas_startIdlePoller h u0 v hv
      · exact hv
    have hact : ∀ v, hasActiveSessionsForUser (startPollerIfOrphaned h u0) v =
        hasActiveSessionsForUser h v := by
      intro v
      simp [hasActiveSessionsForUser, hs]
    refine ⟨i1.trans hs, i2.trans hu, i3.trans hcl, fun v hv => i4 v (hmono v hv), ?_⟩
    intro u hmem hfalse
    rcases List.mem_cons.mp hmem with hhead | htail
    · subst hhead
      apply i4
      simp [startPollerIfOrphaned, hfalse, mapHas, startIdlePoller_self]
    · exact i5 u htail (by rw [hact]; exact hfalse)

theorem pollAct_cases (D : Driver σ) (u name : String)
    (result : Except String (List String)) (h : Hub) (w : World σ) :
    (pollAct D u name result h w).1 = startIdlePoller h u ∨
    (pollAct D u name result h w).1 =
      { h with userContainers := mapDelete h.userContainers u } := by
  unfold pollAct
  repeat' split
  all_goals simp

theorem pollStep_cases (D : Driver σ) (u : String) (pc : PollPC) (h : Hub) (w : World σ) :
    (pollStep D u pc h w).1 = h ∨
    (pollStep D u pc h w).1 = startIdlePoller h u ∨
    (pollStep D u pc h w).1 = { h with userContainers := mapDelete h.userContainers u } := by
  cases pc with
  | atLookup =>
    left
    unfold pollStep
    simp only
    split <;> rfl
  | atQuery name => left; rfl
  | atResult name result =>
    right
    exact pollAct_cases D u name result h w

theorem attachToContainer_cases (D : Driver σ) (c : Client) (s : SessionInfo) (w : World σ) :
    (attachToContainer D c s w).2.1 = s ∨
    ∃ pty cmd, (attachToContainer D c s w).2.1 =
      { s with PTY := some pty, Cmd := some cmd, ContainerAttached := true } := by
  unfold attachToContainer
  repeat' split
  all_goals first
    | (left; rfl)
    | (right; exact ⟨_, _, rfl⟩)

theorem HandleResize_cases (D : Driver σ) (c : Client) (data : Except String ResizeData)
    (h : Hub) (w : World σ) :
    (HandleResize D c data h w).2.1 = h ∨
    ∃ s s1, mapGet h.sessions c = some s ∧
      (s1 = s ∨ ∃ pty cmd,
        s1 = { s with PTY := some pty, Cmd := some cmd, ContainerAttached := true }) ∧
      (HandleResize D c data h w).2.1 = { h with sessions := mapSet h.sessions c s1 } := by
  cases hs : mapGet h.sessions c with
  | none => left; simp [HandleResize, hs]
  | some s =>
    cases data with
    | error e => left; simp [HandleResize, hs]
    | ok rd =>
      right
      have hhub : (HandleResize D c (.ok rd) h w).2.1 =
          { h with sessions := (mapSet h.sessions c
              (if !s.ContainerAttached then attachToContainer D c s w
                else (Except.ok (), s, w)).2.1) } := by
        simp only [HandleResize, hs]
        repeat' split
        all_goals rfl
      by_cases hatt : s.ContainerAttached = true
      · refine ⟨s, s, rfl, Or.inl rfl, ?_⟩
        rw [hhub]
        simp [hatt]
      · have hatt2 : s.ContainerAttached = false := Bool.eq_false_iff.mpr hatt
        refine ⟨s, (attachToContainer D c s w).2.1, rfl, ?_, ?_⟩
        · exact attachToContainer_cases D c s w
        · rw [hhub]
          simp [hatt2]

theorem HandlePTYInput_hub (D : Driver σ) (c : Client) (data : Except String PTYInputData)
    (h : Hub) (w : World σ) : (HandlePTYInput D c data h w).2.1 = h := by
  unfold HandlePTYInput
  repeat' split
  all_goals rfl

end summaries

/-! ## The invariants are preserved by every event -/

section invariants

variable {σ : Type}

theorem not_active_of_sessions_subset (h h1 : Hub) (c : Client) (u : String)
    (hown : SessionsOwned h) (hne : u ≠ c.User.ID)
    (hsub : ∀ p ∈ h.sessions, p.1 ≠ c → p ∈ h1.sessions)
    (hidle : hasActiveSessionsForUser h1 u = false) :
    hasActiveSessionsForUser h u = false := by
  apply Bool.eq_false_iff.mpr
  intro hact
  obtain ⟨p, hp, hpu⟩ := (hasActive_iff h u).mp hact
  by_cases hpc : p.1 = c
  · have := hown p hp
    rw [hpc] at this
    exact hne (hpu.symm.trans this)
  · have hact1 : hasActiveSessionsForUser h1 u = true :=
      (hasActive_iff h1 u).mpr ⟨p, hsub p hp hpc, hpu⟩
    rw [hidle] at hact1
    exact absurd hact1 (by decide)

theorem registerClient_inv (D : Driver σ) (c : Client) (h : Hub) (w : World σ)
    (hinv : HubInv h) : HubInv (registerClient D c h w).1 := by
  obtain ⟨hA, hB, hC⟩ := hinv
  refine ⟨?_, ?_, ?_⟩
  · intro p hp
    rw [registerClient_sessions] at hp
    rcases (mem_mapSet _ _ _ _).mp hp with heq | ⟨hm, _⟩
    · rw [heq]
    · exact hA p hm
  · intro u hidle hci
    have hmem : (c, (⟨c.User.ID, c.TabID, containerNameOf c.User.ID, false, none, none⟩ :
        SessionInfo)) ∈ (registerClient D c h w).1.sessions := by
      rw [registerClient_sessions]
      exact (mem_mapSet _ _ _ _).mpr (Or.inl rfl)
    have hne : u ≠ c.User.ID := by
      intro heq
      have hact : hasActiveSessionsForUser (registerClient D c h w).1 u = true :=
        (hasActive_iff _ u).mpr ⟨_, hmem, heq.symm⟩
      rw [hidle] at hact
      exact absurd hact (by decide)
    have hold : hasActiveSessionsForUser h u = false := by
      apply not_active_of_sessions_subset h _ c u hA hne _ hidle
      intro p hp hpc
      rw [registerClient_sessions]
      exact (mem_mapSet _ _ _ _).mpr (Or.inr ⟨hp, hpc⟩)
    have hci0 : mapHas h.userContainers u = true := by
      have h1 := (registerClient_eq D c h w).1
      simp only [mapHas, h1, setupUserContainer_other _ _ _ _ u hne,
        (cancelIdlePoller_frame _ _).2.2] at hci
      exact hci
    have ht := hB u hold hci0
    simp only [mapHas, registerClient_timers, mapGet_mapDelete_ne _ _ _ hne] at ht ⊢
    exact ht
  · intro p hp
    rw [registerClient_sessions] at hp
    rcases (mem_mapSet _ _ _ _).mp hp with heq | ⟨hm, _⟩
    · rw [heq]; simp
    · exact hC p hm

theorem unregisterClient_inv (c : Client) (h : Hub) (w : World σ)
    (hinv : HubInv h) : HubInv (unregisterClient c h w).1 := by
  obtain ⟨hA, hB, hC⟩ := hinv
  rcases unregisterClient_cases c h w with h0 | h0 | ⟨s, hs, hcase⟩
  · rw [h0]; exact ⟨hA, hB, hC⟩
  · rw [h0]; exact ⟨hA, hB, hC⟩
  · have hsU : s.UserID = c.User.ID := hA (c, s) (mem_of_mapGet _ _ _ hs)
    have hsub : ∀ p ∈ mapDelete h.sessions c, p ∈ h.sessions :=
      fun p hp => ((mem_mapDelete _ _ _).mp hp).1
    have hOther : ∀ u, u ≠ s.UserID →
        hasActiveSessionsForUser
          { h with clients := mapDelete h.clients c, sessions := mapDelete h.sessions c } u
          = false →
        hasActiveSessionsForUser h u = false := by
      intro u hne hidle
      apply not_active_of_sessions_subset h _ c u hA (hsU ▸ hne) _ hidle
      intro p hp hpc
      exact (mem_mapDelete _ _ _).mpr ⟨hp, hpc⟩
    rcases hcase with ⟨hact, h0⟩ | ⟨hact, h0⟩
    · rw [h0]
      refine ⟨fun p hp => hA p (hsub p hp), ?_, fun p hp => hC p (hsub p hp)⟩
      intro u hidle hci
      by_cases hu : u = s.UserID
      · rw [hu, hact] at hidle
        exact absurd hidle (by decide)
      · exact hB u (hOther u hu hidle) hci
    · have hf := startIdlePoller_frame
        { h with clients := mapDelete h.clients c, sessions := mapDelete h.sessions c } s.UserID
      rw [h0]
      refine ⟨?_, ?_, ?_⟩
      · intro p hp
        rw [hf.2.1] at hp
        exact hA p (hsub p hp)
      · intro u hidle hci
        by_cases hu : u = s.UserID
        · rw [hu]
          simp [mapHas, startIdlePoller_self]
        · have hidle1 : hasActiveSessionsForUser
              { h with clients := mapDelete h.clients c, sessions := mapDelete h.sessions c } u
              = false := by
            rw [← hidle]
            simp [hasActiveSessionsForUser, hf.2.1]
          rw [hf.2.2] at hci
          have ht := hB u (hOther u hu hidle1) hci
          simp only [mapHas, startIdlePoller_ne _ _ _ hu] at ht ⊢
          exact ht
      · intro p hp
        rw [hf.2.1] at hp
        exact hC p (hsub p hp)

theorem inv_of_same_sessions (h h1 : Hub) (hs : h1.sessions = h.sessions)
    (hinv : HubInv h)
    (hB : OrphansWatched h → OrphansWatched h1) : HubInv h1 := by
  obtain ⟨hA, hB0, hC⟩ := hinv
  refine ⟨?_, hB hB0, ?_⟩
  · intro p hp; rw [hs] at hp; exact hA p hp
  · intro p hp; rw [hs] at hp; exact hC p hp

theorem hasActive_congr (h h1 : Hub) (hs : h1.sessions = h.sessions) (u : String) :
    hasActiveSessionsForUser h1 u = hasActiveSessionsForUser h u := by
  simp [hasActiveSessionsForUser, hs]

theorem broadcastMessage_inv (message : List UInt8) (blocked : Client → Bool)
    (h : Hub) (w : World σ) (hinv : HubInv h) :
    HubInv (broadcastMessage message blocked h w).1 := by
  obtain ⟨f1, f2, f3⟩ := broadcastMessage_frame message blocked h w
  apply inv_of_same_sessions h _ f1 hinv
  intro hB u hidle hci
  rw [hasActive_congr _ _ f1] at hidle
  rw [f2] at hci
  rw [f3]
  exact hB u hidle hci

theorem startup_inv (D : Driver σ) (h : Hub) (w : World σ) (hinv : HubInv h) :
    HubInv (startPollersForOrphanedContainers (discoverExistingContainers D h w).1) := by
  obtain ⟨d1, _, _⟩ := discoverExistingContainers_frame D h w
  obtain ⟨p1, p2, _, _, p5⟩ :=
    startPollers_fold (mapKeys (discoverExistingContainers D h w).1.userContainers)
      (discoverExistingContainers D h w).1
  have hs : (startPollersForOrphanedContainers (discoverExistingContainers D h w).1).sessions
      = h.sessions := by
    unfold startPollersForOrphanedContainers
    rw [p1, d1]
  apply inv_of_same_sessions h _ hs hinv
  intro _ u hidle hci
  unfold startPollersForOrphanedContainers at hidle hci ⊢
  rw [p2] at hci
  apply p5 u ((mapHas_iff_mem_keys _ _).mp hci)
  rw [← hidle]
  exact (hasActive_congr _ _ p1 u).symm

theorem pollStep_inv (D : Driver σ) (u : String) (pc : PollPC) (h : Hub) (w : World σ)
    (hinv : HubInv h) : HubInv (pollStep D u pc h w).1 := by
  rcases pollStep_cases D u pc h w with h0 | h0 | h0
  · rw [h0]; exact hinv
  · rw [h0]
    obtain ⟨_, f2, f3⟩ := startIdlePoller_frame h u
    apply inv_of_same_sessions h _ f2 hinv
    intro hB v hidle hci
    rw [hasActive_congr _ _ f2] at hidle
    rw [f3] at hci
    exact mapHas_startIdlePoller h u v (hB v hidle hci)
  · rw [h0]
    refine inv_of_same_sessions h _ ?_ hinv ?_
    · rfl
    intro hB v hidle hci
    have hidle1 : hasActiveSessionsForUser h v = false := hidle
    by_cases hv : v = u
    · rw [hv] at hci
      simp [mapHas, mapGet_mapDelete_self] at hci
    · have hci1 : mapHas h.userContainers v = true := by
        simp only [mapHas, mapGet_mapDelete_ne _ _ _ hv] at hci
        exact hci
      exact hB v hidle1 hci1

theorem fire_inv (h : Hub) (u : String) (hinv : HubInv h) :
    HubInv { h with cleanupTimers := mapSet h.cleanupTimers u { fired := true } } := by
  refine inv_of_same_sessions h _ ?_ hinv ?_
  · rfl
  intro hB v hidle hci
  by_cases hv : v = u
  · rw [hv]; simp [mapHas, mapGet_mapSet_self]
  · have ht := hB v hidle hci
    simp only [mapHas, mapGet_mapSet_ne _ _ _ _ hv] at ht ⊢
    exact ht

theorem HandleResize_inv (D : Driver σ) (c : Client) (data : Except String ResizeData)
    (h : Hub) (w : World σ) (hinv : HubInv h) : HubInv (HandleResize D c data h w).2.1 := by
  rcases HandleResize_cases D c data h w with h0 | ⟨s, s1, hs, hs1, h0⟩
  · rw [h0]; exact hinv
  · obtain ⟨hA, hB, hC⟩ := hinv
    have hmem : (c, s) ∈ h.sessions := mem_of_mapGet _ _ _ hs
    have hsU : s.UserID = c.User.ID := hA (c, s) hmem
    have hs1U : s1.UserID = c.User.ID := by
      rcases hs1 with heq | ⟨pty, cmd, heq⟩
      · rw [heq]; exact hsU
      · rw [heq]; exact hsU
    have hs1C : s1.ContainerAttached = true ↔ s1.PTY.isSome = true := by
      rcases hs1 with heq | ⟨pty, cmd, heq⟩
      · rw [heq]; exact hC (c, s) hmem
      · rw [heq]; simp
    rw [h0]
    refine ⟨?_, ?_, ?_⟩
    · intro p hp
      rcases (mem_mapSet _ _ _ _).mp hp with heq | ⟨hm, _⟩
      · rw [heq]; exact hs1U
      · exact hA p hm
    · intro u hidle hci
      have hne : u ≠ c.User.ID := by
        intro heq
        have hact : hasActiveSessionsForUser
            { h with sessions := mapSet h.sessions c s1 } u = true :=
          (hasActive_iff _ u).mpr
            ⟨(c, s1), (mem_mapSet _ _ _ _).mpr (Or.inl rfl), hs1U.trans heq.symm⟩
        rw [hidle] at hact
        exact absurd hact (by decide)
      have hold : hasActiveSessionsForUser h u = false := by
        apply not_active_of_sessions_subset h _ c u hA hne _ hidle
        intro p hp hpc
        exact (mem_mapSet _ _ _ _).mpr (Or.inr ⟨hp, hpc⟩)
      exact hB u hold hci
    · intro p hp
      rcases (mem_mapSet _ _ _ _).mp hp with heq | ⟨hm, _⟩
      · rw [heq]; exact hs1C
      · exact hC p hm

theorem step_inv (D : Driver σ) (s s1 : Sys σ) (e : Event) (hstep : step D s e = some s1)
    (hinv : HubInv s.hub) : HubInv s1.hub := by
  cases e with
  | register c =>
    simp only [step, Option.some.injEq] at hstep
    rw [← hstep]
    exact registerClient_inv D c s.hub s.world hinv
  | unregister c =>
    simp only [step] at hstep
    split at hstep
    · exact absurd hstep (by simp)
    · simp only [Option.some.injEq] at hstep
      rw [← hstep]
      exact unregisterClient_inv c s.hub s.world hinv
  | broadcast message blocked =>
    simp only [step] at hstep
    split at hstep
    · exact absurd hstep (by simp)
    · simp only [Option.some.injEq] at hstep
      rw [← hstep]
      exact broadcastMessage_inv message blocked s.hub s.world hinv
  | startup =>
    simp only [step, Option.some.injEq] at hstep
    rw [← hstep]
    exact startup_inv D s.hub s.world hinv
  | fire u =>
    simp only [step] at hstep
    split at hstep
    · split at hstep
      · exact absurd hstep (by simp)
      · simp only [Option.some.injEq] at hstep
        rw [← hstep]
        exact fire_inv s.hub u hinv
    · exact absurd hstep (by simp)
  | poll i =>
    simp only [step] at hstep
    split at hstep
    · simp only [Option.some.injEq] at hstep
      rw [← hstep]
      exact pollStep_inv D _ _ s.hub s.world hinv
    · exact absurd hstep (by simp)
  | resize c data =>
    simp only [step, Option.some.injEq] at hstep
    rw [← hstep]
    exact HandleResize_inv D c data s.hub s.world hinv
  | ptyInput c data =>
    simp only [step, Option.some.injEq] at hstep
    rw [← hstep]
    simp only [HandlePTYInput_hub]
    exact hinv

theorem run_inv (D : Driver σ) (evs : List Event) :
    ∀ s s1 : Sys σ, run D s evs = some s1 → HubInv s.hub → HubInv s1.hub := by
  induction evs with
  | nil =>
    intro s s1 hrun hinv
    simp only [run, Option.some.injEq] at hrun
    rw [← hrun]; exact hinv
  | cons e rest ih =>
    intro s s1 hrun hinv
    simp only [run] at hrun
    cases hstep : step D s e with
    | none => rw [hstep] at hrun; exact absurd hrun (by simp)
    | some s2 =>
      rw [hstep] at hrun
      exact ih s2 s1 hrun (step_inv D s s2 e hstep hinv)

theorem NewHub_inv : HubInv NewHub := by
  refine ⟨?_, ?_, ?_⟩
  · intro p hp; simp [NewHub] at hp
  · intro u _ hci; simp [NewHub, mapHas, mapGet] at hci
  · intro p hp; simp [NewHub] at hp

end invariants

/-! ## Reachable states -/

section reachable

variable {σ : Type}

/-- C10: in every state reached from a new hub by register, resize (whatever
the attach does) and pty-input events, and by the other events as well, every
session is marked attached if and only if its PTY handle is non-nil. -/
theorem attached_iff_pty_in_reachable (D : Driver σ) (eng : σ) (evs : List Event) (s : Sys σ)
    (hrun : run D (initSys eng) evs = some s) (c : Client) (session : SessionInfo)
    (hsess : mapGet s.hub.sessions c = some session) :
    session.ContainerAttached = true ↔ session.PTY ≠ none := by
  have hinv := (run_inv D evs (initSys eng) s hrun NewHub_inv).2.2
  have h1 := hinv (c, session) (mem_of_mapGet _ _ _ hsess)
  rw [h1]
  cases session.PTY <;> simp

theorem attached_iff_pty_in_reachable_witness :
    ∃ s session,
      run (steadyDriver (.ok [])) (initSys ()) attachTrace = some s ∧
      mapGet s.hub.sessions tab1 = some session ∧ session.PTY = some 7 ∧
      (session.ContainerAttached = true ↔ session.PTY ≠ none) := by
  refine ⟨_, _, rfl, rfl, rfl, ?_⟩
  exact attached_iff_pty_in_reachable (steadyDriver (.ok [])) () attachTrace _ rfl tab1 _ rfl

/-- C4 (amended): in every state reached from a new hub by register,
unregister, startup discovery, timer and poll events, a user with no session
and with an entry in `userContainers` has an entry in `cleanupTimers`. -/
theorem orphaned_container_has_timer (D : Driver σ) (eng : σ) (evs : List Event) (s : Sys σ)
    (hrun : run D (initSys eng) evs = some s) (u : String)
    (hidle : hasActiveSessionsForUser s.hub u = false)
    (hci : mapHas s.hub.userContainers u = true) :
    mapHas s.hub.cleanupTimers u = true :=
  (run_inv D evs (initSys eng) s hrun NewHub_inv).2.1 u hidle hci

theorem orphaned_container_has_timer_witness :
    ∃ s, run (steadyDriver (.ok [])) (initSys ()) connectDisconnectTrace = some s ∧
      hasActiveSessionsForUser s.hub "U1" = false ∧
      mapHas s.hub.userContainers "U1" = true ∧
      mapHas s.hub.cleanupTimers "U1" = true := by
  refine ⟨_, rfl, rfl, rfl, ?_⟩
  exact orphaned_container_has_timer (steadyDriver (.ok [])) () connectDisconnectTrace _ rfl
    "U1" rfl rfl

/-- C4 (as stated) fails: when every engine call fails, register then
unregister leaves a timer entry for a user without any `ContainerInfo`. -/
theorem timer_entry_without_container :
    ∃ s, run brokenDriver (initSys ()) connectDisconnectTrace = some s ∧
      ¬ (mapHas s.hub.cleanupTimers "U1" = true ↔
          (hasActiveSessionsForUser s.hub "U1" = false ∧
            mapHas s.hub.userContainers "U1" = true)) :=
  ⟨_, rfl, by decide⟩

/-- C1: evaluation at the failing trace. The timer of `U1` reaches its deadline
and starts its callback, a second stream of `U1` registers before the callback
takes the lock, and the callback, finding a user process, arms a new timer:
`U1` has a session and a timer entry at the same time. -/
theorem timer_rearmed_while_session_open :
    ∃ s, run (steadyDriver (.ok ["python3"])) (initSys ())
        [Event.register tab1, Event.unregister tab1, Event.fire "U1", Event.register tab2,
         Event.poll 0, Event.poll 0, Event.poll 0] = some s ∧
      mapGet s.hub.sessions tab2 = some (aliceSession "2") ∧
      hasActiveSessionsForUser s.hub "U1" = true ∧
      mapGet s.hub.cleanupTimers "U1" = some { fired := false } :=
  ⟨_, rfl, rfl, rfl, rfl⟩

/-- C2: evaluation at the failing trace. The callback for `U1` has obtained an
empty process list, a stream of `U1` registers, and the callback then removes
the container and deletes the record although `U1` has a session. -/
theorem removal_after_reconnect :
    ∃ s, run (steadyDriver (.ok [])) (initSys ())
        [Event.register tab1, Event.unregister tab1, Event.fire "U1",
         Event.poll 0, Event.poll 0, Event.register tab2, Event.poll 0] = some s ∧
      hasActiveSessionsForUser s.hub "U1" = true ∧
      mapGet s.hub.userContainers "U1" = none ∧
      s.world.calls.getLast? = some (Call.RemoveContainer "user-container-U1") :=
  ⟨_, rfl, rfl, rfl, rfl⟩

/-- What the drop branch of `broadcastMessage` would do, were a broadcast step
taken: a broadcast that finds the send queue of a registered client blocked
drops the client from `clients` and leaves its entry in `sessions`. -/
theorem broadcast_drops_client_only :
    ∃ s, run (steadyDriver (.ok [])) (initSys ())
        [Event.register tab1, Event.broadcast [] (fun _ => true)] = some s ∧
      mapGet s.hub.clients tab1 = none ∧
      mapGet s.hub.sessions tab1 = some (aliceSession "1") :=
  ⟨_, rfl, rfl, rfl⟩

/-- C5 (as stated) fails: the engine `flakyDriver` leaves the container existing
and running after a successful spawn, the start state has no container, and
two register events for the same user issue two spawn calls because the first
spawn fails. -/
theorem two_registers_two_spawns :
    mapGet (initSys (σ := EngineState) { spawnFailures := 1, up := false }).hub.userContainers
      "U1" = none ∧
    (flakyDriver.ContainerExists "user-container-U1" { spawnFailures := 1, up := false }).1 =
      .ok false ∧
    (run flakyDriver (initSys { spawnFailures := 1, up := false })
        [Event.register tab1, Event.register tab2]).map
      (fun s => (spawnCalls s.world.calls, containerInfoCount s.hub "U1")) = some (2, 1) :=
  ⟨rfl, rfl, rfl⟩

theorem register_events_spawn_once_witness :
    ∃ s1, run flakyDriver (initSys { spawnFailures := 0, up := false })
        ([tab1, tab2].map Event.register) = some s1 ∧
      spawnCalls s1.world.calls = spawnCalls [] + 1 ∧
      containerInfoCount s1.hub "U1" = 1 :=
  register_events_spawn_once flakyDriver
    (fun e => e = { spawnFailures := 0, up := false })
    (fun e => e = { spawnFailures := 0, up := true }) "U1"
    (by intro e he; subst he; exact ⟨rfl, rfl⟩)
    (by intro e pr he; subst he; exact ⟨rfl, rfl⟩)
    (by intro e he; subst he; exact ⟨rfl, rfl⟩)
    [tab1, tab2] (by simp) (by intro c hc; simp at hc; rcases hc with h | h <;> rw [h] <;> rfl)
    (initSys { spawnFailures := 0, up := false }) rfl rfl

theorem pollContainerForIdle_removes_iff_idle_witness :
    mapGet idleHub.userContainers "U1" = some aliceContainer ∧
    (pollContainerForIdle (steadyDriver (.ok [])) "U1" idleHub emptyWorld).2.calls =
      [Call.GetContainerProcesses "user-container-U1",
       Call.RemoveContainer "user-container-U1"] ∧
    mapGet (pollContainerForIdle (steadyDriver (.ok [])) "U1" idleHub
      emptyWorld).1.userContainers "U1" = none ∧
    mapGet (pollContainerForIdle (steadyDriver (.ok ["python3"])) "U1" idleHub
      emptyWorld).1.userContainers "U1" = some aliceContainer ∧
    mapGet (pollContainerForIdle (steadyDriver (.ok ["python3"])) "U1" idleHub
      emptyWorld).1.cleanupTimers "U1" = some { fired := false } :=
  ⟨rfl,
    ((pollContainerForIdle_removes_iff_idle (steadyDriver (.ok [])) "U1" idleHub emptyWorld
      aliceContainer rfl).1 rfl).1,
    ((pollContainerForIdle_removes_iff_idle (steadyDriver (.ok [])) "U1" idleHub emptyWorld
      aliceContainer rfl).1 rfl).2.2,
    ((pollContainerForIdle_removes_iff_idle (steadyDriver (.ok ["python3"])) "U1" idleHub
      emptyWorld aliceContainer rfl).2 (by simp [steadyDriver])).2.2.1,
    ((pollContainerForIdle_removes_iff_idle (steadyDriver (.ok ["python3"])) "U1" idleHub
      emptyWorld aliceContainer rfl).2 (by simp [steadyDriver])).2.2.2⟩

theorem registerClient_stopped_container_witness :
    mapGet NewHub.userContainers tab1.User.ID = none ∧
    (registerClient (stoppedDriver true) tab1 NewHub emptyWorld).2.calls =
      [Call.ContainerExists "user-container-U1", Call.ContainerIsRunning "user-container-U1",
       Call.StartContainer "user-container-U1"] ∧
    (registerClient (stoppedDriver false) tab1 NewHub emptyWorld).2.calls =
      [Call.ContainerExists "user-container-U1", Call.ContainerIsRunning "user-container-U1",
       Call.StartContainer "user-container-U1", Call.RemoveContainer "user-container-U1",
       Call.SpawnContainer "U1" "user-container-U1" (some { Start := 8000, End := 8009 })] ∧
    mapGet (registerClient (stoppedDriver false) tab1 NewHub emptyWorld).1.userContainers "U1" =
      some aliceContainer :=
  ⟨rfl,
    ((registerClient_stopped_container (stoppedDriver true) tab1 NewHub emptyWorld () ()
      rfl rfl rfl).1 rfl).1,
    ((registerClient_stopped_container (stoppedDriver false) tab1 NewHub emptyWorld () ()
      rfl rfl rfl).2 "failed to start container" rfl).1,
    ((registerClient_stopped_container (stoppedDriver false) tab1 NewHub emptyWorld () ()
      rfl rfl rfl).2 "failed to start container" rfl).2.1 rfl⟩

theorem unregisterClient_effect_witness :
    mapHas twoTabsHub.clients tab1 = true ∧
    mapGet twoTabsHub.sessions tab1 = some (aliceSession "1") ∧
    mapGet (unregisterClient tab1 twoTabsHub emptyWorld).1.clients tab1 = none ∧
    mapGet (unregisterClient tab1 twoTabsHub emptyWorld).1.sessions tab1 = none ∧
    (unregisterClient tab1 twoTabsHub emptyWorld).1.cleanupTimers = twoTabsHub.cleanupTimers ∧
    mapGet (unregisterClient tab1 oneTabHub emptyWorld).1.cleanupTimers tab1.User.ID =
      some { fired := false } ∧
    unregisterClient tab1 idleHub emptyWorld = (idleHub, emptyWorld) :=
  ⟨rfl, rfl,
    ((unregisterClient_effect tab1 twoTabsHub emptyWorld).2.1 (aliceSession "1") rfl rfl rfl
      rfl).2.1,
    ((unregisterClient_effect tab1 twoTabsHub emptyWorld).2.1 (aliceSession "1") rfl rfl rfl
      rfl).2.2.1,
    ((unregisterClient_effect tab1 twoTabsHub emptyWorld).2.1 (aliceSession "1") rfl rfl rfl
      rfl).2.2.2.2.2 ⟨(tab2, aliceSession "2"), by decide, by decide, rfl⟩,
    ((unregisterClient_effect tab1 oneTabHub emptyWorld).2.1 (aliceSession "1") rfl rfl rfl
      rfl).2.2.2.2.1 (by decide),
    (unregisterClient_effect tab1 idleHub emptyWorld).1 rfl⟩

end reachable

/-! ## Package docker -/

section dockerPackage

theorem isPrefixOf_append_self (p r : List Char) : p.isPrefixOf (p ++ r) = true := by
  induction p with
  | nil => simp [List.isPrefixOf]
  | cons c cs ih => simp [List.isPrefixOf, ih]

theorem containsChars_middle (sub pre suf : List Char) :
    strings.containsChars sub (pre ++ (sub ++ suf)) = true := by
  induction pre with
  | nil =>
    cases hs : sub ++ suf with
    | nil =>
      have hsub : sub = [] := (List.append_eq_nil.mp hs).1
      simp [strings.containsChars, hsub]
    | cons c cs =>
      simp only [List.nil_append, hs, strings.containsChars]
      rw [← hs, isPrefixOf_append_self]
      rfl
  | cons c cs ih =>
    show (sub.isPrefixOf (c :: (cs ++ (sub ++ suf))) ||
      strings.containsChars sub (cs ++ (sub ++ suf))) = true
    rw [ih, Bool.or_true]

theorem HasPrefix_append (p r : String) : strings.HasPrefix (p ++ r) p = true := by
  simp [strings.HasPrefix, String.data_append, isPrefixOf_append_self]

theorem Contains_middle (pre sub suf : String) :
    strings.Contains (pre ++ sub ++ suf) sub = true := by
  simp only [strings.Contains, String.data_append, List.append_assoc]
  exact containsChars_middle _ _ _

/-- C13: evaluation at the failing input. On a listing of an idle container,
whose rows are the supervisor, `sleep infinity`, the tmux server and a login
shell, `GetContainerProcesses` returns the entries `sleep` and `tmux`: the
command is cut to its first field before the tests for `tmux ` and
`sleep infinity`, which therefore never hold. -/
theorem idle_listing_not_empty :
    docker.impl.GetContainerProcesses (.ok idleListing) = .ok ["sleep", "tmux"] ∧
    docker.impl.isInfrastructure "sleep" = false ∧
    docker.impl.isInfrastructure "tmux" = false := by
  refine ⟨rfl, rfl, rfl⟩

/-- C14: evaluation at the failing input. On a listing whose rows are the
supervisor and the user processes `sha256sum file` and `shuf`,
`GetContainerProcesses` returns the empty list: every command that starts with
`sh` passes the test meant for the shell. -/
theorem sh_named_user_processes_dropped :
    docker.impl.GetContainerProcesses (.ok busyListing) = .ok [] ∧
    docker.impl.isInfrastructure "sha256sum" = true ∧
    docker.impl.isInfrastructure "shuf" = true := by
  refine ⟨rfl, rfl, rfl⟩

/-- C15: for every container name and tab id, when the running check reports
true `AttachToContainer` returns the command `docker exec -it <name> sh -lc
<script>` whose script is, joined by `; ` in this order: mouse on, status off,
history-limit 100000, `tmux new-session -d -A -s 3compute-tab<tab id>`,
`tmux attach -t 3compute-tab<tab id>`. -/
theorem AttachToContainer_command (containerName tabID : String) :
    docker.impl.AttachToContainer (.ok true) containerName tabID =
      .ok ["docker", "exec", "-it", containerName, "sh", "-lc",
        "; ".intercalate
          ["tmux set -g mouse on", "tmux set -g status off",
           "tmux set -g history-limit 100000",
           "tmux new-session -d -A -s 3compute-tab" ++ tabID,
           "tmux attach -t 3compute-tab" ++ tabID]] := by
  have hs : "tmux set -g mouse on; tmux set -g status off; tmux set -g history-limit 100000; tmux new-session -d -A -s "
        ++ ("3compute-tab" ++ tabID) ++ "; tmux attach -t " ++ ("3compute-tab" ++ tabID) =
      "tmux set -g mouse on" ++ "; " ++ "tmux set -g status off" ++ "; " ++
        "tmux set -g history-limit 100000" ++ "; " ++
        ("tmux new-session -d -A -s 3compute-tab" ++ tabID) ++ "; " ++
        ("tmux attach -t 3compute-tab" ++ tabID) := by
    apply String.ext
    simp only [String.data_append, List.append_assoc]
    rfl
  simp only [docker.impl.AttachToContainer, String.intercalate, String.intercalate.go, hs]

/-- C16: for every container name and tab id, when the running check reports
false `AttachToContainer` returns an error (and so no command) whose message
contains `not running`, and when the running check fails it returns an error
as well. -/
theorem AttachToContainer_not_running (containerName tabID : String) :
    (∃ msg, docker.impl.AttachToContainer (.ok false) containerName tabID = .error msg ∧
      strings.Contains msg "not running" = true) ∧
    (∀ e : String, ∃ msg,
      docker.impl.AttachToContainer (.error e) containerName tabID = .error msg) := by
  constructor
  · refine ⟨"container " ++ containerName ++ " is not running", rfl, ?_⟩
    have h := Contains_middle ("container " ++ containerName ++ " is ") "not running" ""
    have heq : "container " ++ containerName ++ " is " ++ "not running" ++ "" =
        "container " ++ containerName ++ " is not running" := by
      apply String.ext
      simp only [String.data_append, List.append_assoc]
      rfl
    rw [heq] at h
    exact h
  · intro e
    exact ⟨_, rfl⟩

end dockerPackage

/-! ## The attach script, the spawn arguments and the port range -/

section dockerCommands

/-- C17 (as stated) fails: for the container `test-container` and tab `2` of
the test, the script of the command contains neither `tmux set -g mouse off`
nor a terminal-overrides setting nor `smcup@:rmcup@`. -/
theorem attach_script_has_no_mouse_off :
    ∃ script, docker.impl.AttachToContainer (.ok true) "test-container" "2" =
        .ok ["docker", "exec", "-it", "test-container", "sh", "-lc", script] ∧
      strings.Contains script "tmux set -g mouse off" = false ∧
      strings.Contains script "tmux set -g terminal-overrides" = false ∧
      strings.Contains script "smcup@:rmcup@" = false :=
  ⟨_, rfl, rfl, rfl, rfl⟩

/-- C18: for every user id, container name and port range, the command run by
`SpawnContainer` once its checks have passed is `docker` followed by the
arguments below: it names the container, joins network `isolated_net`, drops
all capabilities, sets user 999:995 and `no-new-privileges`, a `--cpus` and a
`--memory` limit, mounts `/tmp/uploads/<user id>` at `/app`, ends with the
image `3compute`, and has the `-p start-end:start-end` pair before the image
when a port range is given and no such pair when none is given. -/
theorem SpawnContainer_arguments (cpus memory userID containerName : String)
    (started : Except String Unit) :
    (∀ portRange : Option docker.PortRange,
      (docker.impl.SpawnContainer cpus memory (.ok false) (.ok ()) started userID
          containerName portRange).2 =
        some ("docker" :: docker.impl.spawnArgs cpus memory userID containerName portRange)) ∧
    docker.impl.spawnArgs cpus memory userID containerName none =
      ["run", "-d", "--rm", "--name", containerName, "--hostname", "3compute",
       "--network=isolated_net", "--cap-drop=ALL", "--user=999:995",
       "--security-opt", "no-new-privileges", "--cpus", cpus, "--memory", memory,
       "-v", "/tmp/uploads/" ++ userID ++ ":/app", "3compute"] ∧
    (∀ pr : docker.PortRange,
      docker.impl.spawnArgs cpus memory userID containerName (some pr) =
        ["run", "-d", "--rm", "--name", containerName, "--hostname", "3compute",
         "--network=isolated_net", "--cap-drop=ALL", "--user=999:995",
         "--security-opt", "no-new-privileges", "--cpus", cpus, "--memory", memory,
         "-v", "/tmp/uploads/" ++ userID ++ ":/app",
         "-p", toString pr.Start ++ "-" ++ toString pr.End ++ ":" ++
                 toString pr.Start ++ "-" ++ toString pr.End,
         "3compute"]) := by
  refine ⟨?_, ?_, ?_⟩
  · intro portRange
    cases started <;> rfl
  · rfl
  · intro pr
    rfl

/-- C19 (as stated) fails: for the largest `int`, `End` wraps around and lies
below `Start`. -/
theorem NewPortRange_wraps :
    (docker.NewPortRange 9223372036854775807).Start = 9223372036854775807 ∧
    (docker.NewPortRange 9223372036854775807).End = -9223372036854775800 ∧
    ¬ ((docker.NewPortRange 9223372036854775807).Start <
        (docker.NewPortRange 9223372036854775807).End) := by
  decide

theorem wrapInt64_of_inRange (i : Int) (hlo : -9223372036854775808 ≤ i)
    (hhi : i ≤ 9223372036854775807) : wrapInt64 i = i := by
  unfold wrapInt64
  have h63 : (2 : Int) ^ 63 = 9223372036854775808 := by norm_num
  have h64 : (2 : Int) ^ 64 = 18446744073709551616 := by norm_num
  rw [h63, h64]
  omega

/-- C19 (amended): for every start port `s` that an `int` holds with
`s + 9` still an `int` (`s <= 2^63 - 10`), `NewPortRange(s)` has `Start = s`
and `End = s + 9`, so `Start < End` and the range holds exactly 10 ports; and
it equals the pair returned by `User.PortRange()` for a user whose `PortStart`
is `s`. -/
theorem NewPortRange_ten_ports (s : Int) (hlo : -9223372036854775808 ≤ s)
    (hhi : s ≤ 9223372036854775798) :
    (docker.NewPortRange s).Start = s ∧
    (docker.NewPortRange s).End = s + 9 ∧
    (docker.NewPortRange s).Start < (docker.NewPortRange s).End ∧
    (docker.NewPortRange s).End - (docker.NewPortRange s).Start + 1 = 10 ∧
    (∀ u : auth.User, u.PortStart = s →
      u.PortRange = ((docker.NewPortRange s).Start, (docker.NewPortRange s).End)) := by
  have hw : wrapInt64 (s + 9) = s + 9 := wrapInt64_of_inRange (s + 9) (by omega) (by omega)
  refine ⟨rfl, ?_, ?_, ?_, ?_⟩
  · simp [docker.NewPortRange, hw]
  · simp [docker.NewPortRange, hw]
  · simp [docker.NewPortRange, hw]
  · intro u hu
    simp [auth.User.PortRange, auth.User.PortEnd, docker.NewPortRange, hu]

theorem NewPortRange_ten_ports_witness :
    (docker.NewPortRange 8000).Start = 8000 ∧
    (docker.NewPortRange 8000).End = 8000 + 9 ∧
    (docker.NewPortRange 8000).Start < (docker.NewPortRange 8000).End ∧
    (docker.NewPortRange 8000).End - (docker.NewPortRange 8000).Start + 1 = 10 ∧
    alice.PortRange = ((docker.NewPortRange 8000).Start, (docker.NewPortRange 8000).End) :=
  have h := NewPortRange_ten_ports 8000 (by decide) (by decide)
  ⟨h.1, h.2.1, h.2.2.1, h.2.2.2.1, h.2.2.2.2 alice rfl⟩

end dockerCommands

/-! ## Opening a stream -/

section serveWS

variable {σ : Type}

/-- C20: evaluation at the failing input. The parameter value `1; id` reaches
the client unchanged; it is not made of ASCII letters and digits only, and
`isAlphanumeric`, the test that `handleSaveTabs` and `handleGetTabs` put tab
ids through, rejects it. -/
theorem tab_id_not_checked :
    ∃ client, ServeWS true 3 alice "1; id" = some client ∧
      client.TabID = "1; id" ∧
      client.TabID.data.all Char.isAlphanum = false ∧
      auth.isAlphanumeric client.TabID = false :=
  ⟨_, rfl, rfl, rfl, rfl⟩

/-- What `ServeWS` does with the tabId parameter, whatever its characters: the
tab id given to the new client is `1` when the parameter is empty or missing
and the parameter value itself, unchanged, otherwise; that tab id is the one of
the session made at register and the one put after `3compute-tab` in the
attach script. -/
theorem ServeWS_tab_id (addr : Nat) (user : auth.User) (tabIdParam : String)
    (D : Driver σ) (h : Hub) (w : World σ) (containerName : String) :
    ∃ client, ServeWS true addr user tabIdParam = some client ∧
      client.TabID = (if tabIdParam = "" then "1" else tabIdParam) ∧
      (∃ session, mapGet (registerClient D client h w).1.sessions client = some session ∧
        session.TabID = client.TabID) ∧
      (∃ script, docker.impl.AttachToContainer (.ok true) containerName client.TabID =
          .ok ["docker", "exec", "-it", containerName, "sh", "-lc", script] ∧
        strings.Contains script ("3compute-tab" ++ client.TabID) = true) := by
  refine ⟨_, rfl, rfl, ?_, ⟨_, rfl, ?_⟩⟩
  · rw [registerClient_sessions, mapGet_mapSet_self]
    exact ⟨_, rfl, rfl⟩
  · show strings.Contains
      ("tmux set -g mouse on; tmux set -g status off; tmux set -g history-limit 100000; tmux new-session -d -A -s "
        ++ ("3compute-tab" ++ (if tabIdParam = "" then "1" else tabIdParam))
        ++ "; tmux attach -t "
        ++ ("3compute-tab" ++ (if tabIdParam = "" then "1" else tabIdParam)))
      ("3compute-tab" ++ (if tabIdParam = "" then "1" else tabIdParam)) = true
    generalize (if tabIdParam = "" then "1" else tabIdParam) = t
    have hc := Contains_middle
      "tmux set -g mouse on; tmux set -g status off; tmux set -g history-limit 100000; tmux new-session -d -A -s "
      ("3compute-tab" ++ t) ("; tmux attach -t " ++ ("3compute-tab" ++ t))
    have heq : "tmux set -g mouse on; tmux set -g status off; tmux set -g history-limit 100000; tmux new-session -d -A -s "
          ++ ("3compute-tab" ++ t) ++ ("; tmux attach -t " ++ ("3compute-tab" ++ t)) =
        "tmux set -g mouse on; tmux set -g status off; tmux set -g history-limit 100000; tmux new-session -d -A -s "
          ++ ("3compute-tab" ++ t) ++ "; tmux attach -t " ++ ("3compute-tab" ++ t) := by
      apply String.ext
      simp only [String.data_append, List.append_assoc]
    rw [heq] at hc
    exact hc

end serveWS

/-! ## Lazy attach on resize -/

section lazyAttach

variable {σ : Type}

theorem forwardStarts_append (a b : List Call) :
    forwardStarts (a ++ b) = forwardStarts a + forwardStarts b := by
  simp [forwardStarts, List.countP_append]

theorem forwardStarts_cons (c : Call) (l : List Call) :
    forwardStarts (c :: l) = forwardStarts l + (if isForwardStart c then 1 else 0) := by
  simp [forwardStarts, List.countP_cons]

theorem forwardStarts_nil : forwardStarts [] = 0 := rfl

theorem forwardStarts_ensureRunning (D : Driver σ) (c : Client) (s : SessionInfo)
    (running : Bool) (w : World σ) :
    forwardStarts (ensureRunning D c s running w).2.calls = forwardStarts w.calls := by
  unfold ensureRunning
  cases running with
  | true => rfl
  | false =>
    simp only [Bool.not_false, if_true, docker.StartContainer]
    rcases D.StartContainer s.ContainerName w.eng with ⟨r1, e1⟩
    cases r1 with
    | ok u => simp [forwardStarts_append, forwardStarts_cons, forwardStarts_nil, isForwardStart]
    | error e =>
      simp only [docker.SpawnContainer]
      rcases D.SpawnContainer c.User.ID s.ContainerName
        (some (docker.NewPortRange c.User.PortStart)) e1 with ⟨r2, e2⟩
      cases r2 <;> simp [forwardStarts_append, forwardStarts_cons, forwardStarts_nil, isForwardStart]

/-- What `attachToContainer` leaves behind: either an error, the session as it
was and no forwarder started, or success, the session attached to a PTY and one
forwarder started. -/
theorem attachToContainer_outcome (D : Driver σ) (c : Client) (s : SessionInfo) (w : World σ) :
    ((∃ e, (attachToContainer D c s w).1 = .error e) ∧
      (attachToContainer D c s w).2.1 = s ∧
      forwardStarts (attachToContainer D c s w).2.2.calls = forwardStarts w.calls) ∨
    ((attachToContainer D c s w).1 = .ok () ∧
      (∃ pty cmd, (attachToContainer D c s w).2.1 =
        { s with PTY := some pty, Cmd := some cmd, ContainerAttached := true }) ∧
      forwardStarts (attachToContainer D c s w).2.2.calls = forwardStarts w.calls + 1) := by
  unfold attachToContainer
  simp only [docker.ContainerIsRunning]
  rcases D.ContainerIsRunning s.ContainerName w.eng with ⟨r1, e1⟩
  cases r1 with
  | error e =>
    left
    exact ⟨⟨_, rfl⟩, rfl, by simp [forwardStarts_append, forwardStarts_cons, forwardStarts_nil, isForwardStart]⟩
  | ok running =>
    simp only []
    have hE := forwardStarts_ensureRunning D c s running
      { eng := e1, calls := w.calls ++ [Call.ContainerIsRunning s.ContainerName] }
    simp only [forwardStarts_append, forwardStarts_cons, forwardStarts_nil, isForwardStart,
      Bool.false_eq_true, if_false, Nat.add_zero] at hE
    generalize ensureRunning D c s running
      { eng := e1, calls := w.calls ++ [Call.ContainerIsRunning s.ContainerName] } = er at hE ⊢
    obtain ⟨r2, w2⟩ := er
    simp only [] at hE
    cases r2 with
    | error e =>
      left
      exact ⟨⟨_, rfl⟩, rfl, hE⟩
    | ok u =>
      simp only [docker.AttachToContainer]
      rcases D.AttachToContainer s.ContainerName s.TabID w2.eng with ⟨r3, e3⟩
      cases r3 with
      | error e =>
        left
        refine ⟨⟨_, rfl⟩, rfl, ?_⟩
        simp [forwardStarts_append, forwardStarts_cons, forwardStarts_nil, isForwardStart, hE]
      | ok cmd =>
        simp only [startPTY]
        rcases D.startPTY cmd e3 with ⟨r4, e4⟩
        cases r4 with
        | error e =>
          left
          refine ⟨⟨_, rfl⟩, rfl, ?_⟩
          simp [forwardStarts_append, forwardStarts_cons, forwardStarts_nil, isForwardStart, hE]
        | ok pty =>
          right
          refine ⟨rfl, ⟨pty, cmd, rfl⟩, ?_⟩
          simp [logCall, forwardStarts_append, forwardStarts_cons, forwardStarts_nil, isForwardStart, hE]

theorem forwardStarts_setWinSize (D : Driver σ) (pty : PTYFile) (rows cols : Int)
    (w : World σ) :
    (setWinSize D pty rows cols w).2.calls =
      w.calls ++ [Call.setWinSize pty (uint16 rows) (uint16 cols)] := rfl

theorem resize_error_data (D : Driver σ) (c : Client) (e : String) (h : Hub) (w : World σ) :
    (HandleResize D c (.error e) h w).2 = (h, w) := by
  unfold HandleResize
  cases mapGet h.sessions c <;> rfl

theorem resize_attached (D : Driver σ) (c : Client) (rd : ResizeData) (h : Hub) (w : World σ)
    (s : SessionInfo) (pty : PTYFile) (hs : mapGet h.sessions c = some s)
    (hat : s.ContainerAttached = true) (hp : s.PTY = some pty) :
    (HandleResize D c (.ok rd) h w).2.1 = { h with sessions := mapSet h.sessions c s } ∧
    (HandleResize D c (.ok rd) h w).2.2.calls =
      w.calls ++ [Call.setWinSize pty (uint16 rd.Rows) (uint16 rd.Cols)] := by
  simp only [HandleResize, hs, hat, hp, Bool.not_true, Bool.false_eq_true, if_false, setWinSize]
  rcases D.setWinSize pty (uint16 rd.Rows) (uint16 rd.Cols) w.eng with ⟨r1, e1⟩
  cases r1 <;> exact ⟨rfl, rfl⟩

theorem resize_attaching (D : Driver σ) (c : Client) (rd : ResizeData) (h : Hub) (w : World σ)
    (s : SessionInfo) (hs : mapGet h.sessions c = some s)
    (hat : s.ContainerAttached = false)
    (hok : (attachToContainer D c s w).1 = .ok ()) :
    ∃ pty, (attachToContainer D c s w).2.1.PTY = some pty ∧
      (attachToContainer D c s w).2.1.ContainerAttached = true ∧
      (HandleResize D c (.ok rd) h w).2.1 =
        { h with sessions := mapSet h.sessions c (attachToContainer D c s w).2.1 } ∧
      (HandleResize D c (.ok rd) h w).2.2.calls =
        (attachToContainer D c s w).2.2.calls ++
          [Call.setWinSize pty (uint16 rd.Rows) (uint16 rd.Cols)] := by
  rcases attachToContainer_outcome D c s w with ⟨⟨e, he⟩, _, _⟩ | ⟨_, ⟨pty, cmd, hs1⟩, _⟩
  · rw [he] at hok
    exact absurd hok (by simp)
  · refine ⟨pty, by rw [hs1], by rw [hs1], ?_⟩
    simp only [HandleResize, hs, hat, Bool.not_false, if_true, hok]
    have hpty : (attachToContainer D c s w).2.1.PTY = some pty := by rw [hs1]
    simp only [hpty, setWinSize]
    rcases D.setWinSize pty (uint16 rd.Rows) (uint16 rd.Cols)
      (attachToContainer D c s w).2.2.eng with ⟨r1, e1⟩
    cases r1 <;> exact ⟨rfl, rfl⟩

theorem resize_attach_failed (D : Driver σ) (c : Client) (rd : ResizeData) (h : Hub)
    (w : World σ) (s : SessionInfo) (hs : mapGet h.sessions c = some s)
    (hat : s.ContainerAttached = false) (e : String)
    (herr : (attachToContainer D c s w).1 = .error e) :
    (HandleResize D c (.ok rd) h w).2.2 = (attachToContainer D c s w).2.2 := by
  simp only [HandleResize, hs, hat, Bool.not_false, if_true, herr]

/-- One resize on a session that is attached starts no forwarder and leaves the
session attached; one resize on any other session starts at most one, and if
it starts one the session is attached afterwards. -/
theorem resize_forwardStarts (D : Driver σ) (c : Client) (data : Except String ResizeData)
    (h : Hub) (w : World σ) :
    (isAttached h c = true →
      forwardStarts (HandleResize D c data h w).2.2.calls = forwardStarts w.calls ∧
      isAttached (HandleResize D c data h w).2.1 c = true) ∧
    (isAttached h c = false →
      forwardStarts (HandleResize D c data h w).2.2.calls = forwardStarts w.calls ∨
      (forwardStarts (HandleResize D c data h w).2.2.calls = forwardStarts w.calls + 1 ∧
        isAttached (HandleResize D c data h w).2.1 c = true)) := by
  cases data with
  | error e =>
    rw [resize_error_data]
    exact ⟨fun hatt => ⟨rfl, hatt⟩, fun _ => Or.inl rfl⟩
  | ok rd =>
    cases hs : mapGet h.sessions c with
    | none =>
      have hna : isAttached h c = false := by simp [isAttached, hs]
      have hr : (HandleResize D c (.ok rd) h w).2 = (h, w) := by simp [HandleResize, hs]
      rw [hr, hna]
      exact ⟨fun hf => absurd hf (by decide), fun _ => Or.inl rfl⟩
    | some s =>
      cases hat : s.ContainerAttached with
      | true =>
        have hia : isAttached h c = true := by simp [isAttached, hs, hat]
        rw [hia]
        refine ⟨fun _ => ?_, fun hf => absurd hf (by decide)⟩
        cases hp : s.PTY with
        | none =>
          have hr : (HandleResize D c (.ok rd) h w).2 =
              ({ h with sessions := mapSet h.sessions c s }, w) := by
            simp [HandleResize, hs, hat, hp]
          rw [hr]
          exact ⟨rfl, by simp [isAttached, mapGet_mapSet_self, hat]⟩
        | some pty =>
          obtain ⟨h1, h2⟩ := resize_attached D c rd h w s pty hs hat hp
          rw [h1, h2]
          refine ⟨by simp [forwardStarts_append, forwardStarts_cons, forwardStarts_nil,
            isForwardStart], by simp [isAttached, mapGet_mapSet_self, hat]⟩
      | false =>
        have hia : isAttached h c = false := by simp [isAttached, hs, hat]
        rw [hia]
        refine ⟨fun hf => absurd hf (by decide), fun _ => ?_⟩
        rcases attachToContainer_outcome D c s w with ⟨⟨e, he⟩, _, hcount⟩ | ⟨hok, _, hcount⟩
        · left
          rw [resize_attach_failed D c rd h w s hs hat e he]
          exact hcount
        · right
          obtain ⟨pty, _, hatt1, hh, hc⟩ := resize_attaching D c rd h w s hs hat hok
          rw [hh, hc]
          refine ⟨by simp [forwardStarts_append, forwardStarts_cons, forwardStarts_nil,
            isForwardStart, hcount], by simp [isAttached, mapGet_mapSet_self, hatt1]⟩

theorem run_resize_cons (D : Driver σ) (s : Sys σ) (c : Client)
    (d : Except String ResizeData) (es : List Event) :
    run D s (Event.resize c d :: es) =
      run D { s with hub := (HandleResize D c d s.hub s.world).2.1,
                     world := (HandleResize D c d s.hub s.world).2.2 } es := by
  simp [run, step]

theorem resizes_when_attached (D : Driver σ) (c : Client) (ds : List (Except String ResizeData)) :
    ∀ s : Sys σ, isAttached s.hub c = true →
      ∃ s1, run D s (ds.map (Event.resize c)) = some s1 ∧
        forwardStarts s1.world.calls = forwardStarts s.world.calls := by
  induction ds with
  | nil => intro s _; exact ⟨s, rfl, rfl⟩
  | cons d rest ih =>
    intro s hatt
    obtain ⟨hcount, hatt1⟩ := (resize_forwardStarts D c d s.hub s.world).1 hatt
    rw [List.map_cons, run_resize_cons]
    obtain ⟨s1, hr, hc⟩ := ih
      { s with hub := (HandleResize D c d s.hub s.world).2.1,
               world := (HandleResize D c d s.hub s.world).2.2 } hatt1
    exact ⟨s1, hr, hc.trans hcount⟩

theorem resizes_start_at_most_one (D : Driver σ) (c : Client)
    (ds : List (Except String ResizeData)) :
    ∀ s : Sys σ, ∃ s1, run D s (ds.map (Event.resize c)) = some s1 ∧
      forwardStarts s1.world.calls ≤ forwardStarts s.world.calls + 1 := by
  induction ds with
  | nil => intro s; exact ⟨s, rfl, Nat.le_succ _⟩
  | cons d rest ih =>
    intro s
    rw [List.map_cons, run_resize_cons]
    cases hatt : isAttached s.hub c with
    | true =>
      obtain ⟨hcount, hatt1⟩ := (resize_forwardStarts D c d s.hub s.world).1 hatt
      obtain ⟨s1, hr, hc⟩ := resizes_when_attached D c rest
        { s with hub := (HandleResize D c d s.hub s.world).2.1,
                 world := (HandleResize D c d s.hub s.world).2.2 } hatt1
      refine ⟨s1, hr, ?_⟩
      rw [hc]
      simp only [hcount]
      exact Nat.le_succ _
    | false =>
      rcases (resize_forwardStarts D c d s.hub s.world).2 hatt with hcount | ⟨hcount, hatt1⟩
      · obtain ⟨s1, hr, hc⟩ := ih
          { s with hub := (HandleResize D c d s.hub s.world).2.1,
                   world := (HandleResize D c d s.hub s.world).2.2 }
        refine ⟨s1, hr, ?_⟩
        simp only [hcount] at hc
        exact hc
      · obtain ⟨s1, hr, hc⟩ := resizes_when_attached D c rest
          { s with hub := (HandleResize D c d s.hub s.world).2.1,
                   world := (HandleResize D c d s.hub s.world).2.2 } hatt1
        refine ⟨s1, hr, ?_⟩
        rw [hc]
        simp only [hcount]
        exact Nat.le_refl _

theorem resizes_after_attach (D : Driver σ) (c : Client) (session : SessionInfo)
    (pty : PTYFile) (hat : session.ContainerAttached = true) (hp : session.PTY = some pty)
    (ds : List (Except String ResizeData)) :
    ∀ s : Sys σ, mapGet s.hub.sessions c = some session →
      ∃ s1, run D s (ds.map (Event.resize c)) = some s1 ∧
        s1.world.calls = s.world.calls ++ resizeCalls pty ds ∧
        mapGet s1.hub.sessions c = some session := by
  induction ds with
  | nil => intro s hs; exact ⟨s, rfl, by simp [resizeCalls], hs⟩
  | cons d rest ih =>
    intro s hs
    rw [List.map_cons, run_resize_cons]
    cases d with
    | error e =>
      have hr := resize_error_data D c e s.hub s.world
      have h1 : (HandleResize D c (.error e) s.hub s.world).2.1 = s.hub := by rw [hr]
      have h2 : (HandleResize D c (.error e) s.hub s.world).2.2 = s.world := by rw [hr]
      rw [h1, h2]
      obtain ⟨s1, hrun, hc, hsess⟩ := ih { s with hub := s.hub, world := s.world } hs
      exact ⟨s1, hrun, by simpa [resizeCalls] using hc, hsess⟩
    | ok rd =>
      obtain ⟨h1, h2⟩ := resize_attached D c rd s.hub s.world session pty hs hat hp
      obtain ⟨s1, hrun, hc, hsess⟩ := ih
        { s with hub := (HandleResize D c (.ok rd) s.hub s.world).2.1,
                 world := (HandleResize D c (.ok rd) s.hub s.world).2.2 }
        (by simp only [h1]; exact mapGet_mapSet_self _ _ _)
      refine ⟨s1, hrun, ?_, hsess⟩
      rw [hc]
      simp only [h2, resizeCalls, List.append_assoc, List.singleton_append]

end lazyAttach

/-! ## Attach idempotency and PTY ownership -/

section attachAndClose

variable {σ : Type}

/-- C11 (as stated) fails: when the PTY start fails, the second resize invokes
`AttachToContainer` and the PTY start again, so the attach command is invoked
twice for one session; and a resize message with 65560 rows and -1 columns,
handled on an attached session, sets the PTY to 24 rows and 65535 columns. -/
theorem failed_attach_is_retried :
    (run noPtyDriver (initSys ()) twoResizeTrace).map
      (fun s => (attachCalls s.world.calls, startPTYCalls s.world.calls,
        isAttached s.hub tab1)) = some (2, 2, false) ∧
    (HandleResize (steadyDriver (.ok [])) tab1 (.ok { Rows := 65560, Cols := -1 })
      attachedHub emptyWorld).2.2.calls = [Call.setWinSize 7 24 65535] := by
  constructor
  · rfl
  · decide

/-- C11 (amended): for every sequence of resize messages handled for one
session, from any state: (1) at most one attach succeeds, that is at most one
forwarder is started; (2) when the session is attached, the calls made are
exactly one `pty.Setsize` on its PTY for each message that unmarshals, with
that message's rows and cols narrowed to `uint16`, in order, so the attach
command is not invoked again; (3) the resize whose attach succeeds sets the
size of the new PTY to its own rows and cols, narrowed to `uint16`, right after
the attach; (4) the narrowing leaves a number from 0 to 65535 as it is. -/
theorem resize_attaches_once (D : Driver σ) (c : Client) (s : Sys σ)
    (ds : List (Except String ResizeData)) :
    (∃ s1, run D s (ds.map (Event.resize c)) = some s1 ∧
      forwardStarts s1.world.calls ≤ forwardStarts s.world.calls + 1) ∧
    (∀ (session : SessionInfo) (pty : PTYFile),
      mapGet s.hub.sessions c = some session → session.ContainerAttached = true →
      session.PTY = some pty →
      ∃ s1, run D s (ds.map (Event.resize c)) = some s1 ∧
        s1.world.calls = s.world.calls ++ resizeCalls pty ds ∧
        mapGet s1.hub.sessions c = some session) ∧
    (∀ (session : SessionInfo) (rd : ResizeData),
      mapGet s.hub.sessions c = some session → session.ContainerAttached = false →
      (attachToContainer D c session s.world).1 = .ok () →
      ∃ pty, (attachToContainer D c session s.world).2.1.PTY = some pty ∧
        (HandleResize D c (.ok rd) s.hub s.world).2.2.calls =
          (attachToContainer D c session s.world).2.2.calls ++
            [Call.setWinSize pty (uint16 rd.Rows) (uint16 rd.Cols)]) ∧
    (∀ i : Int, 0 ≤ i → i ≤ 65535 → uint16 i = i) := by
  refine ⟨resizes_start_at_most_one D c ds s, ?_, ?_, ?_⟩
  · intro session pty hs hat hp
    exact resizes_after_attach D c session pty hat hp ds s hs
  · intro session rd hs hat hok
    obtain ⟨pty, hp, _, _, hc⟩ := resize_attaching D c rd s.hub s.world session hs hat hok
    exact ⟨pty, hp, hc⟩
  · intro i hlo hhi
    unfold uint16
    omega

theorem resize_attaches_once_witness :
    mapGet attachedHub.sessions tab1 = some attachedSession ∧
    (∃ s1, run (steadyDriver (.ok []))
        { hub := attachedHub, world := emptyWorld, polls := [] }
        (resizeMessages.map (Event.resize tab1)) = some s1 ∧
      s1.world.calls = emptyWorld.calls ++ resizeCalls 7 resizeMessages ∧
      mapGet s1.hub.sessions tab1 = some attachedSession) ∧
    resizeCalls 7 resizeMessages = [Call.setWinSize 7 24 80, Call.setWinSize 7 50 132] ∧
    (∃ pty, (attachToContainer (steadyDriver (.ok [])) tab1 (aliceSession "1")
          emptyWorld).2.1.PTY = some pty ∧
      (HandleResize (steadyDriver (.ok [])) tab1 (.ok { Rows := 24, Cols := 80 })
          { twoTabsHub with cleanupTimers := [] } emptyWorld).2.2.calls =
        (attachToContainer (steadyDriver (.ok [])) tab1 (aliceSession "1")
          emptyWorld).2.2.calls ++ [Call.setWinSize pty 24 80]) :=
  ⟨rfl,
    (resize_attaches_once (steadyDriver (.ok [])) tab1
      { hub := attachedHub, world := emptyWorld, polls := [] } resizeMessages).2.1
      attachedSession 7 rfl rfl rfl,
    rfl,
    (resize_attaches_once (steadyDriver (.ok [])) tab1
      { hub := { twoTabsHub with cleanupTimers := [] }, world := emptyWorld, polls := [] }
      []).2.2.1 (aliceSession "1") { Rows := 24, Cols := 80 } rfl rfl rfl⟩

theorem closeCalls_append (pty : PTYFile) (a b : List Call) :
    closeCalls pty (a ++ b) = closeCalls pty a + closeCalls pty b := by
  simp [closeCalls, List.count_append]

theorem closeCalls_send (pty : PTYFile) (client : Client) (message : List UInt8) :
    closeCalls pty [Call.send client message] = 0 := by
  simp [closeCalls, List.count_cons]

theorem forwardLoop_closeCalls (marshal : List UInt8 → Except String (List UInt8))
    (client : Client) (pty : PTYFile) (obs : List ForwardObs) :
    ∀ w : World σ,
      closeCalls pty (forwardLoop marshal client obs w).1.calls = closeCalls pty w.calls := by
  induction obs with
  | nil => intro w; rfl
  | cons o rest ih =>
    intro w
    unfold forwardLoop
    repeat' split
    all_goals first
      | rfl
      | exact ih w
      | (rw [ih]; simp [logCall, closeCalls_append, closeCalls_send])

theorem unregisterClient_log (c : Client) (h : Hub) (w : World σ) (session : SessionInfo)
    (pty : PTYFile) (hc : mapHas h.clients c = true) (hcl : sendClosed c w = false)
    (hs : mapGet h.sessions c = some session) (hp : session.PTY = some pty) :
    (unregisterClient c h w).2.calls =
      w.calls ++ [Call.closeSend c, Call.connClose c, Call.ptyClose pty] := by
  obtain ⟨b, hb⟩ := Option.isSome_iff_exists.mp hc
  simp only [unregisterClient, hb, hs, hp, hcl, Bool.false_eq_true, if_false]
  split <;> simp [closeClient, logCall, hcl]

theorem closeCalls_unregister (c : Client) (h : Hub) (w : World σ) (session : SessionInfo)
    (pty : PTYFile) (hc : mapHas h.clients c = true) (hcl : sendClosed c w = false)
    (hs : mapGet h.sessions c = some session) (hp : session.PTY = some pty) :
    closeCalls pty (unregisterClient c h w).2.calls = closeCalls pty w.calls + 1 := by
  rw [unregisterClient_log c h w session pty hc hcl hs hp, closeCalls_append]
  simp [closeCalls, List.count_cons]

theorem unregisterClient_panic_log (c : Client) (h : Hub) (w : World σ)
    (hc : mapHas h.clients c = true) (hcl : sendClosed c w = true) :
    (unregisterClient c h w).2.calls = w.calls ++ [Call.closeSend c, Call.panic] ∧
    (unregisterClient c h w).1.sessions = h.sessions := by
  obtain ⟨b, hb⟩ := Option.isSome_iff_exists.mp hc
  simp [unregisterClient, hb, hcl, closeClient, logCall]

theorem forwardLoop_sendClosed (marshal : List UInt8 → Except String (List UInt8))
    (client c1 : Client) (obs : List ForwardObs) :
    ∀ w : World σ, sendClosed c1 (forwardLoop marshal client obs w).1 = sendClosed c1 w := by
  induction obs with
  | nil => intro w; rfl
  | cons o rest ih =>
    intro w
    unfold forwardLoop
    repeat' split
    all_goals first
      | rfl
      | exact ih w
      | (rw [ih]; simp [sendClosed, logCall])

theorem forwarder_sendClosed (marshal : List UInt8 → Except String (List UInt8))
    (client c1 : Client) (session : SessionInfo) (obs : List ForwardObs) (w : World σ) :
    sendClosed c1 (readAndForwardPTYOutput marshal client session obs w).1 =
      sendClosed c1 w := by
  have hl := forwardLoop_sendClosed marshal client c1 obs w
  rw [← hl]
  unfold readAndForwardPTYOutput
  cases hend : (forwardLoop marshal client obs w).2 <;> cases hp : session.PTY <;>
    simp [hend, hp, sendClosed, logCall]

theorem closeCalls_forwarder (marshal : List UInt8 → Except String (List UInt8))
    (client : Client) (session : SessionInfo) (pty : PTYFile) (obs : List ForwardObs)
    (w : World σ) (hp : session.PTY = some pty)
    (hend : (readAndForwardPTYOutput marshal client session obs w).2 ≠ ForwardEnd.running) :
    closeCalls pty (readAndForwardPTYOutput marshal client session obs w).1.calls =
      closeCalls pty w.calls + 1 := by
  unfold readAndForwardPTYOutput at hend ⊢
  cases hl : (forwardLoop marshal client obs w).2 with
  | running => simp [hl] at hend
  | returned =>
    simp only [hl, hp, logCall, closeCalls_append, forwardLoop_closeCalls]
    simp [closeCalls, List.count_cons]
  | panicked =>
    simp only [hl, hp, logCall, closeCalls_append, forwardLoop_closeCalls]
    simp [closeCalls, List.count_cons]

/-- C12 (as stated) fails: the session of `tab1` is attached to PTY 7 and a
forwarder is started. In the first trace unregister destroys the session,
closing the PTY, and the forwarder, whose read then fails, returns and closes
the same handle in its deferred function. In the second trace the forwarder
returns first, at the end of the stream, and unregister closes the handle
again. Either way `Close` is called twice on the handle, not once. -/
theorem pty_closed_twice :
    ∃ s1 s2,
      run (steadyDriver (.ok [])) (initSys ()) firstResizeTrace = some s1 ∧
      mapGet s1.hub.sessions tab1 = some attachedSession ∧
      forwardStarts s1.world.calls = 1 ∧
      run (steadyDriver (.ok [])) s1 [Event.unregister tab1] = some s2 ∧
      mapGet s2.hub.sessions tab1 = none ∧
      closeCalls 7 s2.world.calls = 1 ∧
      (readAndForwardPTYOutput Except.ok tab1 attachedSession
        [{ done := false, read := .error "read /dev/ptmx: file already closed", sendOk := true }]
        s2.world).2 = ForwardEnd.returned ∧
      closeCalls 7 (readAndForwardPTYOutput Except.ok tab1 attachedSession
        [{ done := false, read := .error "read /dev/ptmx: file already closed", sendOk := true }]
        s2.world).1.calls = 2 ∧
      closeCalls 7 (unregisterClient tab1 s1.hub
        (readAndForwardPTYOutput Except.ok tab1 attachedSession
          [{ done := false, read := .error "EOF", sendOk := true }] s1.world).1).2.calls = 2 := by
  refine ⟨_, _, rfl, rfl, rfl, rfl, rfl, rfl, rfl, rfl, rfl⟩

/-- C12 (amended): for every registered client whose send queue has not been
closed and whose session holds a PTY, `unregisterClient` destroys the session
and calls `Close` on the handle once, and the forwarder of the session calls
`Close` on it once more in its deferred function when its loop ends; over
unregister and the end of the forwarder, in either order, that makes two
`Close` calls on the handle. -/
theorem pty_closed_by_unregister_and_forwarder
    (marshal : List UInt8 → Except String (List UInt8)) (c : Client) (h : Hub) (w : World σ)
    (session : SessionInfo) (pty : PTYFile) (obs : List ForwardObs)
    (hc : mapHas h.clients c = true) (hcl : sendClosed c w = false)
    (hs : mapGet h.sessions c = some session) (hp : session.PTY = some pty) :
    mapGet (unregisterClient c h w).1.sessions c = none ∧
    closeCalls pty (unregisterClient c h w).2.calls = closeCalls pty w.calls + 1 ∧
    ((readAndForwardPTYOutput marshal c session obs (unregisterClient c h w).2).2 ≠
        ForwardEnd.running →
      closeCalls pty
        (readAndForwardPTYOutput marshal c session obs (unregisterClient c h w).2).1.calls =
        closeCalls pty w.calls + 2) ∧
    ((readAndForwardPTYOutput marshal c session obs w).2 ≠ ForwardEnd.running →
      closeCalls pty
        (unregisterClient c h (readAndForwardPTYOutput marshal c session obs w).1).2.calls =
        closeCalls pty w.calls + 2) := by
  refine ⟨?_, closeCalls_unregister c h w session pty hc hcl hs hp, ?_, ?_⟩
  · obtain ⟨b, hb⟩ := Option.isSome_iff_exists.mp hc
    have hd : (unregisterClient c h w).1.sessions = mapDelete h.sessions c := by
      simp only [unregisterClient, hb, hs, hcl, Bool.false_eq_true, if_false]
      split <;> simp [startIdlePoller_frame]
    rw [hd]
    exact mapGet_mapDelete_self _ _
  · intro hret
    rw [closeCalls_forwarder marshal c session pty obs _ hp hret,
      closeCalls_unregister c h w session pty hc hcl hs hp]
  · intro hret
    rw [closeCalls_unregister c h _ session pty hc
        (by rw [forwarder_sendClosed]; exact hcl) hs hp,
      closeCalls_forwarder marshal c session pty obs w hp hret]

theorem pty_closed_by_unregister_and_forwarder_witness :
    mapHas attachedHub.clients tab1 = true ∧
    sendClosed tab1 emptyWorld = false ∧
    mapGet attachedHub.sessions tab1 = some attachedSession ∧
    mapGet (unregisterClient tab1 attachedHub emptyWorld).1.sessions tab1 = none ∧
    closeCalls 7 (unregisterClient tab1 attachedHub emptyWorld).2.calls =
      closeCalls 7 emptyWorld.calls + 1 ∧
    closeCalls 7
      (readAndForwardPTYOutput Except.ok tab1 attachedSession
        [{ done := false, read := .error "read /dev/ptmx: file already closed", sendOk := true }]
        (unregisterClient tab1 attachedHub emptyWorld).2).1.calls =
      closeCalls 7 emptyWorld.calls + 2 ∧
    closeCalls 7
      (unregisterClient tab1 attachedHub
        (readAndForwardPTYOutput Except.ok tab1 attachedSession
          [{ done := false, read := .ok [104, 105], sendOk := true },
           { done := false, read := .error "EOF", sendOk := true }] emptyWorld).1).2.calls =
      closeCalls 7 emptyWorld.calls + 2 :=
  have t1 := pty_closed_by_unregister_and_forwarder Except.ok tab1 attachedHub emptyWorld
    attachedSession 7
    [{ done := false, read := .error "read /dev/ptmx: file already closed", sendOk := true }]
    rfl rfl rfl rfl
  have t2 := pty_closed_by_unregister_and_forwarder Except.ok tab1 attachedHub emptyWorld
    attachedSession 7
    [{ done := false, read := .ok [104, 105], sendOk := true },
     { done := false, read := .error "EOF", sendOk := true }] rfl rfl rfl rfl
  ⟨rfl, rfl, rfl, t1.1, t1.2.1, t1.2.2.1 (by decide), t2.2.2.2 (by decide)⟩

end attachAndClose

/-! ## The process filter works on single fields -/

section processFilter

theorem fieldsAux_no_space (l : List Char) :
    ∀ cur : List Char, (∀ c ∈ cur, strings.isSpace c = false) →
      ∀ f ∈ strings.fieldsAux l cur, ∀ c ∈ f, strings.isSpace c = false := by
  induction l with
  | nil =>
    intro cur hcur f hf c hc
    unfold strings.fieldsAux at hf
    split at hf
    · simp at hf
    · simp only [List.mem_singleton] at hf
      rw [hf] at hc
      exact hcur c (List.mem_reverse.mp hc)
  | cons a rest ih =>
    intro cur hcur f hf c hc
    unfold strings.fieldsAux at hf
    split at hf
    · split at hf
      · exact ih [] (by simp) f hf c hc
      · rcases List.mem_cons.mp hf with heq | hmem
        · rw [heq] at hc
          exact hcur c (List.mem_reverse.mp hc)
        · exact ih [] (by simp) f hmem c hc
    · rename_i hsp
      refine ih (a :: cur) ?_ f hf c hc
      intro x hx
      rcases List.mem_cons.mp hx with heq | hmem
      · rw [heq]; exact Bool.eq_false_iff.mpr hsp
      · exact hcur x hmem

theorem Fields_no_space (line field : String) (hf : field ∈ strings.Fields line) :
    ∀ c ∈ field.data, strings.isSpace c = false := by
  simp only [strings.Fields, List.mem_map] at hf
  obtain ⟨chars, hmem, heq⟩ := hf
  rw [← heq]
  exact fieldsAux_no_space line.data [] (by simp) chars hmem

theorem mem_of_isPrefixOf (p l : List Char) (h : p.isPrefixOf l = true) :
    ∀ c ∈ p, c ∈ l := by
  induction p generalizing l with
  | nil => intro c hc; simp at hc
  | cons a rest ih =>
    cases l with
    | nil => simp [List.isPrefixOf] at h
    | cons b bs =>
      simp only [List.isPrefixOf, Bool.and_eq_true, beq_iff_eq] at h
      intro c hc
      rcases List.mem_cons.mp hc with heq | hmem
      · rw [heq, h.1]; exact List.mem_cons_self _ _
      · exact List.mem_cons_of_mem _ (ih bs h.2 c hmem)

/-- The tests for `tmux ` and for `sleep infinity` in the filter never hold on a
field of a line: a field has no blank. -/
theorem tmux_and_sleep_tests_are_dead (line field : String)
    (hf : field ∈ strings.Fields line) :
    strings.HasPrefix field "tmux " = false ∧ (field == "sleep infinity") = false := by
  have hns := Fields_no_space line field hf
  have hblank : strings.isSpace (Char.ofNat 32) = true := by decide
  constructor
  · apply Bool.eq_false_iff.mpr
    intro hp
    have hmem := mem_of_isPrefixOf _ _ hp (Char.ofNat 32) (by decide)
    rw [hns _ hmem] at hblank
    exact absurd hblank (by decide)
  · apply Bool.eq_false_iff.mpr
    intro heq
    have hfe : field = "sleep infinity" := by simpa using heq
    have hmem : Char.ofNat 32 ∈ field.data := by rw [hfe]; decide
    rw [hns _ hmem] at hblank
    exact absurd hblank (by decide)

theorem fieldsAux_ne_nil (l : List Char) :
    ∀ cur : List Char, cur ≠ [] → strings.fieldsAux l cur ≠ [] := by
  induction l with
  | nil =>
    intro cur hcur
    unfold strings.fieldsAux
    cases cur with
    | nil => exact absurd rfl hcur
    | cons a as => simp
  | cons a rest ih =>
    intro cur hcur
    unfold strings.fieldsAux
    cases cur with
    | nil => exact absurd rfl hcur
    | cons b bs =>
      split
      · simp
      · exact ih _ (by simp)

theorem splitChars_head (sep c : Char) (cs : List Char) (hc : c ≠ sep) :
    ∃ p ps, strings.splitChars sep (c :: cs) = (c :: p) :: ps := by
  unfold strings.splitChars
  rw [if_neg hc]
  cases strings.splitChars sep cs with
  | nil => exact ⟨[], [], rfl⟩
  | cons p ps => exact ⟨p, ps, rfl⟩

theorem dropWhile_head_not (p : Char → Bool) (l : List Char) (c : Char) (cs : List Char)
    (h : l.dropWhile p = c :: cs) : p c = false := by
  induction l with
  | nil => simp at h
  | cons a rest ih =>
    by_cases hpa : p a = true
    · rw [List.dropWhile_cons_of_pos hpa] at h
      exact ih h
    · rw [List.dropWhile_cons_of_neg hpa] at h
      have : a = c := by injection h
      rw [← this]
      exact Bool.eq_false_iff.mpr hpa

theorem trimmed_head_not_space (s : String) (c : Char) (cs : List Char)
    (h : (strings.TrimSpace s).data = c :: cs) : strings.isSpace c = false := by
  simp only [strings.TrimSpace] at h
  have hsplit := List.takeWhile_append_dropWhile strings.isSpace
    (s.data.dropWhile strings.isSpace).reverse
  have hrev := congrArg List.reverse hsplit
  rw [List.reverse_append, List.reverse_reverse, h] at hrev
  exact dropWhile_head_not strings.isSpace s.data c _ hrev.symm

/-- The index of the command column is never negative where `GetContainerProcesses`
uses it: the trimmed output starts with a character that is not white space,
so its first line has a field. -/
theorem commandIndex_nonneg (output header : String) (rest : List String)
    (hsplit : strings.Split (strings.TrimSpace output) (Char.ofNat 10) = header :: rest)
    (hrest : rest ≠ []) :
    0 ≤ docker.impl.commandIndex (strings.Fields header) := by
  have hfields : strings.Fields header ≠ [] := by
    cases hd : (strings.TrimSpace output).data with
    | nil =>
      simp only [strings.Split, hd, strings.splitChars, List.map_cons, List.map_nil] at hsplit
      have : rest = [] := by
        injection hsplit with _ h2
        exact h2.symm
      exact absurd this hrest
    | cons c cs =>
      have hc : strings.isSpace c = false := trimmed_head_not_space output c cs hd
      have hne : c ≠ Char.ofNat 10 := by
        intro heq
        rw [heq] at hc
        exact absurd hc (by decide)
      obtain ⟨p, ps, hp⟩ := splitChars_head (Char.ofNat 10) c cs hne
      simp only [strings.Split, hd, hp, List.map_cons] at hsplit
      have hh : header = String.mk (c :: p) := by
        injection hsplit with h1 _
        exact h1.symm
      rw [hh]
      simp only [strings.Fields, ne_eq, List.map_eq_nil_iff]
      show strings.fieldsAux (c :: p) [] ≠ []
      unfold strings.fieldsAux
      rw [if_neg (by rw [hc]; decide)]
      exact fieldsAux_ne_nil p [c] (by simp)
  unfold docker.impl.commandIndex
  split
  · exact Int.ofNat_nonneg _
  · have hlen : 0 < (strings.Fields header).length := List.length_pos.mpr hfields
    omega

end processFilter

/-! ## Existence checks, closing a tab and stopping the hub -/

section closing

/-- C21: for an authenticated user and a well-formed body, with the hub
initialised, `handleCloseTab` answers 404 and runs no engine command when the
user has no ContainerInfo; otherwise it runs the kill of tmux session
`3compute-tab<tabId>` (tabId `1` when the field is empty) in the user's
container and answers 200 whether or not the kill succeeds. -/
theorem handleCloseTab_answers (tabIdField : String) (h : Hub) (user : auth.User)
    (ran : Except String Unit) :
    (mapGet h.userContainers user.ID = none →
      (handleCloseTab (.ok tabIdField) (some h) user ran).status = 404 ∧
      (handleCloseTab (.ok tabIdField) (some h) user ran).commands = []) ∧
    (∀ info, mapGet h.userContainers user.ID = some info →
      (handleCloseTab (.ok tabIdField) (some h) user ran).status = 200 ∧
      (handleCloseTab (.ok tabIdField) (some h) user ran).commands =
        [["docker", "exec", info.ContainerName, "tmux", "kill-session", "-t",
          "3compute-tab" ++ (if tabIdField = "" then "1" else tabIdField)]]) := by
  constructor
  · intro hnone
    simp [handleCloseTab, hnone]
  · intro info hsome
    cases ran <;> simp [handleCloseTab, hsome, docker.impl.KillTmuxSession]

/-- Witness of C21: `alice` with her container recorded closes the tab with
an empty `tabId` field while the kill command fails. -/
theorem handleCloseTab_answers_witness :
    mapGet idleHub.userContainers alice.ID = some aliceContainer ∧
    (handleCloseTab (.ok "") (some idleHub) alice (.error "no session")).status = 200 ∧
    (handleCloseTab (.ok "") (some idleHub) alice (.error "no session")).commands =
      [["docker", "exec", "user-container-U1", "tmux", "kill-session", "-t",
        "3compute-tab1"]] :=
  ⟨rfl, (handleCloseTab_answers "" idleHub alice (.error "no session")).2 aliceContainer rfl⟩

/-- C28: evaluation at the failing input. A stream registers, `Stop` closes
its send queue and leaves it in `clients`, and the unregister event of the same
stream closes the queue a second time. -/
theorem send_closed_twice_after_stop :
    (run (steadyDriver (.ok [])) (initSys ()) [Event.register tab1]).map
        (fun s => closeSendCalls tab1 (Hub.Stop s.hub s.world).2.calls) = some 1 ∧
    stopThenUnregister.map (fun r => closeSendCalls tab1 r.2.calls) = some 2 := by
  constructor <;> decide

/-- C29: evaluation at the failing input. With a listing that holds only
`user-container-123`, both checks answer true for `user-container-12`. -/
theorem substring_container_reported :
    docker.impl.ContainerExists (.ok listingOf123) "user-container-12" = .ok true ∧
    docker.impl.ContainerIsRunning (.ok listingOf123) "user-container-12" = .ok true := by
  constructor <;> rfl

end closing

/-! ## Bytes and paths -/

section bytesAndPaths

/-- C24: evaluation at the failing input. For user `12` the file name
`../123/secret.txt` passes the check of `handleFile`, and as source and
destination that of `handleMoveFileOrFolder`, with a path that is neither the
directory of user `12` nor beneath it. -/
theorem sibling_directory_accepted :
    files.handleFile "12" "/../123/secret.txt" = .ok "/tmp/uploads/123/secret.txt" ∧
    files.handleMoveFileOrFolder "12" "../123/secret.txt" "../12x/copy.txt" =
      .ok ("/tmp/uploads/123/secret.txt", "/tmp/uploads/12x/copy.txt") ∧
    files.within (files.uploadDirOf "12") "/tmp/uploads/123/secret.txt" = false ∧
    files.within (files.uploadDirOf "12") "/tmp/uploads/12x/copy.txt" = false := by
  refine ⟨by rfl, by rfl, by decide, by decide⟩

/-- C25: evaluation at the failing inputs. The single byte FF is not valid
UTF-8 and `isValidUTF8` answers true; the valid text that consists of the
character U+FFFD gets the answer false. -/
theorem isValidUTF8_misjudges :
    files.isValidUTF8 [0xFF] = true ∧ utf8.Valid [0xFF] = false ∧
    files.isValidUTF8 [0xEF, 0xBF, 0xBD] = false ∧ utf8.Valid [0xEF, 0xBF, 0xBD] = true := by
  refine ⟨by decide, by decide, by decide, by decide⟩

end bytesAndPaths

/-! ## Frame integrity of the forwarder -/

section frameIntegrity

variable {σ : Type}

theorem coerceAux_of_valid (fuel : Nat) :
    ∀ bs : List UInt8, bs.length ≤ fuel → utf8.validAux fuel bs = true →
      json.coerceAux fuel bs = bs := by
  induction fuel with
  | zero =>
    intro bs hlen _
    cases bs with
    | nil => rfl
    | cons b rest => simp at hlen
  | succ fuel ih =>
    intro bs hlen hv
    cases bs with
    | nil => rfl
    | cons b rest =>
      simp only [utf8.validAux] at hv
      simp only [json.coerceAux]
      cases hk : utf8.runeLen (b :: rest) with
      | zero => rw [hk] at hv; simp at hv
      | succ k =>
        rw [hk] at hv
        simp only at hv ⊢
        have hlen2 : (rest.drop k).length ≤ fuel := by
          simp only [List.length_cons] at hlen
          simp only [List.length_drop]
          omega
        rw [ih _ hlen2 hv]
        simp [List.take_append_drop]

theorem coerceUTF8_of_valid (bs : List UInt8) (h : utf8.Valid bs = true) :
    json.coerceUTF8 bs = bs :=
  coerceAux_of_valid bs.length bs (Nat.le_refl _) h

theorem sentFrames_append (client : Client) (a b : List Call) :
    sentFrames client (a ++ b) = sentFrames client a ++ sentFrames client b := by
  induction a with
  | nil => rfl
  | cons x xs ih =>
    cases x <;> simp only [List.cons_append, sentFrames] <;> (try split) <;>
      simp [ih]

theorem sentFrames_logSend (client : Client) (message : List UInt8) (w : World σ) :
    sentFrames client (logCall (Call.send client message) w).calls =
      sentFrames client w.calls ++ [message] := by
  simp [logCall, sentFrames_append, sentFrames]

theorem frames_of_valid_chunks (frame payload : List UInt8 → List UInt8)
    (hround : ∀ s, payload (frame s) = s) (client : Client) :
    ∀ (obs : List ForwardObs) (w : World σ),
      (∀ chunk ∈ chunksRead (marshalOutput frame) client obs w, utf8.Valid chunk = true) →
      ∃ placed rest,
        sentFrames client (forwardLoop (marshalOutput frame) client obs w).1.calls =
          sentFrames client w.calls ++ placed ∧
        (chunksRead (marshalOutput frame) client obs w).flatten =
          (placed.map payload).flatten ++ rest := by
  intro obs
  induction obs with
  | nil =>
    intro w _
    exact ⟨[], [], by simp [forwardLoop], by simp [chunksRead]⟩
  | cons o rest ih =>
    intro w hvalid
    simp only [forwardLoop, chunksRead] at hvalid ⊢
    by_cases hdone : o.done = true
    · simp only [hdone, if_true]
      exact ⟨[], [], by simp, by simp⟩
    · simp only [hdone, if_false, Bool.false_eq_true] at hvalid ⊢
      cases hread : o.read with
      | error e =>
        simp only [hread]
        exact ⟨[], [], by simp, by simp⟩
      | ok chunk =>
        simp only [hread] at hvalid ⊢
        by_cases hlen : chunk.length > 0
        · simp only [hlen, if_true, marshalOutput] at hvalid ⊢
          by_cases hclosed : Call.closeSend client ∈ w.calls
          · simp only [hclosed, if_true]
            exact ⟨[], chunk, by simp, by simp⟩
          · simp only [hclosed, if_false] at hvalid ⊢
            by_cases hsend : o.sendOk = true
            · simp only [hsend, if_true] at hvalid ⊢
              have hchunk : utf8.Valid chunk = true := hvalid chunk (List.mem_cons_self _ _)
              obtain ⟨placed, more, hplaced, hjoin⟩ :=
                ih (logCall (Call.send client (frame (json.coerceUTF8 chunk))) w)
                  (fun c hc => hvalid c (List.mem_cons_of_mem _ hc))
              refine ⟨frame (json.coerceUTF8 chunk) :: placed, more, ?_, ?_⟩
              · rw [hplaced, sentFrames_logSend]
                simp
              · rw [List.flatten_cons, hjoin]
                simp [hround, coerceUTF8_of_valid chunk hchunk]
            · simp only [hsend, if_false, Bool.false_eq_true]
              exact ⟨[], chunk, by simp, by simp⟩
        · simp only [hlen, if_false] at hvalid ⊢
          obtain ⟨placed, more, hplaced, hjoin⟩ :=
            ih w (fun c hc => hvalid c (List.mem_cons_of_mem _ hc))
          have hnil : chunk = [] := by
            cases chunk with
            | nil => rfl
            | cons b bs => simp at hlen
          refine ⟨placed, more, hplaced, ?_⟩
          rw [List.flatten_cons, hjoin, hnil]
          simp

/-- C23 (as stated) fails: a code point of three bytes that two reads cut
after its second byte is forwarded as three replacement characters, so the
concatenation of the payloads is no prefix of the bytes read. -/
theorem split_rune_is_altered :
    sentFrames tab1 (forwardLoop (marshalOutput id) tab1 splitRuneObs emptyWorld).1.calls =
      [[0xEF, 0xBF, 0xBD, 0xEF, 0xBF, 0xBD], [0xEF, 0xBF, 0xBD]] ∧
    (chunksRead (marshalOutput id) tab1 splitRuneObs emptyWorld).flatten = [0xE4, 0xB8, 0x96] ∧
    ((sentFrames tab1
        (forwardLoop (marshalOutput id) tab1 splitRuneObs emptyWorld).1.calls).flatten).isPrefixOf
      ((chunksRead (marshalOutput id) tab1 splitRuneObs emptyWorld).flatten) = false := by
  refine ⟨by decide, by decide, by decide⟩

/-- C23 (amended): when every chunk the forwarder reads is valid UTF-8, the
concatenation, in order, of the payloads of the frames it places on the
client's send queue is a prefix of the concatenation of the bytes read.
Here `frame` makes the JSON text of a payload and `payload` reads it back. -/
theorem frames_are_prefix_of_valid_chunks (frame payload : List UInt8 → List UInt8)
    (hround : ∀ s, payload (frame s) = s) (client : Client)
    (obs : List ForwardObs) (w : World σ)
    (hvalid : ∀ chunk ∈ chunksRead (marshalOutput frame) client obs w,
      utf8.Valid chunk = true) :
    ∃ placed rest,
      sentFrames client (forwardLoop (marshalOutput frame) client obs w).1.calls =
        sentFrames client w.calls ++ placed ∧
      (chunksRead (marshalOutput frame) client obs w).flatten =
        (placed.map payload).flatten ++ rest :=
  frames_of_valid_chunks frame payload hround client obs w hvalid

/-- Witness of C23 (amended): two reads of whole code points, with the
identity as frame text. -/
theorem frames_are_prefix_of_valid_chunks_witness :
    (∀ chunk ∈ chunksRead (marshalOutput id) tab1 wholeRuneObs emptyWorld,
      utf8.Valid chunk = true) ∧
    ∃ placed rest,
      sentFrames tab1 (forwardLoop (marshalOutput id) tab1 wholeRuneObs emptyWorld).1.calls =
        sentFrames tab1 emptyWorld.calls ++ placed ∧
      (chunksRead (marshalOutput id) tab1 wholeRuneObs emptyWorld).flatten =
        (placed.map id).flatten ++ rest :=
  ⟨by decide,
   frames_are_prefix_of_valid_chunks id id (fun _ => rfl) tab1 wholeRuneObs emptyWorld
     (by decide)⟩

end frameIntegrity

/-! ## Startup discovery and the container naming -/

section discovery

variable {σ : Type}

theorem splitChars_ne_nil (sep : Char) (l : List Char) : strings.splitChars sep l ≠ [] := by
  cases l with
  | nil => simp [strings.splitChars]
  | cons c cs =>
    unfold strings.splitChars
    split
    · simp
    · split <;> simp

theorem splitChars_no_sep (sep : Char) (l : List Char) (h : sep ∉ l) :
    strings.splitChars sep l = [l] := by
  induction l with
  | nil => rfl
  | cons c cs ih =>
    have hc : c ≠ sep := fun e => h (by simp [e])
    have hcs : sep ∉ cs := fun e => h (List.mem_cons_of_mem _ e)
    simp [strings.splitChars, hc, ih hcs]

theorem splitChars_uncons (sep : Char) :
    ∀ (l p : List Char) (ps : List (List Char)), strings.splitChars sep l = p :: ps →
      (ps = [] ∧ l = p) ∨ (∃ l1, l = p ++ sep :: l1 ∧ strings.splitChars sep l1 = ps) := by
  intro l
  induction l with
  | nil =>
    intro p ps h
    simp [strings.splitChars] at h
    exact Or.inl ⟨h.2, h.1.symm⟩
  | cons c cs ih =>
    intro p ps h
    unfold strings.splitChars at h
    by_cases hc : c = sep
    · rw [if_pos hc] at h
      simp only [List.cons.injEq] at h
      exact Or.inr ⟨cs, by rw [← h.1, hc]; rfl, h.2⟩
    · rw [if_neg hc] at h
      cases hs : strings.splitChars sep cs with
      | nil => exact absurd hs (splitChars_ne_nil sep cs)
      | cons q qs =>
        rw [hs] at h
        simp only [List.cons.injEq] at h
        rcases ih q qs hs with ⟨hnil, hq⟩ | ⟨l1, hl1, hrest⟩
        · exact Or.inl ⟨by rw [← h.2, hnil], by rw [← h.1, hq]⟩
        · exact Or.inr ⟨l1, by rw [← h.1, hl1]; rfl, by rw [← h.2, hrest]⟩

theorem splitChars_three (sep : Char) (l a b c : List Char)
    (h : strings.splitChars sep l = [a, b, c]) : l = a ++ sep :: (b ++ sep :: c) := by
  rcases splitChars_uncons sep l a [b, c] h with ⟨hnil, _⟩ | ⟨l1, hl1, h1⟩
  · simp at hnil
  · rcases splitChars_uncons sep l1 b [c] h1 with ⟨hnil, _⟩ | ⟨l2, hl2, h2⟩
    · simp at hnil
    · rcases splitChars_uncons sep l2 c [] h2 with ⟨_, hc⟩ | ⟨l3, _, h3⟩
      · rw [hl1, hl2, hc]
      · exact absurd h3 (splitChars_ne_nil sep l3)

theorem containerName_of_split (name userID : String)
    (h : strings.Split name (Char.ofNat 45) = ["user", "container", userID]) :
    name = containerNameOf userID := by
  unfold strings.Split at h
  cases hs : strings.splitChars (Char.ofNat 45) name.data with
  | nil => rw [hs] at h; simp at h
  | cons a r1 =>
    cases r1 with
    | nil => rw [hs] at h; simp at h
    | cons b r2 =>
      cases r2 with
      | nil => rw [hs] at h; simp at h
      | cons c r3 =>
        cases r3 with
        | cons d r4 => rw [hs] at h; simp at h
        | nil =>
          rw [hs] at h
          simp only [List.map_cons, List.map_nil, List.cons.injEq, and_true] at h
          obtain ⟨ha, hb, hc⟩ := h
          have hdata := splitChars_three _ _ _ _ _ hs
          have ha1 : a = "user".data := by rw [← ha]
          have hb1 : b = "container".data := by rw [← hb]
          have hc1 : c = userID.data := by rw [← hc]
          apply String.ext
          rw [hdata, ha1, hb1, hc1]
          simp only [containerNameOf, String.data_append]
          rfl

theorem split_containerName (u : String) (hu : Char.ofNat 45 ∉ u.data) :
    strings.Split (containerNameOf u) (Char.ofNat 45) = ["user", "container", u] := by
  have h0 := splitChars_no_sep (Char.ofNat 45) u.data hu
  have hdata : (containerNameOf u).data =
      'u' :: 's' :: 'e' :: 'r' :: Char.ofNat 45 :: 'c' :: 'o' :: 'n' :: 't' :: 'a' :: 'i' ::
        'n' :: 'e' :: 'r' :: Char.ofNat 45 :: u.data := by
    simp only [containerNameOf, String.data_append]
    rfl
  unfold strings.Split
  rw [hdata]
  have hne : ∀ c : Char, c ≠ Char.ofNat 45 → ∀ cs q qs,
      strings.splitChars (Char.ofNat 45) cs = q :: qs →
      strings.splitChars (Char.ofNat 45) (c :: cs) = (c :: q) :: qs := by
    intro c hc cs q qs hcs
    simp [strings.splitChars, hc, hcs]
  have heq : ∀ cs, strings.splitChars (Char.ofNat 45) (Char.ofNat 45 :: cs) =
      [] :: strings.splitChars (Char.ofNat 45) cs := by
    intro cs
    simp [strings.splitChars]
  rw [hne 'u' (by decide) _ _ _ (hne 's' (by decide) _ _ _ (hne 'e' (by decide) _ _ _
    (hne 'r' (by decide) _ _ _ (heq _))))]
  rw [hne 'c' (by decide) _ _ _ (hne 'o' (by decide) _ _ _ (hne 'n' (by decide) _ _ _
    (hne 't' (by decide) _ _ _ (hne 'a' (by decide) _ _ _ (hne 'i' (by decide) _ _ _
    (hne 'n' (by decide) _ _ _ (hne 'e' (by decide) _ _ _ (hne 'r' (by decide) _ _ _
    (heq _)))))))))]
  rw [h0]
  rfl

theorem discoverOne_cases (D : Driver σ) (hw : Hub × World σ) (name : String) :
    (discoverOne D hw name).1 = hw.1 ∨
    ∃ userID, strings.Split name (Char.ofNat 45) = ["user", "container", userID] ∧
      (discoverOne D hw name).1 = recordContainer hw.1 userID name none := by
  unfold discoverOne
  split
  · exact Or.inl rfl
  · split
    · rename_i p0 p1 userID hsplit
      split
      · exact Or.inl rfl
      · rename_i hparts
        have hp : p0 = "user" ∧ p1 = "container" := by
          constructor
          · by_contra hne; exact hparts (Or.inl hne)
          · by_contra hne; exact hparts (Or.inr hne)
        split
        · exact Or.inl rfl
        · refine Or.inr ⟨userID, ?_, ?_⟩
          · rw [hsplit, hp.1, hp.2]
          · split <;> rfl
    · exact Or.inl rfl

theorem discoverOne_records (D : Driver σ) (hw : Hub × World σ) (u : String)
    (hu : Char.ofNat 45 ∉ u.data)
    (hrun : ∃ b, (D.ContainerIsRunning (containerNameOf u) hw.2.eng).1 = .ok b) :
    mapGet (discoverOne D hw (containerNameOf u)).1.userContainers u =
      some { ContainerName := containerNameOf u, PortRange := none } := by
  obtain ⟨b, hb⟩ := hrun
  have hne : containerNameOf u ≠ "" := by
    intro h
    have hlen := congrArg String.length h
    simp only [containerNameOf, String.length_append] at hlen
    have h15 : "user-container-".length = 15 := by decide
    have h0 : "".length = 0 := by decide
    omega
  unfold discoverOne
  rw [if_neg hne, split_containerName u hu]
  simp only [docker.ContainerIsRunning, hb]
  have hq : ¬ ("user" ≠ "user" ∨ "container" ≠ "container") := by simp
  rw [if_neg hq]
  cases b <;> simp [recordContainer, mapGet_mapSet_self]

theorem discoverOne_keeps (D : Driver σ) (hw : Hub × World σ) (u line : String)
    (h : mapGet hw.1.userContainers u =
      some { ContainerName := containerNameOf u, PortRange := none }) :
    mapGet (discoverOne D hw line).1.userContainers u =
      some { ContainerName := containerNameOf u, PortRange := none } := by
  rcases discoverOne_cases D hw line with hsame | ⟨userID, hsplit, hrec⟩
  · rw [hsame]; exact h
  · rw [hrec]
    by_cases hid : userID = u
    · subst hid
      rw [containerName_of_split line userID hsplit]
      simp [recordContainer, mapGet_mapSet_self]
    · simp only [recordContainer]
      rw [mapGet_mapSet_ne _ _ _ _ (fun e => hid e.symm)]
      exact h

theorem discover_fold (D : Driver σ) (u : String) (hu : Char.ofNat 45 ∉ u.data)
    (hrun : ∀ e, ∃ b, (D.ContainerIsRunning (containerNameOf u) e).1 = .ok b) :
    ∀ (lines : List String) (hw : Hub × World σ),
      (containerNameOf u ∈ lines ∨
        mapGet hw.1.userContainers u =
          some { ContainerName := containerNameOf u, PortRange := none }) →
      mapGet (lines.foldl (discoverOne D) hw).1.userContainers u =
        some { ContainerName := containerNameOf u, PortRange := none } := by
  intro lines
  induction lines with
  | nil =>
    intro hw h
    rcases h with h | h
    · simp at h
    · exact h
  | cons l rest ih =>
    intro hw h
    rw [List.foldl_cons]
    rcases h with h | h
    · rcases List.mem_cons.mp h with hl | hrest
      · apply ih _ (Or.inr _)
        rw [← hl]
        exact discoverOne_records D hw u hu (hrun _)
      · exact ih _ (Or.inl hrest)
    · exact ih _ (Or.inr (discoverOne_keeps D hw u l h))

/-- C22 (as stated) fails: the engine lists the running container
`user-container-test-user` of the user `test-user`, and discovery records
nothing under that user and does not even ask whether the container runs. -/
theorem hyphenated_user_not_discovered :
    (discoverExistingContainers hyphenDriver NewHub emptyWorld).1.userContainers = [] ∧
    (discoverExistingContainers hyphenDriver NewHub emptyWorld).2.calls =
      [Call.ListUserContainers] := by
  constructor <;> decide

/-- C22 (amended): for every user id `u` without the character `-`, when the
engine lists a container named `user-container-` + u and its running check
succeeds, `discoverExistingContainers` records under key `u` a ContainerInfo
with that container name and no port range. -/
theorem discovery_inverts_naming (D : Driver σ) (h : Hub) (w : World σ) (output u : String)
    (hlist : (D.ListUserContainers w.eng).1 = .ok output)
    (hline : "user-container-" ++ u ∈
      strings.Split (strings.TrimSpace output) (Char.ofNat 10))
    (hu : Char.ofNat 45 ∉ u.data)
    (hrun : ∀ e, ∃ b, (D.ContainerIsRunning ("user-container-" ++ u) e).1 = .ok b) :
    mapGet (discoverExistingContainers D h w).1.userContainers u =
      some { ContainerName := "user-container-" ++ u, PortRange := none } := by
  unfold discoverExistingContainers docker.ListUserContainers
  simp only [hlist]
  exact discover_fold D u hu hrun _ _ (Or.inl hline)

/-- Witness of C22 (amended): the engine lists the stopped container of user
`U1`. -/
theorem discovery_inverts_naming_witness :
    mapGet (discoverExistingContainers (stoppedDriver true) NewHub emptyWorld).1.userContainers
        "U1" =
      some { ContainerName := "user-container-U1", PortRange := none } :=
  discovery_inverts_naming (stoppedDriver true) NewHub emptyWorld "user-container-U1" "U1"
    rfl (by decide) (by decide) (fun _ => ⟨false, rfl⟩)

end discovery

/-! ## The deployment webhook -/

section webhookGate

open webhook

theorem cutChars_some (sep : Char) :
    ∀ (l before after : List Char), strings.cutChars sep l = some (before, after) →
      l = before ++ sep :: after := by
  intro l
  induction l with
  | nil => intro before after h; simp [strings.cutChars] at h
  | cons c cs ih =>
    intro before after h
    unfold strings.cutChars at h
    by_cases hc : c = sep
    · rw [if_pos hc] at h
      simp only [Option.some.injEq, Prod.mk.injEq] at h
      rw [← h.1, ← h.2, hc]
      rfl
    · rw [if_neg hc] at h
      cases hs : strings.cutChars sep cs with
      | none => rw [hs] at h; simp at h
      | some r =>
        obtain ⟨b1, a1⟩ := r
        rw [hs] at h
        simp only [Option.some.injEq, Prod.mk.injEq] at h
        rw [← h.1, ← h.2, ih b1 a1 hs]
        rfl

theorem SplitN2_sha256 (h : String) :
    strings.SplitN2 ("sha256=" ++ h) '=' = ["sha256", h] := by
  have hdata : ("sha256=" ++ h).data = 's' :: 'h' :: 'a' :: '2' :: '5' :: '6' :: '=' :: h.data := by
    simp only [String.data_append]
    rfl
  unfold strings.SplitN2
  rw [hdata]
  have hcut : strings.cutChars '=' ('s' :: 'h' :: 'a' :: '2' :: '5' :: '6' :: '=' :: h.data) =
      some (['s', 'h', 'a', '2', '5', '6'], h.data) := by
    simp [strings.cutChars]
  rw [hcut]

theorem SplitN2_two (s p0 q : String) (h : strings.SplitN2 s '=' = [p0, q]) :
    s = p0 ++ "=" ++ q := by
  unfold strings.SplitN2 at h
  cases hs : strings.cutChars '=' s.data with
  | none => rw [hs] at h; simp at h
  | some r =>
    obtain ⟨before, after⟩ := r
    rw [hs] at h
    simp only [List.cons.injEq, and_true] at h
    apply String.ext
    rw [cutChars_some _ _ _ _ hs, ← h.1, ← h.2]
    simp only [String.data_append, List.append_assoc]
    rfl

theorem webhook_malformed (hmacHex : List UInt8 → List UInt8 → String)
    (unmarshal : List UInt8 → Except String GitHubWebhookPayload)
    (secret : List UInt8) (signature : String) (body : Except String (List UInt8))
    (hbad : ¬ ∃ h, signature = "sha256=" ++ h) :
    (handleGitHubWebhook hmacHex unmarshal secret signature body).status = 400 ∧
    (handleGitHubWebhook hmacHex unmarshal secret signature body).deploy = false := by
  unfold handleGitHubWebhook
  split
  · exact ⟨rfl, rfl⟩
  · split
    · rename_i p0 sigHash hsplit
      by_cases hp : p0 = "sha256"
      · exfalso
        apply hbad
        refine ⟨sigHash, ?_⟩
        rw [SplitN2_two _ _ _ hsplit, hp]
        apply String.ext
        simp only [String.data_append, List.append_assoc]
        rfl
      · rw [if_pos hp]
        exact ⟨rfl, rfl⟩
    · exact ⟨rfl, rfl⟩

theorem webhook_wellformed (hmacHex : List UInt8 → List UInt8 → String)
    (unmarshal : List UInt8 → Except String GitHubWebhookPayload)
    (secret : List UInt8) (h : String) (bytes : List UInt8) :
    handleGitHubWebhook hmacHex unmarshal secret ("sha256=" ++ h) (.ok bytes) =
      if hmacHex secret bytes ≠ h then
        { status := 403, text := "Invalid signature", deploy := false }
      else
        match unmarshal bytes with
        | .error _ => { status := 400, text := "Invalid payload", deploy := false }
        | .ok payload =>
          if payload.Action ≠ "completed" then
            { status := 204, text := "Skipped non-complete action", deploy := false }
          else if payload.WorkflowRun.Conclusion ≠ "success" then
            { status := 204, text := "Skipped unsuccessful run", deploy := false }
          else if payload.WorkflowRun.HeadBranch ≠ "main" then
            { status := 204, text := "Skipped non-main branch", deploy := false }
          else { status := 200, text := "Deployment triggered", deploy := true } := by
  have hne : ("sha256=" ++ h) ≠ "" := by
    intro e
    have hlen := congrArg String.length e
    simp only [String.length_append] at hlen
    have h7 : "sha256=".length = 7 := by decide
    have h0 : "".length = 0 := by decide
    omega
  unfold handleGitHubWebhook
  rw [if_neg hne, SplitN2_sha256]
  simp

/-- C26: the webhook handler answers 200 and starts the deployment exactly
when the signature header is `sha256=` followed by the hex HMAC-SHA256 of the
body under the secret, the body parses, and the payload has action
`completed`, conclusion `success` and head branch `main`. Otherwise nothing is
deployed, and the answer is 400 for a missing or malformed header, 403 for a
wrong signature whatever the body, 400 for a body that does not parse and 204
for any other payload. -/
theorem webhook_gate (hmacHex : List UInt8 → List UInt8 → String)
    (unmarshal : List UInt8 → Except String GitHubWebhookPayload)
    (secret : List UInt8) (signature : String) (bytes : List UInt8) :
    (((handleGitHubWebhook hmacHex unmarshal secret signature (.ok bytes)).status = 200 ∧
      (handleGitHubWebhook hmacHex unmarshal secret signature (.ok bytes)).deploy = true) ↔
      (signature = "sha256=" ++ hmacHex secret bytes ∧
        ∃ p, unmarshal bytes = .ok p ∧ p.Action = "completed" ∧
          p.WorkflowRun.Conclusion = "success" ∧ p.WorkflowRun.HeadBranch = "main")) ∧
    ((handleGitHubWebhook hmacHex unmarshal secret signature (.ok bytes)).deploy = true →
      (handleGitHubWebhook hmacHex unmarshal secret signature (.ok bytes)).status = 200) ∧
    ((¬ ∃ h, signature = "sha256=" ++ h) →
      (handleGitHubWebhook hmacHex unmarshal secret signature (.ok bytes)).status = 400 ∧
      (handleGitHubWebhook hmacHex unmarshal secret signature (.ok bytes)).deploy = false) ∧
    (∀ h, signature = "sha256=" ++ h → h ≠ hmacHex secret bytes →
      (handleGitHubWebhook hmacHex unmarshal secret signature (.ok bytes)).status = 403 ∧
      (handleGitHubWebhook hmacHex unmarshal secret signature (.ok bytes)).deploy = false) ∧
    (signature = "sha256=" ++ hmacHex secret bytes →
      (∀ e, unmarshal bytes = .error e →
        (handleGitHubWebhook hmacHex unmarshal secret signature (.ok bytes)).status = 400 ∧
        (handleGitHubWebhook hmacHex unmarshal secret signature (.ok bytes)).deploy = false) ∧
      (∀ p, unmarshal bytes = .ok p →
        ¬ (p.Action = "completed" ∧ p.WorkflowRun.Conclusion = "success" ∧
          p.WorkflowRun.HeadBranch = "main") →
        (handleGitHubWebhook hmacHex unmarshal secret signature (.ok bytes)).status = 204 ∧
        (handleGitHubWebhook hmacHex unmarshal secret signature (.ok bytes)).deploy = false)) := by
  by_cases hwf : ∃ h, signature = "sha256=" ++ h
  · obtain ⟨h, rfl⟩ := hwf
    rw [webhook_wellformed]
    have hinj : ∀ a b : String, "sha256=" ++ a = "sha256=" ++ b → a = b := by
      intro a b e
      have hd := congrArg String.data e
      simp only [String.data_append] at hd
      exact String.ext (List.append_cancel_left hd)
    have hex : ∃ h1, "sha256=" ++ h = "sha256=" ++ h1 := ⟨h, rfl⟩
    by_cases hsig : hmacHex secret bytes = h
    · subst hsig
      simp only [ne_eq, not_true_eq_false, if_false]
      cases hu : unmarshal bytes with
      | error e =>
        refine ⟨?_, ?_, fun hno => absurd hex hno,
          fun h1 e1 hne => absurd (hinj _ _ e1).symm hne, ?_⟩ <;> simp
      | ok p =>
        by_cases ha : p.Action = "completed" <;>
        by_cases hc : p.WorkflowRun.Conclusion = "success" <;>
        by_cases hb : p.WorkflowRun.HeadBranch = "main" <;>
        refine ⟨?_, ?_, fun hno => absurd hex hno,
          fun h1 e1 hne => absurd (hinj _ _ e1).symm hne, ?_⟩ <;>
        simp [ha, hc, hb]
    · have hsig2 : ¬ ("sha256=" ++ h = "sha256=" ++ hmacHex secret bytes) :=
        fun e => hsig (hinj _ _ e).symm
      simp only [ne_eq, hsig, not_false_eq_true, if_true]
      refine ⟨?_, ?_, fun hno => absurd hex hno, fun _ _ _ => by simp,
        fun e => absurd e hsig2⟩
      · simp [hsig2]
      · simp
  · have hm := webhook_malformed hmacHex unmarshal secret signature (.ok bytes) hwf
    have hns : signature ≠ "sha256=" ++ hmacHex secret bytes := fun e => hwf ⟨_, e⟩
    refine ⟨?_, ?_, fun _ => hm, ?_, ?_⟩
    · constructor
      · intro h200
        rw [hm.1] at h200
        simp at h200
      · intro hs
        exact absurd hs.1 hns
    · intro hd
      rw [hm.2] at hd
      simp at hd
    · intro h e
      exact absurd ⟨h, e⟩ hwf
    · intro e
      exact absurd e hns

/-- Witness of C26: a body whose HMAC is `ab12` and that parses to the payload
of a successful run on `main`, sent with the header `sha256=ab12`. -/
theorem webhook_gate_witness :
    (handleGitHubWebhook (fun _ _ => "ab12") (fun _ => .ok successPayload) [] "sha256=ab12"
      (.ok [])).status = 200 ∧
    (handleGitHubWebhook (fun _ _ => "ab12") (fun _ => .ok successPayload) [] "sha256=ab12"
      (.ok [])).deploy = true :=
  (webhook_gate (fun _ _ => "ab12") (fun _ => .ok successPayload) [] "sha256=ab12" []).1.mpr
    ⟨by decide, successPayload, rfl, by decide, by decide, by decide⟩

end webhookGate

/-! ## The user records -/

section userRecords

open auth

end userRecords

/-! ## Clients and sessions are created and destroyed together -/

section paired

variable {σ : Type}

/-- C8: evaluation at the failing input. A stream registers and `Stop` closes
its send queue, leaving the stream in `clients`; `unregisterClient` then panics
in `closeClient`. The stream is out of `clients` and still has its entry in
`sessions`, and no timer is armed for its user, who has no other session. -/
theorem unregister_after_stop_panics :
    stopThenUnregister.map
        (fun r => (panicked r.2, mapHas r.1.clients tab1, mapHas r.1.sessions tab1,
          mapHas r.1.cleanupTimers "U1")) = some (true, false, true, false) ∧
    stopThenUnregister.map
        (fun r => r.1.sessions.filter (fun p => decide (p.1 ≠ tab1))) = some [] := by
  constructor <;> decide

end paired

/-! ## The attach script and the texts it does not contain -/

section attachScript

theorem isPrefixOf_decomp (sub : List Char) :
    ∀ l : List Char, sub.isPrefixOf l = true → ∃ post, l = sub ++ post := by
  induction sub with
  | nil => intro l _; exact ⟨l, rfl⟩
  | cons a rest ih =>
    intro l h
    cases l with
    | nil => simp [List.isPrefixOf] at h
    | cons b bs =>
      simp only [List.isPrefixOf, Bool.and_eq_true, beq_iff_eq] at h
      obtain ⟨post, hpost⟩ := ih bs h.2
      exact ⟨post, by rw [h.1, hpost]; rfl⟩

theorem containsChars_decomp (sub : List Char) :
    ∀ s : List Char, strings.containsChars sub s = true →
      ∃ pre post, s = pre ++ (sub ++ post) := by
  intro s
  induction s with
  | nil =>
    intro h
    simp only [strings.containsChars, List.isEmpty_iff] at h
    exact ⟨[], [], by simp [h]⟩
  | cons c cs ih =>
    intro h
    simp only [strings.containsChars, Bool.or_eq_true] at h
    rcases h with h | h
    · obtain ⟨post, hpost⟩ := isPrefixOf_decomp sub (c :: cs) h
      exact ⟨[], post, by simpa using hpost⟩
    · obtain ⟨pre, post, hd⟩ := ih h
      exact ⟨c :: pre, post, by rw [hd]; rfl⟩

theorem append_eq_marker (m : Char) :
    ∀ (u v x y : List Char), u ++ v = x ++ m :: y →
      (∃ z, u = x ++ m :: z ∧ y = z ++ v) ∨ (∃ z, v = z ++ m :: y ∧ x = u ++ z) := by
  intro u
  induction u with
  | nil =>
    intro v x y h
    exact Or.inr ⟨x, by simpa using h, rfl⟩
  | cons a u1 ih =>
    intro v x y h
    cases x with
    | nil =>
      simp only [List.cons_append, List.nil_append, List.cons.injEq] at h
      exact Or.inl ⟨u1, by rw [h.1]; rfl, h.2.symm⟩
    | cons b x1 =>
      simp only [List.cons_append, List.cons.injEq] at h
      rcases ih v x1 y h.2 with ⟨z, hz, hy⟩ | ⟨z, hz, hx⟩
      · exact Or.inl ⟨z, by rw [h.1, hz]; rfl, hy⟩
      · exact Or.inr ⟨z, hz, by rw [h.1, hx]; rfl⟩

theorem mem_splitsAt (m : Char) :
    ∀ (x z l : List Char), l = x ++ m :: z → (x, z) ∈ strings.splitsAt m l := by
  intro x
  induction x with
  | nil =>
    intro z l h
    rw [h]
    simp [strings.splitsAt]
  | cons a x1 ih =>
    intro z l h
    rw [h]
    simp only [List.cons_append, strings.splitsAt, List.mem_append, List.mem_map]
    exact Or.inr ⟨(x1, z), ih z _ rfl, rfl⟩

theorem agree_of_append (b : List Char) :
    ∀ (z post rest : List Char), b ++ post = z ++ rest → strings.agree b z = true := by
  induction b with
  | nil => intro z _ _ _; simp [strings.agree]
  | cons c cs ih =>
    intro z post rest h
    cases z with
    | nil => simp [strings.agree]
    | cons d ds =>
      simp only [List.cons_append, List.cons.injEq] at h
      simp only [strings.agree, Bool.and_eq_true, decide_eq_true_eq]
      exact ⟨h.1, ih ds post rest h.2⟩

theorem agree_reverse_of_append (a pre x rest : List Char) (h : pre ++ a = rest ++ x) :
    strings.agree a.reverse x.reverse = true := by
  apply agree_of_append a.reverse x.reverse pre.reverse rest.reverse
  rw [← List.reverse_append, ← List.reverse_append, h]

theorem not_clear_of_split (m : Char) (a b l x z : List Char)
    (hmem : (x, z) ∈ strings.splitsAt m l)
    (ha : strings.agree a.reverse x.reverse = true) (hb : strings.agree b z = true) :
    strings.clearOf m a b l = false := by
  apply Bool.eq_false_iff.mpr
  intro hclear
  simp only [strings.clearOf, List.all_eq_true] at hclear
  have h := hclear (x, z) hmem
  simp [ha, hb] at h

/-- A text `a ++ m :: b` does not occur in `P ++ T ++ M ++ T2` when the
character `m` occurs neither in `T` nor in `T2`, and no occurrence of `m` in
`P` or in `M` has the end of `a` before it and the start of `b` after it. -/
theorem containsChars_marker (m : Char) (a b P T M T2 : List Char)
    (hT : m ∉ T) (hT2 : m ∉ T2)
    (hP : strings.clearOf m a b P = true) (hM : strings.clearOf m a b M = true) :
    strings.containsChars (a ++ m :: b) (P ++ (T ++ (M ++ T2))) = false := by
  apply Bool.eq_false_iff.mpr
  intro hocc
  obtain ⟨pre, post, hd⟩ := containsChars_decomp _ _ hocc
  have hd1 : P ++ (T ++ (M ++ T2)) = (pre ++ a) ++ m :: (b ++ post) := by
    rw [hd]
    simp [List.append_assoc]
  rcases append_eq_marker m P _ _ _ hd1 with ⟨z, hz, hy⟩ | ⟨z, hz, hx⟩
  · have hclear := not_clear_of_split m a b P (pre ++ a) z (mem_splitsAt m _ _ _ hz)
      (agree_reverse_of_append a pre (pre ++ a) [] (by simp))
      (agree_of_append b z post _ hy)
    rw [hP] at hclear
    exact absurd hclear (by decide)
  · rcases append_eq_marker m T _ _ _ hz with ⟨z1, hz1, _⟩ | ⟨z1, hz1, hx1⟩
    · exact hT (by rw [hz1]; simp)
    · rcases append_eq_marker m M _ _ _ hz1 with ⟨z2, hz2, hy2⟩ | ⟨z2, hz2, _⟩
      · have hclear := not_clear_of_split m a b M z1 z2 (mem_splitsAt m _ _ _ hz2)
          (agree_reverse_of_append a pre z1 (P ++ T) (by rw [hx, hx1]; simp))
          (agree_of_append b z2 post _ hy2)
        rw [hM] at hclear
        exact absurd hclear (by decide)
      · exact hT2 (by rw [hz2]; simp)

theorem alphanumeric_chars (tabID : String) (h : auth.isAlphanumeric tabID = true) :
    ' ' ∉ tabID.data ∧ '-' ∉ tabID.data ∧ '@' ∉ tabID.data := by
  simp only [auth.isAlphanumeric, List.all_eq_true] at h
  refine ⟨fun hm => ?_, fun hm => ?_, fun hm => ?_⟩
  · exact absurd (h _ hm) (by decide)
  · exact absurd (h _ hm) (by decide)
  · exact absurd (h _ hm) (by decide)

theorem attach_script_data (tabID : String) :
    ("tmux set -g mouse on; tmux set -g status off; tmux set -g history-limit 100000; tmux new-session -d -A -s "
        ++ ("3compute-tab" ++ tabID) ++ "; tmux attach -t " ++ ("3compute-tab" ++ tabID)).data =
      "tmux set -g mouse on; tmux set -g status off; tmux set -g history-limit 100000; tmux new-session -d -A -s 3compute-tab".data
        ++ (tabID.data ++ ("; tmux attach -t 3compute-tab".data ++ tabID.data)) := by
  simp only [String.data_append, List.append_assoc]
  rfl

end attachScript

section attachScriptClaim

set_option maxRecDepth 100000

theorem clear_of_mouse_off :
    strings.clearOf ' ' ['m', 'o', 'u', 's', 'e'] ['o', 'f', 'f']
      "tmux set -g mouse on; tmux set -g status off; tmux set -g history-limit 100000; tmux new-session -d -A -s 3compute-tab".data
      = true ∧
    strings.clearOf ' ' ['m', 'o', 'u', 's', 'e'] ['o', 'f', 'f']
      "; tmux attach -t 3compute-tab".data = true := by
  constructor <;> decide

theorem clear_of_overrides :
    strings.clearOf '-' ['t', 'e', 'r', 'm', 'i', 'n', 'a', 'l']
      ['o', 'v', 'e', 'r', 'r', 'i', 'd', 'e', 's']
      "tmux set -g mouse on; tmux set -g status off; tmux set -g history-limit 100000; tmux new-session -d -A -s 3compute-tab".data
      = true ∧
    strings.clearOf '-' ['t', 'e', 'r', 'm', 'i', 'n', 'a', 'l']
      ['o', 'v', 'e', 'r', 'r', 'i', 'd', 'e', 's']
      "; tmux attach -t 3compute-tab".data = true := by
  constructor <;> decide

theorem clear_of_smcup :
    strings.clearOf '@' ['s', 'm', 'c', 'u', 'p'] [':', 'r', 'm', 'c', 'u', 'p', '@']
      "tmux set -g mouse on; tmux set -g status off; tmux set -g history-limit 100000; tmux new-session -d -A -s 3compute-tab".data
      = true ∧
    strings.clearOf '@' ['s', 'm', 'c', 'u', 'p'] [':', 'r', 'm', 'c', 'u', 'p', '@']
      "; tmux attach -t 3compute-tab".data = true := by
  constructor <;> decide

theorem attach_script_mouse_on (tabID : String) :
    strings.Contains
      ("tmux set -g mouse on; tmux set -g status off; tmux set -g history-limit 100000; tmux new-session -d -A -s "
        ++ ("3compute-tab" ++ tabID) ++ "; tmux attach -t " ++ ("3compute-tab" ++ tabID))
      "tmux set -g mouse on" = true ∧
    strings.HasPrefix
      ("tmux set -g mouse on; tmux set -g status off; tmux set -g history-limit 100000; tmux new-session -d -A -s "
        ++ ("3compute-tab" ++ tabID) ++ "; tmux attach -t " ++ ("3compute-tab" ++ tabID))
      "tmux set -g mouse on; tmux set -g status off; tmux set -g history-limit 100000; tmux new-session -d -A -s 3compute-tab"
      = true := by
  constructor
  · have h := Contains_middle "" "tmux set -g mouse on"
      ("; tmux set -g status off; tmux set -g history-limit 100000; tmux new-session -d -A -s "
        ++ ("3compute-tab" ++ tabID) ++ "; tmux attach -t " ++ ("3compute-tab" ++ tabID))
    have heq : "" ++ "tmux set -g mouse on" ++
        ("; tmux set -g status off; tmux set -g history-limit 100000; tmux new-session -d -A -s "
          ++ ("3compute-tab" ++ tabID) ++ "; tmux attach -t " ++ ("3compute-tab" ++ tabID)) =
        "tmux set -g mouse on; tmux set -g status off; tmux set -g history-limit 100000; tmux new-session -d -A -s "
          ++ ("3compute-tab" ++ tabID) ++ "; tmux attach -t " ++ ("3compute-tab" ++ tabID) := by
      apply String.ext
      simp only [String.data_append, List.append_assoc]
      rfl
    rw [heq] at h
    exact h
  · have h := HasPrefix_append
      "tmux set -g mouse on; tmux set -g status off; tmux set -g history-limit 100000; tmux new-session -d -A -s 3compute-tab"
      (tabID ++ "; tmux attach -t " ++ ("3compute-tab" ++ tabID))
    have heq : "tmux set -g mouse on; tmux set -g status off; tmux set -g history-limit 100000; tmux new-session -d -A -s 3compute-tab"
          ++ (tabID ++ "; tmux attach -t " ++ ("3compute-tab" ++ tabID)) =
        "tmux set -g mouse on; tmux set -g status off; tmux set -g history-limit 100000; tmux new-session -d -A -s "
          ++ ("3compute-tab" ++ tabID) ++ "; tmux attach -t " ++ ("3compute-tab" ++ tabID) := by
      apply String.ext
      simp only [String.data_append, List.append_assoc]
      rfl
    rw [heq] at h
    exact h

theorem attach_script_clear (tabID : String) (m : Char) (a b : List Char)
    (hm : m ∉ tabID.data)
    (hP : strings.clearOf m a b
      "tmux set -g mouse on; tmux set -g status off; tmux set -g history-limit 100000; tmux new-session -d -A -s 3compute-tab".data
      = true)
    (hM : strings.clearOf m a b "; tmux attach -t 3compute-tab".data = true) :
    strings.containsChars (a ++ m :: b)
      ("tmux set -g mouse on; tmux set -g status off; tmux set -g history-limit 100000; tmux new-session -d -A -s "
        ++ ("3compute-tab" ++ tabID) ++ "; tmux attach -t " ++ ("3compute-tab" ++ tabID)).data
      = false := by
  rw [attach_script_data]
  exact containsChars_marker m a b _ _ _ _ hm hm hP hM

/-- C17 (amended): when the container is running, the last argument of the
command built by `AttachToContainer` is the script `tmux set -g mouse on; tmux
set -g status off; tmux set -g history-limit 100000; tmux new-session -d -A -s
3compute-tab<tabId>; tmux attach -t 3compute-tab<tabId>`. It contains `tmux set
-g mouse on` and starts with the three settings followed at once by the
new-session command; and for a tab id of ASCII letters and digits it contains
neither `mouse off` nor `terminal-overrides` nor `smcup@:rmcup@`. -/
theorem attach_script_sets_mouse_on (containerName tabID : String) :
    ∃ script, docker.impl.AttachToContainer (.ok true) containerName tabID =
        .ok ["docker", "exec", "-it", containerName, "sh", "-lc", script] ∧
      script =
        "tmux set -g mouse on; tmux set -g status off; tmux set -g history-limit 100000; tmux new-session -d -A -s 3compute-tab"
          ++ tabID ++ "; tmux attach -t 3compute-tab" ++ tabID ∧
      strings.Contains script "tmux set -g mouse on" = true ∧
      strings.HasPrefix script
        "tmux set -g mouse on; tmux set -g status off; tmux set -g history-limit 100000; tmux new-session -d -A -s 3compute-tab"
        = true ∧
      (auth.isAlphanumeric tabID = true →
        strings.Contains script "mouse off" = false ∧
        strings.Contains script "terminal-overrides" = false ∧
        strings.Contains script "smcup@:rmcup@" = false) := by
  refine ⟨_, rfl, ?_, (attach_script_mouse_on tabID).1, (attach_script_mouse_on tabID).2, ?_⟩
  · apply String.ext
    simp only [String.data_append, List.append_assoc]
    rfl
  · intro halnum
    obtain ⟨hsp, hdash, hat⟩ := alphanumeric_chars tabID halnum
    refine ⟨?_, ?_, ?_⟩
    · exact attach_script_clear tabID ' ' ['m', 'o', 'u', 's', 'e'] ['o', 'f', 'f'] hsp
        clear_of_mouse_off.1 clear_of_mouse_off.2
    · exact attach_script_clear tabID '-' ['t', 'e', 'r', 'm', 'i', 'n', 'a', 'l']
        ['o', 'v', 'e', 'r', 'r', 'i', 'd', 'e', 's'] hdash clear_of_overrides.1
        clear_of_overrides.2
    · exact attach_script_clear tabID '@' ['s', 'm', 'c', 'u', 'p']
        [':', 'r', 'm', 'c', 'u', 'p', '@'] hat clear_of_smcup.1 clear_of_smcup.2

/-- Witness of C17 (amended): the container and the tab of the test. -/
theorem attach_script_sets_mouse_on_witness :
    auth.isAlphanumeric "2" = true ∧
    ∃ script, docker.impl.AttachToContainer (.ok true) "test-container" "2" =
        .ok ["docker", "exec", "-it", "test-container", "sh", "-lc", script] ∧
      strings.Contains script "tmux set -g mouse on" = true ∧
      strings.Contains script "mouse off" = false ∧
      strings.Contains script "terminal-overrides" = false ∧
      strings.Contains script "smcup@:rmcup@" = false := by
  obtain ⟨script, h1, _, h3, _, h5⟩ := attach_script_sets_mouse_on "test-container" "2"
  exact ⟨by decide, script, h1, h3, (h5 (by decide)).1, (h5 (by decide)).2.1,
    (h5 (by decide)).2.2⟩

end attachScriptClaim
